import Mathlib

/-!
# TTY-3D-renderer: vector and matrix library, frame loop, blitter, input, meshes

A shallow embedding of `vectors.h` and of the frame loop, the framebuffer blitter, the
input state tracker and the mesh functions of `tty_renderer.c`.  The C `float` is an
arbitrary field `α`; the theorems are stated over `ℝ`.  The functions of `math.h` that the
code calls (`sqrt`, `sin`, `cos`, `tan`) are parameters of the definitions, so that every
definition stays executable; the theorems instantiate them with `Real.sqrt`, `Real.sin`,
`Real.cos` and `Real.tan`.  The integers of the blitter are taken without overflow.  What
the program gets from the operating system, the input device and OpenGL ES is an argument
of the definitions; what it does to the framebuffer memory and the calls of OpenGL ES it
issues are results.
-/

namespace TTYRenderer

/-! ## Data model (`vectors.h`, lines 7-28) -/

/-- The struct `vec2`. -/
@[ext] structure vec2 (α : Type) where
  x : α
  y : α

/-- The struct `vec3`. -/
@[ext] structure vec3 (α : Type) where
  x : α
  y : α
  z : α

/-- The struct `vec4`. -/
@[ext] structure vec4 (α : Type) where
  x : α
  y : α
  z : α
  w : α

/-- The struct `mat4`: the array `float m[16]`. -/
@[ext] structure mat4 (α : Type) where
  m : Fin 16 → α

/-- The assignment `result.m[i] = v`. -/
def mat4.set {α : Type} (a : mat4 α) (i : Fin 16) (v : α) : mat4 α :=
  ⟨Function.update a.m i v⟩

/-- The array index `i * 4 + j` of the loops over `i, j < 4`. -/
def idx (i j : Fin 4) : Fin 16 := ⟨i.val * 4 + j.val, by omega⟩

section Vectors

variable {α : Type} [Field α]

/-! ## Vector operations (`vectors.h`, lines 31-227) -/

/-- The function `length_vec2`: `sqrt(pow(a.x, 2) + pow(a.y, 2))`. -/
def length_vec2 (sqrt : α → α) (a : vec2 α) : α :=
  sqrt (a.x ^ 2 + a.y ^ 2)

/-- The function `length_vec3` of `vectors.h`. -/
def length_vec3 (sqrt : α → α) (a : vec3 α) : α :=
  sqrt (a.x ^ 2 + a.y ^ 2 + a.z ^ 2)

/-- The function `length_vec4` of `vectors.h`. -/
def length_vec4 (sqrt : α → α) (a : vec4 α) : α :=
  sqrt (a.x ^ 2 + a.y ^ 2 + a.z ^ 2 + a.w ^ 2)

/-- The function `scale_vec2` of `vectors.h`. -/
def scale_vec2 (a : vec2 α) (b : α) : vec2 α := ⟨a.x * b, a.y * b⟩

/-- The function `scale_vec3` of `vectors.h`. -/
def scale_vec3 (a : vec3 α) (b : α) : vec3 α := ⟨a.x * b, a.y * b, a.z * b⟩

/-- The function `scale_vec4` of `vectors.h`. -/
def scale_vec4 (a : vec4 α) (b : α) : vec4 α := ⟨a.x * b, a.y * b, a.z * b, a.w * b⟩

/-- The function `add_vec2` of `vectors.h`. -/
def add_vec2 (a b : vec2 α) : vec2 α := ⟨a.x + b.x, a.y + b.y⟩

/-- The function `add_vec3` of `vectors.h`. -/
def add_vec3 (a b : vec3 α) : vec3 α := ⟨a.x + b.x, a.y + b.y, a.z + b.z⟩

/-- The function `add_vec4` of `vectors.h`. -/
def add_vec4 (a b : vec4 α) : vec4 α := ⟨a.x + b.x, a.y + b.y, a.z + b.z, a.w + b.w⟩

/-- The function `subtract_vec2`: adds `scale_vec2(b, -1)`. -/
def subtract_vec2 (a b : vec2 α) : vec2 α :=
  let neg_b := scale_vec2 b (-1)
  add_vec2 a neg_b

/-- The function `subtract_vec3`: adds `scale_vec3(b, -1)`. -/
def subtract_vec3 (a b : vec3 α) : vec3 α :=
  let neg_b := scale_vec3 b (-1)
  add_vec3 a neg_b

/-- The function `subtract_vec4`: adds `scale_vec4(b, -1)`. -/
def subtract_vec4 (a b : vec4 α) : vec4 α :=
  let neg_b := scale_vec4 b (-1)
  add_vec4 a neg_b

/-- The function `normalize_vec2`: divides by the length unless the length is zero. -/
def normalize_vec2 [DecidableEq α] (sqrt : α → α) (a : vec2 α) : vec2 α :=
  let length := length_vec2 sqrt a
  if length ≠ 0 then ⟨a.x / length, a.y / length⟩ else a

/-- The function `normalize_vec3` of `vectors.h`. -/
def normalize_vec3 [DecidableEq α] (sqrt : α → α) (a : vec3 α) : vec3 α :=
  let length := length_vec3 sqrt a
  if length ≠ 0 then ⟨a.x / length, a.y / length, a.z / length⟩ else a

/-- The function `normalize_vec4` of `vectors.h`. -/
def normalize_vec4 [DecidableEq α] (sqrt : α → α) (a : vec4 α) : vec4 α :=
  let length := length_vec4 sqrt a
  if length ≠ 0 then ⟨a.x / length, a.y / length, a.z / length, a.w / length⟩ else a

/-- The function `dot_vec3` of `vectors.h`. -/
def dot_vec3 (a b : vec3 α) : α := a.x * b.x + a.y * b.y + a.z * b.z

/-- The function `cross_vec3` of `vectors.h`. -/
def cross_vec3 (a b : vec3 α) : vec3 α :=
  ⟨a.y * b.z - a.z * b.y, a.z * b.x - a.x * b.z, a.x * b.y - a.y * b.x⟩

end Vectors

section Matrices

variable {α : Type} [Field α]

/-! ## Matrix operations (`vectors.h`, lines 237-542) -/

/-- The function `mat4_identity`: every entry is set to 0, then entries 0, 5, 10, 15 to 1. -/
def mat4_identity : mat4 α :=
  ((((⟨fun _ => 0⟩ : mat4 α).set 0 1).set 5 1).set 10 1).set 15 1

/-- The function `mat4_multiply`: for `i, j < 4`, entry `i * 4 + j` of the result is
`a.m[i*4+0] * b.m[0*4+j] + a.m[i*4+1] * b.m[1*4+j] + a.m[i*4+2] * b.m[2*4+j] +
a.m[i*4+3] * b.m[3*4+j]`. -/
def mat4_multiply (a b : mat4 α) : mat4 α :=
  ⟨fun k =>
    let i : Fin 4 := ⟨k.val / 4, by omega⟩
    let j : Fin 4 := ⟨k.val % 4, by omega⟩
    a.m (idx i 0) * b.m (idx 0 j) +
    a.m (idx i 1) * b.m (idx 1 j) +
    a.m (idx i 2) * b.m (idx 2 j) +
    a.m (idx i 3) * b.m (idx 3 j)⟩

/-- The function `mat4_transform_vec4` of `vectors.h`. -/
def mat4_transform_vec4 (m : mat4 α) (v : vec4 α) : vec4 α :=
  ⟨m.m 0 * v.x + m.m 4 * v.y + m.m 8 * v.z + m.m 12 * v.w,
   m.m 1 * v.x + m.m 5 * v.y + m.m 9 * v.z + m.m 13 * v.w,
   m.m 2 * v.x + m.m 6 * v.y + m.m 10 * v.z + m.m 14 * v.w,
   m.m 3 * v.x + m.m 7 * v.y + m.m 11 * v.z + m.m 15 * v.w⟩

/-- The function `mat4_translate` of `vectors.h`. -/
def mat4_translate (m : mat4 α) (v : vec3 α) : mat4 α :=
  let result := m
  let result := result.set 12 (m.m 0 * v.x + m.m 4 * v.y + m.m 8 * v.z + m.m 12)
  let result := result.set 13 (m.m 1 * v.x + m.m 5 * v.y + m.m 9 * v.z + m.m 13)
  let result := result.set 14 (m.m 2 * v.x + m.m 6 * v.y + m.m 10 * v.z + m.m 14)
  let result := result.set 15 (m.m 3 * v.x + m.m 7 * v.y + m.m 11 * v.z + m.m 15)
  result

/-- The function `mat4_look_at` of `vectors.h`. -/
def mat4_look_at [DecidableEq α] (sqrt : α → α) (eye center up : vec3 α) : mat4 α :=
  let f := normalize_vec3 sqrt (subtract_vec3 center eye)
  let s := normalize_vec3 sqrt (cross_vec3 f up)
  let u := cross_vec3 s f
  let result : mat4 α := mat4_identity
  let result := result.set 0 s.x
  let result := result.set 4 s.y
  let result := result.set 8 s.z
  let result := result.set 1 u.x
  let result := result.set 5 u.y
  let result := result.set 9 u.z
  let result := result.set 2 (-f.x)
  let result := result.set 6 (-f.y)
  let result := result.set 10 (-f.z)
  let result := result.set 12 (-dot_vec3 s eye)
  let result := result.set 13 (-dot_vec3 u eye)
  let result := result.set 14 (dot_vec3 f eye)
  result

/-- The function `mat4_transform_vec3`: the affine image of `v`, divided by `w` unless `w`
is zero. -/
def mat4_transform_vec3 [DecidableEq α] (m : mat4 α) (v : vec3 α) : vec3 α :=
  let x := m.m 0 * v.x + m.m 4 * v.y + m.m 8 * v.z + m.m 12
  let y := m.m 1 * v.x + m.m 5 * v.y + m.m 9 * v.z + m.m 13
  let z := m.m 2 * v.x + m.m 6 * v.y + m.m 10 * v.z + m.m 14
  let w := m.m 3 * v.x + m.m 7 * v.y + m.m 11 * v.z + m.m 15
  if w ≠ 0 then ⟨x / w, y / w, z / w⟩ else ⟨x, y, z⟩

/-- The local array `inv` of `mat4_invert` after its sixteen assignments (lines 419-529),
in the order of the source. -/
def mat4_invert_inv (m : mat4 α) : Fin 16 → α :=
  let inv : Fin 16 → α := fun _ => 0
  let inv := Function.update inv 0
    (m.m 5 * m.m 10 * m.m 15 - m.m 5 * m.m 11 * m.m 14 - m.m 9 * m.m 6 * m.m 15
      + m.m 9 * m.m 7 * m.m 14 + m.m 13 * m.m 6 * m.m 11 - m.m 13 * m.m 7 * m.m 10)
  let inv := Function.update inv 4
    (-m.m 4 * m.m 10 * m.m 15 + m.m 4 * m.m 11 * m.m 14 + m.m 8 * m.m 6 * m.m 15
      - m.m 8 * m.m 7 * m.m 14 - m.m 12 * m.m 6 * m.m 11 + m.m 12 * m.m 7 * m.m 10)
  let inv := Function.update inv 8
    (m.m 4 * m.m 9 * m.m 15 - m.m 4 * m.m 11 * m.m 13 - m.m 8 * m.m 5 * m.m 15
      + m.m 8 * m.m 7 * m.m 13 + m.m 12 * m.m 5 * m.m 11 - m.m 12 * m.m 7 * m.m 9)
  let inv := Function.update inv 12
    (-m.m 4 * m.m 9 * m.m 14 + m.m 4 * m.m 10 * m.m 13 + m.m 8 * m.m 5 * m.m 14
      - m.m 8 * m.m 6 * m.m 13 - m.m 12 * m.m 5 * m.m 10 + m.m 12 * m.m 6 * m.m 9)
  let inv := Function.update inv 1
    (-m.m 1 * m.m 10 * m.m 15 + m.m 1 * m.m 11 * m.m 14 + m.m 9 * m.m 2 * m.m 15
      - m.m 9 * m.m 3 * m.m 14 - m.m 13 * m.m 2 * m.m 11 + m.m 13 * m.m 3 * m.m 10)
  let inv := Function.update inv 5
    (m.m 0 * m.m 10 * m.m 15 - m.m 0 * m.m 11 * m.m 14 - m.m 8 * m.m 2 * m.m 15
      + m.m 8 * m.m 3 * m.m 14 + m.m 12 * m.m 2 * m.m 11 - m.m 12 * m.m 3 * m.m 10)
  let inv := Function.update inv 9
    (-m.m 0 * m.m 9 * m.m 15 + m.m 0 * m.m 11 * m.m 13 + m.m 8 * m.m 1 * m.m 15
      - m.m 8 * m.m 3 * m.m 13 - m.m 12 * m.m 1 * m.m 11 + m.m 12 * m.m 3 * m.m 9)
  let inv := Function.update inv 13
    (m.m 0 * m.m 9 * m.m 14 - m.m 0 * m.m 10 * m.m 13 - m.m 8 * m.m 1 * m.m 14
      + m.m 8 * m.m 2 * m.m 13 + m.m 12 * m.m 1 * m.m 10 - m.m 12 * m.m 2 * m.m 9)
  let inv := Function.update inv 2
    (m.m 1 * m.m 6 * m.m 15 - m.m 1 * m.m 7 * m.m 14 - m.m 5 * m.m 2 * m.m 15
      + m.m 5 * m.m 3 * m.m 14 + m.m 13 * m.m 2 * m.m 7 - m.m 13 * m.m 3 * m.m 6)
  let inv := Function.update inv 6
    (-m.m 0 * m.m 6 * m.m 15 + m.m 0 * m.m 7 * m.m 14 + m.m 4 * m.m 2 * m.m 15
      - m.m 4 * m.m 3 * m.m 14 - m.m 12 * m.m 2 * m.m 7 + m.m 12 * m.m 3 * m.m 6)
  let inv := Function.update inv 10
    (m.m 0 * m.m 5 * m.m 15 - m.m 0 * m.m 7 * m.m 13 - m.m 4 * m.m 1 * m.m 15
      + m.m 4 * m.m 3 * m.m 13 + m.m 12 * m.m 1 * m.m 7 - m.m 12 * m.m 3 * m.m 5)
  let inv := Function.update inv 14
    (-m.m 0 * m.m 5 * m.m 14 + m.m 0 * m.m 6 * m.m 13 + m.m 4 * m.m 1 * m.m 14
      - m.m 4 * m.m 2 * m.m 13 - m.m 12 * m.m 1 * m.m 6 + m.m 12 * m.m 2 * m.m 5)
  let inv := Function.update inv 3
    (-m.m 1 * m.m 6 * m.m 11 + m.m 1 * m.m 7 * m.m 10 + m.m 5 * m.m 2 * m.m 11
      - m.m 5 * m.m 3 * m.m 10 - m.m 9 * m.m 2 * m.m 7 + m.m 9 * m.m 3 * m.m 6)
  let inv := Function.update inv 7
    (m.m 0 * m.m 6 * m.m 11 - m.m 0 * m.m 7 * m.m 10 - m.m 4 * m.m 2 * m.m 11
      + m.m 4 * m.m 3 * m.m 10 + m.m 8 * m.m 2 * m.m 7 - m.m 8 * m.m 3 * m.m 6)
  let inv := Function.update inv 11
    (-m.m 0 * m.m 5 * m.m 11 + m.m 0 * m.m 7 * m.m 9 + m.m 4 * m.m 1 * m.m 11
      - m.m 4 * m.m 3 * m.m 9 - m.m 8 * m.m 1 * m.m 7 + m.m 8 * m.m 3 * m.m 5)
  let inv := Function.update inv 15
    (m.m 0 * m.m 5 * m.m 10 - m.m 0 * m.m 6 * m.m 9 - m.m 4 * m.m 1 * m.m 10
      + m.m 4 * m.m 2 * m.m 9 + m.m 8 * m.m 1 * m.m 6 - m.m 8 * m.m 2 * m.m 5)
  inv

/-- The local `det` of `mat4_invert` at the test `det == 0` (line 531). -/
def mat4_invert_det (m : mat4 α) : α :=
  let inv := mat4_invert_inv m
  m.m 0 * inv 0 + m.m 1 * inv 4 + m.m 2 * inv 8 + m.m 3 * inv 12

/-- The function `mat4_invert`: returns `m` when `det == 0`, otherwise the array of
`inv[i] * (1.0 / det)` for `i < 16`. -/
def mat4_invert [DecidableEq α] (m : mat4 α) : mat4 α :=
  let inv := mat4_invert_inv m
  let det := mat4_invert_det m
  if det = 0 then m
  else
    let det := 1 / det
    ⟨fun i => inv i * det⟩


end Matrices

/-- The matrix with entry `m[i * 4 + j]` in row `i` and column `j`, on which
`Matrix.det` is the determinant of the sixteen numbers (the transposed reading
has the same determinant). -/
def mat4.toMatrix {α : Type} (a : mat4 α) : Matrix (Fin 4) (Fin 4) α :=
  Matrix.of fun i j => a.m (idx i j)

/-! ## Camera update of the frame loop (`tty_renderer.c`, lines 1049-1134) -/

/-- The struct `KeyState` (1 = pressed, 0 = released). -/
structure KeyState where
  w : Int
  a : Int
  s : Int
  d : Int
  h : Int
  j : Int
  k : Int
  l : Int
  q : Int
  shift : Int
  space : Int
deriving DecidableEq

/-- The variables of `main` that the camera part of the loop body reads and writes. -/
structure LoopState (α : Type) where
  done : Int
  time : α
  camera_position : vec3 α
  camera_rotation : vec3 α

section FrameLoop

variable {α : Type} [LinearOrderedField α]

/-- The macro `PI`, `3.14159265`. -/
def PI : α := 314159265 / 100000000

/-- The macro `EPSILON`, `1e-6f`. -/
def EPSILON : α := 1 / 1000000

/-- The local `move_speed`, `2.0f`. -/
def move_speed : α := 2

/-- The local `rotation_speed`, `1.0f`. -/
def rotation_speed : α := 1

/-- The state of `main` when the loop is entered: `done = 0`, `time = 0`, the camera at
`(0, 0, 3)` with rotation `(0, 0, 0)`. -/
def initial_state : LoopState α :=
  { done := 0, time := 0, camera_position := ⟨0, 0, 3⟩, camera_rotation := ⟨0, 0, 0⟩ }

/-- Lines 1110-1134 of the loop body: movement along the basis vectors of the current yaw,
rotation, the pitch clamp, vertical movement. -/
def camera_update (sqrt sin cos : α → α) (key_state : KeyState) (delta : α)
    (st : LoopState α) : LoopState α :=
  let camera_position := st.camera_position
  let camera_rotation := st.camera_rotation
  let forward : vec3 α := ⟨-sin camera_rotation.y, 0, -cos camera_rotation.y⟩
  let right : vec3 α := ⟨cos camera_rotation.y, 0, -sin camera_rotation.y⟩
  let forward := normalize_vec3 sqrt forward
  let right := normalize_vec3 sqrt right
  let camera_position :=
    if key_state.w ≠ 0 then add_vec3 camera_position (scale_vec3 forward (move_speed * delta))
    else camera_position
  let camera_position :=
    if key_state.s ≠ 0 then
      subtract_vec3 camera_position (scale_vec3 forward (move_speed * delta))
    else camera_position
  let camera_position :=
    if key_state.a ≠ 0 then subtract_vec3 camera_position (scale_vec3 right (move_speed * delta))
    else camera_position
  let camera_position :=
    if key_state.d ≠ 0 then add_vec3 camera_position (scale_vec3 right (move_speed * delta))
    else camera_position
  let camera_rotation :=
    if key_state.k ≠ 0 then { camera_rotation with x := camera_rotation.x + rotation_speed * delta }
    else camera_rotation
  let camera_rotation :=
    if key_state.j ≠ 0 then { camera_rotation with x := camera_rotation.x - rotation_speed * delta }
    else camera_rotation
  let camera_rotation :=
    if key_state.h ≠ 0 then { camera_rotation with y := camera_rotation.y - rotation_speed * delta }
    else camera_rotation
  let camera_rotation :=
    if key_state.l ≠ 0 then { camera_rotation with y := camera_rotation.y + rotation_speed * delta }
    else camera_rotation
  let camera_rotation :=
    { camera_rotation with
      x := max (-PI / 2 + EPSILON) (min (PI / 2 - EPSILON) camera_rotation.x) }
  let camera_position :=
    if key_state.space ≠ 0 then { camera_position with y := camera_position.y + move_speed * delta }
    else camera_position
  let camera_position :=
    if key_state.shift ≠ 0 then { camera_position with y := camera_position.y - move_speed * delta }
    else camera_position
  { st with camera_position := camera_position, camera_rotation := camera_rotation }

/-- One iteration of `while (!done)`, as far as the camera is concerned: `time += delta`,
then `done = 1; continue` when the `q` flag is set, otherwise the camera update.
`key_state` is the key state left by `process_input_events` in this iteration and `delta`
the frame time measured by the previous one. -/
def tick (sqrt sin cos : α → α) (key_state : KeyState) (delta : α)
    (st : LoopState α) : LoopState α :=
  let st := { st with time := st.time + delta }
  if key_state.q ≠ 0 then { st with done := 1 }
  else camera_update sqrt sin cos key_state delta st

/-- The loop `while (!done)` run on a finite sequence of iterations, each given by the key
state and the frame time it sees. -/
def frame_loop (sqrt sin cos : α → α) : List (KeyState × α) → LoopState α → LoopState α
  | [], st => st
  | (key_state, delta) :: rest, st =>
    if st.done ≠ 0 then st
    else frame_loop sqrt sin cos rest (tick sqrt sin cos key_state delta st)

end FrameLoop

/-! ## Framebuffer blitter (`tty_renderer.c`, lines 881-935) -/

/-- The fields `offset` and `length` of `struct fb_bitfield` of `linux/fb.h`, both
`__u32`. -/
structure fb_bitfield where
  offset : Nat
  length : Nat

/-- The fields of `struct fb_var_screeninfo` of `linux/fb.h` that `copy_to_framebuffer`
reads, each a `__u32` or a bit field description. -/
structure fb_var_screeninfo where
  xres : Nat
  yres : Nat
  bits_per_pixel : Nat
  red : fb_bitfield
  green : fb_bitfield
  blue : fb_bitfield
  transp : fb_bitfield

/-- The field of `struct fb_fix_screeninfo` of `linux/fb.h` that `copy_to_framebuffer`
reads. -/
structure fb_fix_screeninfo where
  line_length : Nat

/-- A store through the pointer `fbp`, at a byte offset from it: `u8` for
`*((uint8_t*)(fbp + addr)) = value`, `u16` for `*((uint16_t*)(fbp + addr)) = value`. -/
inductive Store where
  | u8 (addr : Nat) (value : Nat)
  | u16 (addr : Nat) (value : Nat)
deriving DecidableEq

/-- The bytes a store covers. -/
def Store.bytes : Store → List Nat
  | .u8 addr _ => [addr]
  | .u16 addr _ => [addr, addr + 1]

/-- The effect of a store on the mapped memory, a byte per address. A 16-bit store puts the
low byte at the lower address (little-endian). -/
def Store.apply (fbp : Nat → Nat) : Store → Nat → Nat
  | .u8 addr value => Function.update fbp addr value
  | .u16 addr value => Function.update (Function.update fbp addr (value % 256)) (addr + 1)
      (value / 256)

/-- The local `fb_offset` of the loop bodies: `y * finfo.line_length + x * (bpp / 8)`. -/
def fb_offset (vinfo : fb_var_screeninfo) (finfo : fb_fix_screeninfo) (x y : Nat) : Nat :=
  y * finfo.line_length + x * (vinfo.bits_per_pixel / 8)

/-- The local `pixels_offset` of the loop bodies: `((height - 1 - y) * width + x) * 4`. -/
def pixels_offset (width height : Int) (x y : Nat) : Int :=
  ((height - 1 - y) * width + x) * 4

/-- The body of the loops for `bpp == 32` at `(x, y)`: the red, green and blue bytes of the
source pixel go to the byte offsets `offset / 8` of the channels, the alpha byte too when
`vinfo.transp.length > 0`. -/
def copy_pixel_32 (pixels : Int → Nat) (width height : Int) (vinfo : fb_var_screeninfo)
    (finfo : fb_fix_screeninfo) (x y : Nat) : List Store :=
  let fb_offset := fb_offset vinfo finfo x y
  let pixels_offset := pixels_offset width height x y
  [.u8 (fb_offset + vinfo.red.offset / 8) (pixels pixels_offset),
   .u8 (fb_offset + vinfo.green.offset / 8) (pixels (pixels_offset + 1)),
   .u8 (fb_offset + vinfo.blue.offset / 8) (pixels (pixels_offset + 2))] ++
  (if vinfo.transp.length > 0 then
    [.u8 (fb_offset + vinfo.transp.offset / 8) (pixels (pixels_offset + 3))]
  else [])

/-- The body of the loops for `bpp == 24` at `(x, y)`. -/
def copy_pixel_24 (pixels : Int → Nat) (width height : Int) (vinfo : fb_var_screeninfo)
    (finfo : fb_fix_screeninfo) (x y : Nat) : List Store :=
  let fb_offset := fb_offset vinfo finfo x y
  let pixels_offset := pixels_offset width height x y
  [.u8 (fb_offset + vinfo.red.offset / 8) (pixels pixels_offset),
   .u8 (fb_offset + vinfo.green.offset / 8) (pixels (pixels_offset + 1)),
   .u8 (fb_offset + vinfo.blue.offset / 8) (pixels (pixels_offset + 2))]

/-- The local `color` of the loop body for `bpp == 16`, for the source bytes `r`, `g`, `b`:
each byte is shifted right by `8 - length`, left by `offset`, the three are or-ed and the
result is converted to `uint16_t`. The subtraction `8 - length` is the one of the code for
`length <= 8`. -/
def color16 (vinfo : fb_var_screeninfo) (r g b : Nat) : Nat :=
  (((r >>> (8 - vinfo.red.length)) <<< vinfo.red.offset) |||
   ((g >>> (8 - vinfo.green.length)) <<< vinfo.green.offset) |||
   ((b >>> (8 - vinfo.blue.length)) <<< vinfo.blue.offset)) % 65536

/-- The body of the loops for `bpp == 16` at `(x, y)`. -/
def copy_pixel_16 (pixels : Int → Nat) (width height : Int) (vinfo : fb_var_screeninfo)
    (finfo : fb_fix_screeninfo) (x y : Nat) : List Store :=
  let fb_offset := fb_offset vinfo finfo x y
  let pixels_offset := pixels_offset width height x y
  let color := color16 vinfo (pixels pixels_offset) (pixels (pixels_offset + 1))
    (pixels (pixels_offset + 2))
  [.u16 fb_offset color]

/-- The local `draw_width`: `(width < fb_width) ? width : fb_width`. -/
def draw_width (width : Int) (vinfo : fb_var_screeninfo) : Int :=
  if width < (vinfo.xres : Int) then width else vinfo.xres

/-- The local `draw_height`: `(height < fb_height) ? height : fb_height`. -/
def draw_height (height : Int) (vinfo : fb_var_screeninfo) : Int :=
  if height < (vinfo.yres : Int) then height else vinfo.yres

/-- The two nested loops `for y < draw_height`, `for x < draw_width` around a body, as the
sequence of the stores of the body in the order of execution. -/
def copy_loops (width height : Int) (vinfo : fb_var_screeninfo)
    (body : Nat → Nat → List Store) : List Store :=
  (List.range (draw_height height vinfo).toNat).flatMap fun y =>
    (List.range (draw_width width vinfo).toNat).flatMap fun x => body x y

/-- The stores of `copy_to_framebuffer`, in the order of execution: the loops for the depth
`vinfo.bits_per_pixel`, nothing for a depth other than 32, 24 and 16. The integers of the
code are taken without overflow. -/
def copy_to_framebuffer_stores (pixels : Int → Nat) (width height : Int)
    (vinfo : fb_var_screeninfo) (finfo : fb_fix_screeninfo) : List Store :=
  let bpp := vinfo.bits_per_pixel
  if bpp = 32 then copy_loops width height vinfo (copy_pixel_32 pixels width height vinfo finfo)
  else if bpp = 24 then
    copy_loops width height vinfo (copy_pixel_24 pixels width height vinfo finfo)
  else if bpp = 16 then
    copy_loops width height vinfo (copy_pixel_16 pixels width height vinfo finfo)
  else []

/-- The function `copy_to_framebuffer`: the mapped memory `fbp` after its stores. -/
def copy_to_framebuffer (pixels : Int → Nat) (width height : Int)
    (vinfo : fb_var_screeninfo) (finfo : fb_fix_screeninfo) (fbp : Nat → Nat) : Nat → Nat :=
  (copy_to_framebuffer_stores pixels width height vinfo finfo).foldl Store.apply fbp

/-! ## Remaining matrix builders (`vectors.h`, lines 271-341) -/

section Matrices2

variable {α : Type} [Field α]

/-- The function `mat4_scale`: the first three groups of four entries are multiplied by
`v.x`, `v.y` and `v.z`. -/
def mat4_scale (m : mat4 α) (v : vec3 α) : mat4 α :=
  let result := m
  let result := result.set 0 (result.m 0 * v.x)
  let result := result.set 1 (result.m 1 * v.x)
  let result := result.set 2 (result.m 2 * v.x)
  let result := result.set 3 (result.m 3 * v.x)
  let result := result.set 4 (result.m 4 * v.y)
  let result := result.set 5 (result.m 5 * v.y)
  let result := result.set 6 (result.m 6 * v.y)
  let result := result.set 7 (result.m 7 * v.y)
  let result := result.set 8 (result.m 8 * v.z)
  let result := result.set 9 (result.m 9 * v.z)
  let result := result.set 10 (result.m 10 * v.z)
  let result := result.set 11 (result.m 11 * v.z)
  result

/-- The function `mat4_rotate_x` of `vectors.h`. -/
def mat4_rotate_x (sin cos : α → α) (angle : α) : mat4 α :=
  let result : mat4 α := mat4_identity
  let c := cos angle
  let s := sin angle
  let result := result.set 5 c
  let result := result.set 6 s
  let result := result.set 9 (-s)
  let result := result.set 10 c
  result

/-- The function `mat4_rotate_y` of `vectors.h`. -/
def mat4_rotate_y (sin cos : α → α) (angle : α) : mat4 α :=
  let result : mat4 α := mat4_identity
  let c := cos angle
  let s := sin angle
  let result := result.set 0 c
  let result := result.set 2 (-s)
  let result := result.set 8 s
  let result := result.set 10 c
  result

/-- The function `mat4_rotate_z` of `vectors.h`. -/
def mat4_rotate_z (sin cos : α → α) (angle : α) : mat4 α :=
  let result : mat4 α := mat4_identity
  let c := cos angle
  let s := sin angle
  let result := result.set 0 c
  let result := result.set 1 s
  let result := result.set 4 (-s)
  let result := result.set 5 c
  result

/-- The function `mat4_perspective`: all entries zero, then entries 0, 5, 10, 11, 14. -/
def mat4_perspective (tan : α → α) (fovy aspect near_plane far_plane : α) : mat4 α :=
  let result : mat4 α := ⟨fun _ => 0⟩
  let f := 1 / tan (fovy / 2)
  let result := result.set 0 (f / aspect)
  let result := result.set 5 f
  let result := result.set 10 ((far_plane + near_plane) / (near_plane - far_plane))
  let result := result.set 11 (-1)
  let result := result.set 14 ((2 * far_plane * near_plane) / (near_plane - far_plane))
  result

end Matrices2

/-! ## Input state tracker (`tty_renderer.c`, lines 196-227) -/

/-- The fields of `struct input_event` of `linux/input.h` that `process_input_events`
reads: `type` and `code` are `__u16`, `value` is `__s32`. -/
structure input_event where
  type : Nat
  code : Nat
  value : Int
deriving DecidableEq

/-- The constant `EV_KEY` of `linux/input-event-codes.h`. -/
def EV_KEY : Nat := 1

/-- The constant `KEY_Q` of `linux/input-event-codes.h`. -/
def KEY_Q : Nat := 16

/-- The constant `KEY_W` of `linux/input-event-codes.h`. -/
def KEY_W : Nat := 17

/-- The constant `KEY_A` of `linux/input-event-codes.h`. -/
def KEY_A : Nat := 30

/-- The constant `KEY_S` of `linux/input-event-codes.h`. -/
def KEY_S : Nat := 31

/-- The constant `KEY_D` of `linux/input-event-codes.h`. -/
def KEY_D : Nat := 32

/-- The constant `KEY_H` of `linux/input-event-codes.h`. -/
def KEY_H : Nat := 35

/-- The constant `KEY_J` of `linux/input-event-codes.h`. -/
def KEY_J : Nat := 36

/-- The constant `KEY_K` of `linux/input-event-codes.h`. -/
def KEY_K : Nat := 37

/-- The constant `KEY_L` of `linux/input-event-codes.h`. -/
def KEY_L : Nat := 38

/-- The constant `KEY_LEFTSHIFT` of `linux/input-event-codes.h`. -/
def KEY_LEFTSHIFT : Nat := 42

/-- The constant `KEY_RIGHTSHIFT` of `linux/input-event-codes.h`. -/
def KEY_RIGHTSHIFT : Nat := 54

/-- The constant `KEY_SPACE` of `linux/input-event-codes.h`. -/
def KEY_SPACE : Nat := 57

/-- The body of `if (rc == 0 && ev.type == EV_KEY)`: `pressed = ev.value != 0` and the
`switch (ev.code)`, which has no `default`. -/
def handle_key_event (key_state : KeyState) (ev : input_event) : KeyState :=
  let pressed : Int := if ev.value ≠ 0 then 1 else 0
  if ev.code = KEY_W then { key_state with w := pressed }
  else if ev.code = KEY_A then { key_state with a := pressed }
  else if ev.code = KEY_S then { key_state with s := pressed }
  else if ev.code = KEY_D then { key_state with d := pressed }
  else if ev.code = KEY_H then { key_state with h := pressed }
  else if ev.code = KEY_J then { key_state with j := pressed }
  else if ev.code = KEY_K then { key_state with k := pressed }
  else if ev.code = KEY_L then { key_state with l := pressed }
  else if ev.code = KEY_Q then { key_state with q := pressed }
  else if ev.code = KEY_SPACE then { key_state with space := pressed }
  else if ev.code = KEY_LEFTSHIFT ∨ ev.code = KEY_RIGHTSHIFT then
    { key_state with shift := pressed }
  else key_state

/-- The function `process_input_events`, acting on the global `key_state`. The calls of
`libevdev_next_event` are given by the list of their results `(rc, ev)`, in order; after
the last one the call finds no event and returns a negative `rc`. The loop goes on while
`rc` is 1 or 0. -/
def process_input_events : List (Int × input_event) → KeyState → KeyState
  | [], key_state => key_state
  | (rc, ev) :: rest, key_state =>
    let key_state :=
      if rc = 0 ∧ ev.type = EV_KEY then handle_key_event key_state ev else key_state
    if rc = 1 ∨ rc = 0 then process_input_events rest key_state else key_state

/-- Following the claim: the last event of the queue that is an `EV_KEY` event for one of
the key codes `codes`, if there is one. -/
def last_key_event (codes : List Nat) (queue : List input_event) : Option input_event :=
  queue.reverse.find? fun ev => ev.type = EV_KEY ∧ ev.code ∈ codes

/-- Following the claim: a flag is 1 after the queue when the last event for its key had
value 1 or 2, it is 0 when that event had value 0, and it is the previous value when the
queue has no event for the key. -/
def flag_follows (codes : List Nat) (previous after : Int) (queue : List input_event) :
    Prop :=
  (∀ ev, last_key_event codes queue = some ev →
    ((ev.value = 1 ∨ ev.value = 2) → after = 1) ∧ (ev.value = 0 → after = 0)) ∧
  (last_key_event codes queue = none → after = previous)

/-! ## Meshes and the calls of OpenGL ES (`tty_renderer.c`, lines 71-81, 482-879) -/

/-- The struct `Mesh`: the handles are `GLuint`, `num_indices` is `unsigned int`. -/
structure Mesh (α : Type) where
  vao : Nat
  vbo_positions : Nat
  vbo_normals : Nat
  vbo_texcoords : Nat
  ebo : Nat
  num_indices : Nat
  position : vec3 α
  rotation : vec3 α
  scale : vec3 α

/-- The handle fields of `Mesh`, for the calls that receive the address of one,
`&mesh->vao` and so on. -/
inductive MeshField where
  | vao
  | vbo_positions
  | vbo_normals
  | vbo_texcoords
  | ebo
deriving DecidableEq

/-- The buffer targets `GL_ARRAY_BUFFER` and `GL_ELEMENT_ARRAY_BUFFER`. -/
inductive GlTarget where
  | GL_ARRAY_BUFFER
  | GL_ELEMENT_ARRAY_BUFFER
deriving DecidableEq

/-- The calls of OpenGL ES that the mesh functions issue, with the arguments that vary.
The calls that generate or delete a name receive the address of a field of the mesh;
the delete calls are listed with the handle found there. `glBufferData` is listed with the
number of elements and the data, of `float` or of `unsigned int`. -/
inductive GlCall (α : Type) where
  | glGenVertexArraysOES (field : MeshField)
  | glBindVertexArrayOES (array : Nat)
  | glGenBuffers (field : MeshField)
  | glBindBuffer (target : GlTarget) (buffer : Nat)
  | glBufferData_float (target : GlTarget) (count : Nat) (data : List α)
  | glBufferData_uint (target : GlTarget) (count : Nat) (data : List Nat)
  | glVertexAttribPointer (index : Nat) (size : Nat)
  | glEnableVertexAttribArray (index : Nat)
  | glDeleteVertexArraysOES (field : MeshField) (array : Nat)
  | glDeleteBuffers (field : MeshField) (buffer : Nat)

/-- The function `free_mesh`, as the calls it issues; `none` is the null pointer. -/
def free_mesh {α : Type} : Option (Mesh α) → List (GlCall α)
  | none => []
  | some mesh =>
    [.glDeleteVertexArraysOES .vao mesh.vao,
     .glDeleteBuffers .vbo_positions mesh.vbo_positions] ++
    (if mesh.vbo_normals ≠ 0 then [.glDeleteBuffers .vbo_normals mesh.vbo_normals] else []) ++
    (if mesh.vbo_texcoords ≠ 0 then [.glDeleteBuffers .vbo_texcoords mesh.vbo_texcoords]
      else []) ++
    [.glDeleteBuffers .ebo mesh.ebo]

/-- Following the claim: the number of delete calls of a sequence that receive the address
of the handle field `field`. -/
def delete_count {α : Type} (field : MeshField) (calls : List (GlCall α)) : Nat :=
  calls.countP fun c =>
    match c with
    | .glDeleteVertexArraysOES f _ => f = field
    | .glDeleteBuffers f _ => f = field
    | _ => false

/-- The fields of `tinyobj_attrib_t` that `load_obj_model` reads; `faces` holds the
`v_idx`, an `int`, of each face index. -/
structure tinyobj_attrib (α : Type) where
  num_vertices : Nat
  num_normals : Nat
  num_texcoords : Nat
  num_faces : Nat
  vertices : List α
  normals : List α
  texcoords : List α
  faces : List Int

/-- What `load_obj_model` and `create_debug_cube` get from outside: whether `fopen`
succeeds, whether the three VAO function pointers are set, whether the `malloc` of the mesh
and of the index array succeed, whether `tinyobj_parse_obj` returns `TINYOBJ_SUCCESS` and
the `attrib` it fills, and the names that the generate calls write to the fields. -/
structure LoadEnv (α : Type) where
  fopen_ok : Bool
  vao_functions_set : Bool
  mesh_malloc_ok : Bool
  parse_success : Bool
  attrib : tinyobj_attrib α
  indices_malloc_ok : Bool
  gen_vao : Nat
  gen_vbo_positions : Nat
  gen_vbo_normals : Nat
  gen_vbo_texcoords : Nat
  gen_ebo : Nat

section MeshLoad

variable {α : Type} [Field α]

/-- The fallback normals of `load_obj_model`: `(0, 1, 0)` for each vertex. -/
def fallback_normals (num_vertices : Nat) : List α :=
  (List.range num_vertices).flatMap fun _ => [0, 1, 0]

/-- The function `load_obj_model`: the mesh it returns, `none` for `NULL`, and the calls
of OpenGL ES it issues, as a function of what it gets from outside. The index array takes
each `v_idx` converted to `unsigned int`. -/
def load_obj_model (env : LoadEnv α) : Option (Mesh α) × List (GlCall α) :=
  if ¬ env.fopen_ok then (none, [])
  else if ¬ env.vao_functions_set then (none, [])
  else if ¬ env.mesh_malloc_ok then (none, [])
  else if ¬ env.parse_success then (none, [])
  else
    let attrib := env.attrib
    if attrib.num_vertices = 0 ∨ attrib.num_faces = 0 then (none, [])
    else
      let calls : List (GlCall α) :=
        [.glGenVertexArraysOES .vao,
         .glBindVertexArrayOES env.gen_vao,
         .glGenBuffers .vbo_positions,
         .glBindBuffer .GL_ARRAY_BUFFER env.gen_vbo_positions,
         .glBufferData_float .GL_ARRAY_BUFFER (attrib.num_vertices * 3) attrib.vertices,
         .glVertexAttribPointer 0 3,
         .glEnableVertexAttribArray 0]
      let calls := calls ++
        (if attrib.num_normals > 0 then
          [.glGenBuffers .vbo_normals,
           .glBindBuffer .GL_ARRAY_BUFFER env.gen_vbo_normals,
           .glBufferData_float .GL_ARRAY_BUFFER (attrib.num_normals * 3) attrib.normals,
           .glVertexAttribPointer 1 3,
           .glEnableVertexAttribArray 1]
        else
          [.glGenBuffers .vbo_normals,
           .glBindBuffer .GL_ARRAY_BUFFER env.gen_vbo_normals,
           .glBufferData_float .GL_ARRAY_BUFFER (attrib.num_vertices * 3)
             (fallback_normals attrib.num_vertices),
           .glVertexAttribPointer 1 3,
           .glEnableVertexAttribArray 1])
      let calls := calls ++
        (if attrib.num_texcoords > 0 then
          [.glGenBuffers .vbo_texcoords,
           .glBindBuffer .GL_ARRAY_BUFFER env.gen_vbo_texcoords,
           .glBufferData_float .GL_ARRAY_BUFFER (attrib.num_texcoords * 2) attrib.texcoords,
           .glVertexAttribPointer 2 2,
           .glEnableVertexAttribArray 2]
        else [])
      let vbo_texcoords := if attrib.num_texcoords > 0 then env.gen_vbo_texcoords else 0
      let calls := calls ++
        [.glGenBuffers .ebo,
         .glBindBuffer .GL_ELEMENT_ARRAY_BUFFER env.gen_ebo]
      if ¬ env.indices_malloc_ok then
        (none, calls ++
          [.glDeleteVertexArraysOES .vao env.gen_vao,
           .glDeleteBuffers .vbo_positions env.gen_vbo_positions] ++
          (if env.gen_vbo_normals ≠ 0 then [.glDeleteBuffers .vbo_normals env.gen_vbo_normals]
            else []) ++
          (if vbo_texcoords ≠ 0 then [.glDeleteBuffers .vbo_texcoords vbo_texcoords] else []))
      else
        let indices := (List.range attrib.num_faces).map fun i =>
          (attrib.faces.getD i 0 % 4294967296).toNat
        let calls := calls ++
          [.glBufferData_uint .GL_ELEMENT_ARRAY_BUFFER attrib.num_faces indices,
           .glBindVertexArrayOES 0]
        (some
          { vao := env.gen_vao, vbo_positions := env.gen_vbo_positions,
            vbo_normals := env.gen_vbo_normals, vbo_texcoords := vbo_texcoords,
            ebo := env.gen_ebo, num_indices := attrib.num_faces,
            position := ⟨0, 0, 0⟩, rotation := ⟨0, 0, 0⟩, scale := ⟨3, 3, 3⟩ }, calls)

/-- The array `vertices` of `create_debug_cube`. -/
def debug_cube_vertices : List α :=
  [-1/2, -1/2,  1/2,
    1/2, -1/2,  1/2,
    1/2,  1/2,  1/2,
   -1/2,  1/2,  1/2,
   -1/2, -1/2, -1/2,
    1/2, -1/2, -1/2,
    1/2,  1/2, -1/2,
   -1/2,  1/2, -1/2]

/-- The array `normals` of `create_debug_cube`. -/
def debug_cube_normals : List α :=
  [0, 0, 1,
   0, 0, 1,
   0, 0, 1,
   0, 0, 1,
   0, 0, -1,
   0, 0, -1,
   0, 0, -1,
   0, 0, -1]

/-- The array `indices` of `create_debug_cube`. -/
def debug_cube_indices : List Nat :=
  [0, 1, 2,
   2, 3, 0,
   1, 5, 6,
   6, 2, 1,
   5, 4, 7,
   7, 6, 5,
   4, 0, 3,
   3, 7, 4,
   3, 2, 6,
   6, 7, 3,
   4, 5, 1,
   1, 0, 4]

/-- The function `create_debug_cube`: the mesh it returns, `none` for `NULL`, and the calls
of OpenGL ES it issues. -/
def create_debug_cube (env : LoadEnv α) : Option (Mesh α) × List (GlCall α) :=
  if ¬ env.mesh_malloc_ok then (none, [])
  else
    (some
      { vao := env.gen_vao, vbo_positions := env.gen_vbo_positions,
        vbo_normals := env.gen_vbo_normals, vbo_texcoords := 0, ebo := env.gen_ebo,
        num_indices := 36,
        position := ⟨0, 0, 0⟩, rotation := ⟨0, 0, 0⟩, scale := ⟨3, 3, 3⟩ },
      [.glGenVertexArraysOES .vao,
       .glBindVertexArrayOES env.gen_vao,
       .glGenBuffers .vbo_positions,
       .glBindBuffer .GL_ARRAY_BUFFER env.gen_vbo_positions,
       .glBufferData_float .GL_ARRAY_BUFFER 24 debug_cube_vertices,
       .glVertexAttribPointer 0 3,
       .glEnableVertexAttribArray 0,
       .glGenBuffers .vbo_normals,
       .glBindBuffer .GL_ARRAY_BUFFER env.gen_vbo_normals,
       .glBufferData_float .GL_ARRAY_BUFFER 24 debug_cube_normals,
       .glVertexAttribPointer 1 3,
       .glEnableVertexAttribArray 1,
       .glGenBuffers .ebo,
       .glBindBuffer .GL_ELEMENT_ARRAY_BUFFER env.gen_ebo,
       .glBufferData_uint .GL_ELEMENT_ARRAY_BUFFER 36 debug_cube_indices,
       .glBindVertexArrayOES 0])

/-- The attribute of vertex `i` that `glVertexAttribPointer(index, 3, GL_FLOAT, GL_FALSE,
0, 0)` reads from a buffer: three consecutive floats from position `3 * i`. -/
def vertex_attribute (data : List α) (i : Nat) : vec3 α :=
  ⟨data.getD (3 * i) 0, data.getD (3 * i + 1) 0, data.getD (3 * i + 2) 0⟩

/-- The index `k` (0, 1 or 2) of triangle `t` in an index array drawn as triangles. -/
def triangle_index (indices : List Nat) (t k : Nat) : Nat :=
  indices.getD (3 * t + k) 0

/-- Following the claim: the outward unit normal of face `f` of the cube, the faces in the
order of the index array: front, right, back, left, top, bottom. -/
def cube_face_normal (f : Nat) : vec3 α :=
  match f with
  | 0 => ⟨0, 0, 1⟩
  | 1 => ⟨1, 0, 0⟩
  | 2 => ⟨0, 0, -1⟩
  | 3 => ⟨-1, 0, 0⟩
  | 4 => ⟨0, 1, 0⟩
  | _ => ⟨0, -1, 0⟩

end MeshLoad

/-! ## The frame loop with input, drawing and blit (`tty_renderer.c`, lines 1096-1313) -/

/-- What one iteration of the loop gets from outside: the results of the calls of
`libevdev_next_event`, the image that `glReadPixels` leaves in `pixels`, and the frame time
`delta_us` computed from the two clock readings. -/
structure Iteration where
  reads : List (Int × input_event)
  pixels : Int → Nat
  delta_us : Nat

/-- The matrices built by an iteration that draws. -/
structure Frame (α : Type) where
  view_matrix : mat4 α
  projection_matrix : mat4 α
  model_matrix : mat4 α
  mvp : mat4 α

/-- The state of `main` across iterations: the variables of `LoopState`, the global
`key_state`, `delta`, the mapped framebuffer memory `fbp`, and the frames drawn so far, one
for each iteration that built its matrices, drew and copied to the framebuffer. -/
structure MainState (α : Type) where
  loop : LoopState α
  key_state : KeyState
  delta : α
  fbp : Nat → Nat
  frames : List (Frame α)

/-- What stays fixed during the loop: the size of the render target, the description of the
framebuffer and the mesh. -/
structure RenderEnv (α : Type) where
  width : Nat
  height : Nat
  vinfo : fb_var_screeninfo
  finfo : fb_fix_screeninfo
  mesh : Mesh α

section MainLoop

variable {α : Type} [LinearOrderedField α]

/-- Lines 1136-1170 of the loop body: the view, projection and model matrices and `mvp`,
from the camera after the update and `time`. -/
def build_matrices (sqrt sin cos tan : α → α) (env : RenderEnv α) (st : LoopState α) :
    Frame α :=
  let camera_position := st.camera_position
  let camera_rotation := st.camera_rotation
  let up : vec3 α := ⟨0, 1, 0⟩
  let view_dir : vec3 α :=
    ⟨sin camera_rotation.y * cos camera_rotation.x,
     sin camera_rotation.x,
     cos camera_rotation.y * cos camera_rotation.x⟩
  let target := add_vec3 camera_position view_dir
  let view_matrix := mat4_look_at sqrt camera_position target up
  let aspect_ratio : α := (env.width : α) / (env.height : α)
  let projection_matrix := mat4_perspective tan (45 * (PI / 180)) aspect_ratio (1 / 10) 100
  let model_matrix : mat4 α := mat4_identity
  let model_matrix := mat4_translate model_matrix env.mesh.position
  let rot_y := mat4_rotate_y sin cos (env.mesh.rotation.y + st.time * (1 / 2))
  let rot_x := mat4_rotate_x sin cos env.mesh.rotation.x
  let rot_z := mat4_rotate_z sin cos env.mesh.rotation.z
  let model_matrix := mat4_multiply model_matrix rot_y
  let model_matrix := mat4_multiply model_matrix rot_x
  let model_matrix := mat4_multiply model_matrix rot_z
  let model_matrix := mat4_scale model_matrix env.mesh.scale
  let mvp := mat4_multiply projection_matrix view_matrix
  let mvp := mat4_multiply mvp model_matrix
  { view_matrix := view_matrix, projection_matrix := projection_matrix,
    model_matrix := model_matrix, mvp := mvp }

/-- One iteration of `while (!done)`: `time += delta`, `process_input_events`, then either
`done = 1; continue` when the `q` flag is set, or the camera update, the matrices, the draw,
`glReadPixels`, `copy_to_framebuffer` and the new `delta = delta_us / 1000000`. -/
def main_iteration (sqrt sin cos tan : α → α) (env : RenderEnv α) (it : Iteration)
    (st : MainState α) : MainState α :=
  let key_state := process_input_events it.reads st.key_state
  let loop := tick sqrt sin cos key_state st.delta st.loop
  if key_state.q ≠ 0 then { st with key_state := key_state, loop := loop }
  else
    { loop := loop
      key_state := key_state
      delta := (it.delta_us : α) / 1000000
      fbp := copy_to_framebuffer it.pixels env.width env.height env.vinfo env.finfo st.fbp
      frames := st.frames ++ [build_matrices sqrt sin cos tan env loop] }

/-- The loop `while (!done)` of `main` on a finite sequence of iterations. -/
def main_loop (sqrt sin cos tan : α → α) (env : RenderEnv α) :
    List Iteration → MainState α → MainState α
  | [], st => st
  | it :: rest, st =>
    if st.loop.done ≠ 0 then st
    else main_loop sqrt sin cos tan env rest (main_iteration sqrt sin cos tan env it st)

end MainLoop

/-! ## Vector rotations (`vectors.h`, lines 199-227) -/

section Rotations

variable {α : Type} [Field α]

/-- The function `rotate_vec3_x` of `vectors.h`. -/
def rotate_vec3_x (sin cos : α → α) (v : vec3 α) (angle : α) : vec3 α :=
  let cos_a := cos angle
  let sin_a := sin angle
  ⟨v.x, v.y * cos_a - v.z * sin_a, v.y * sin_a + v.z * cos_a⟩

/-- The function `rotate_vec3_y` of `vectors.h`. -/
def rotate_vec3_y (sin cos : α → α) (v : vec3 α) (angle : α) : vec3 α :=
  let cos_a := cos angle
  let sin_a := sin angle
  ⟨v.x * cos_a + v.z * sin_a, v.y, -v.x * sin_a + v.z * cos_a⟩

/-- The function `rotate_vec3_z` of `vectors.h`. -/
def rotate_vec3_z (sin cos : α → α) (v : vec3 α) (angle : α) : vec3 α :=
  let cos_a := cos angle
  let sin_a := sin angle
  ⟨v.x * cos_a - v.y * sin_a, v.x * sin_a + v.y * cos_a, v.z⟩

end Rotations

/-! ## Surfaceless context (`tty_renderer.c`, lines 304-419) -/

/-- What `init_egl_surfaceless` gets from the platform: whether `gbm_create_device` returns a
device, whether `eglGetProcAddress` finds `eglGetPlatformDisplayEXT`, whether that function
and `eglGetDisplay` return a display, the results of `eglInitialize` and `eglBindAPI`, the
result and `num_configs` of the two calls of `eglChooseConfig`, whether `eglCreateContext`
returns a context, and the result of `eglMakeCurrent`. -/
structure EglPlatform where
  gbm_create_device : Bool
  get_platform_display_found : Bool
  get_platform_display : Bool
  eglGetDisplay : Bool
  eglInitialize : Bool
  eglBindAPI : Bool
  eglChooseConfig : Bool
  num_configs : Nat
  eglChooseConfig_minimal : Bool
  num_configs_minimal : Nat
  eglCreateContext : Bool
  eglMakeCurrent : Bool

/-- The calls of GBM and EGL that `init_egl_surfaceless` issues. -/
inductive EglCall where
  | gbm_create_device
  | eglGetProcAddress
  | get_platform_display
  | eglGetDisplay
  | eglInitialize
  | eglQueryString
  | eglBindAPI
  | eglChooseConfig
  | eglChooseConfig_minimal
  | eglCreateContext
  | eglMakeCurrent
  | eglDestroyContext
  | eglTerminate
  | gbm_device_destroy
deriving DecidableEq

/-- The function `init_egl_surfaceless`: its return value, 0 or -1, and the calls it
issues, as a function of what the platform answers. -/
def init_egl_surfaceless (p : EglPlatform) : Int × List EglCall :=
  let calls : List EglCall := [.gbm_create_device]
  if ¬ p.gbm_create_device then (-1, calls)
  else
    let calls := calls ++ [.eglGetProcAddress]
    if ¬ p.get_platform_display_found then (-1, calls ++ [.gbm_device_destroy])
    else
      let calls := calls ++ [.get_platform_display]
      let calls := if ¬ p.get_platform_display then calls ++ [.eglGetDisplay] else calls
      if ¬ p.get_platform_display ∧ ¬ p.eglGetDisplay then (-1, calls ++ [.gbm_device_destroy])
      else
        let calls := calls ++ [.eglInitialize]
        if ¬ p.eglInitialize then (-1, calls ++ [.gbm_device_destroy])
        else
          let calls := calls ++ [.eglQueryString, .eglQueryString, .eglQueryString, .eglBindAPI]
          if ¬ p.eglBindAPI then (-1, calls ++ [.eglTerminate, .gbm_device_destroy])
          else
            let calls := calls ++ [.eglChooseConfig]
            let retry := ¬ p.eglChooseConfig ∨ p.num_configs = 0
            let calls := if retry then calls ++ [.eglChooseConfig_minimal] else calls
            if retry ∧ (¬ p.eglChooseConfig_minimal ∨ p.num_configs_minimal = 0) then
              (-1, calls ++ [.eglTerminate, .gbm_device_destroy])
            else
              let calls := calls ++ [.eglCreateContext]
              if ¬ p.eglCreateContext then
                (-1, calls ++ [.eglTerminate, .gbm_device_destroy])
              else
                let calls := calls ++ [.eglMakeCurrent]
                if ¬ p.eglMakeCurrent then
                  (-1, calls ++ [.eglDestroyContext, .eglTerminate, .gbm_device_destroy])
                else (0, calls)

/-! ## Frame timing (`tty_renderer.c`, lines 1049-1054, 1310-1313) -/

/-- The fields of `struct timespec`: `tv_sec` and `tv_nsec`, signed 64-bit integers. -/
structure timespec where
  tv_sec : Int
  tv_nsec : Int

/-- The value of `(end.tv_sec - start.tv_sec) * 1000000 + (end.tv_nsec - start.tv_nsec) /
1000`, with `finish` for the variable `end`, in the signed 64-bit arithmetic of the code,
taken without overflow; the division truncates toward zero. -/
def delta_us_value (start finish : timespec) : Int :=
  (finish.tv_sec - start.tv_sec) * 1000000 + Int.tdiv (finish.tv_nsec - start.tv_nsec) 1000

/-- The value stored in `unsigned int delta_us`: the conversion to 32 bits of the value of
the expression. -/
def delta_us (start finish : timespec) : Nat :=
  (delta_us_value start finish % 4294967296).toNat

/-! ## Entries of the matrix operations -/

/-- Two matrices with the same sixteen entries are equal. -/
theorem mat4.ext16 {α : Type} {a b : mat4 α}
    (h : a.m 0 = b.m 0 ∧ a.m 1 = b.m 1 ∧ a.m 2 = b.m 2 ∧ a.m 3 = b.m 3 ∧
      a.m 4 = b.m 4 ∧ a.m 5 = b.m 5 ∧ a.m 6 = b.m 6 ∧ a.m 7 = b.m 7 ∧
      a.m 8 = b.m 8 ∧ a.m 9 = b.m 9 ∧ a.m 10 = b.m 10 ∧ a.m 11 = b.m 11 ∧
      a.m 12 = b.m 12 ∧ a.m 13 = b.m 13 ∧ a.m 14 = b.m 14 ∧ a.m 15 = b.m 15) :
    a = b := by
  obtain ⟨h0, h1, h2, h3, h4, h5, h6, h7, h8, h9, h10, h11, h12, h13, h14, h15⟩ := h
  ext k
  fin_cases k
  exacts [h0, h1, h2, h3, h4, h5, h6, h7, h8, h9, h10, h11, h12, h13, h14, h15]

/-- The sixteen entries of `mat4_multiply a b`, the two loops unrolled. -/
theorem mat4_multiply_m {α : Type} [Field α] (a b : mat4 α) :
    (mat4_multiply a b).m 0 = a.m 0 * b.m 0 + a.m 1 * b.m 4 + a.m 2 * b.m 8 + a.m 3 * b.m 12 ∧
    (mat4_multiply a b).m 1 = a.m 0 * b.m 1 + a.m 1 * b.m 5 + a.m 2 * b.m 9 + a.m 3 * b.m 13 ∧
    (mat4_multiply a b).m 2 = a.m 0 * b.m 2 + a.m 1 * b.m 6 + a.m 2 * b.m 10 + a.m 3 * b.m 14 ∧
    (mat4_multiply a b).m 3 = a.m 0 * b.m 3 + a.m 1 * b.m 7 + a.m 2 * b.m 11 + a.m 3 * b.m 15 ∧
    (mat4_multiply a b).m 4 = a.m 4 * b.m 0 + a.m 5 * b.m 4 + a.m 6 * b.m 8 + a.m 7 * b.m 12 ∧
    (mat4_multiply a b).m 5 = a.m 4 * b.m 1 + a.m 5 * b.m 5 + a.m 6 * b.m 9 + a.m 7 * b.m 13 ∧
    (mat4_multiply a b).m 6 = a.m 4 * b.m 2 + a.m 5 * b.m 6 + a.m 6 * b.m 10 + a.m 7 * b.m 14 ∧
    (mat4_multiply a b).m 7 = a.m 4 * b.m 3 + a.m 5 * b.m 7 + a.m 6 * b.m 11 + a.m 7 * b.m 15 ∧
    (mat4_multiply a b).m 8 = a.m 8 * b.m 0 + a.m 9 * b.m 4 + a.m 10 * b.m 8 + a.m 11 * b.m 12 ∧
    (mat4_multiply a b).m 9 = a.m 8 * b.m 1 + a.m 9 * b.m 5 + a.m 10 * b.m 9 + a.m 11 * b.m 13 ∧
    (mat4_multiply a b).m 10 = a.m 8 * b.m 2 + a.m 9 * b.m 6 + a.m 10 * b.m 10 + a.m 11 * b.m 14 ∧
    (mat4_multiply a b).m 11 = a.m 8 * b.m 3 + a.m 9 * b.m 7 + a.m 10 * b.m 11 + a.m 11 * b.m 15 ∧
    (mat4_multiply a b).m 12 = a.m 12 * b.m 0 + a.m 13 * b.m 4 + a.m 14 * b.m 8 + a.m 15 * b.m 12 ∧
    (mat4_multiply a b).m 13 = a.m 12 * b.m 1 + a.m 13 * b.m 5 + a.m 14 * b.m 9 + a.m 15 * b.m 13 ∧
    (mat4_multiply a b).m 14 = a.m 12 * b.m 2 + a.m 13 * b.m 6 + a.m 14 * b.m 10 + a.m 15 * b.m 14 ∧
    (mat4_multiply a b).m 15 = a.m 12 * b.m 3 + a.m 13 * b.m 7 + a.m 14 * b.m 11 + a.m 15 * b.m 15 := by
  refine ⟨rfl, rfl, rfl, rfl, rfl, rfl, rfl, rfl, rfl, rfl, rfl, rfl, rfl, rfl, rfl, rfl⟩

/-- The sixteen entries of the array `inv` of `mat4_invert`, in index order. -/
theorem mat4_invert_inv_m {α : Type} [Field α] (m : mat4 α) :
    mat4_invert_inv m 0 =
      m.m 5 * m.m 10 * m.m 15 - m.m 5 * m.m 11 * m.m 14 - m.m 9 * m.m 6 * m.m 15
        + m.m 9 * m.m 7 * m.m 14 + m.m 13 * m.m 6 * m.m 11 - m.m 13 * m.m 7 * m.m 10 ∧
    mat4_invert_inv m 1 =
      -m.m 1 * m.m 10 * m.m 15 + m.m 1 * m.m 11 * m.m 14 + m.m 9 * m.m 2 * m.m 15
        - m.m 9 * m.m 3 * m.m 14 - m.m 13 * m.m 2 * m.m 11 + m.m 13 * m.m 3 * m.m 10 ∧
    mat4_invert_inv m 2 =
      m.m 1 * m.m 6 * m.m 15 - m.m 1 * m.m 7 * m.m 14 - m.m 5 * m.m 2 * m.m 15
        + m.m 5 * m.m 3 * m.m 14 + m.m 13 * m.m 2 * m.m 7 - m.m 13 * m.m 3 * m.m 6 ∧
    mat4_invert_inv m 3 =
      -m.m 1 * m.m 6 * m.m 11 + m.m 1 * m.m 7 * m.m 10 + m.m 5 * m.m 2 * m.m 11
        - m.m 5 * m.m 3 * m.m 10 - m.m 9 * m.m 2 * m.m 7 + m.m 9 * m.m 3 * m.m 6 ∧
    mat4_invert_inv m 4 =
      -m.m 4 * m.m 10 * m.m 15 + m.m 4 * m.m 11 * m.m 14 + m.m 8 * m.m 6 * m.m 15
        - m.m 8 * m.m 7 * m.m 14 - m.m 12 * m.m 6 * m.m 11 + m.m 12 * m.m 7 * m.m 10 ∧
    mat4_invert_inv m 5 =
      m.m 0 * m.m 10 * m.m 15 - m.m 0 * m.m 11 * m.m 14 - m.m 8 * m.m 2 * m.m 15
        + m.m 8 * m.m 3 * m.m 14 + m.m 12 * m.m 2 * m.m 11 - m.m 12 * m.m 3 * m.m 10 ∧
    mat4_invert_inv m 6 =
      -m.m 0 * m.m 6 * m.m 15 + m.m 0 * m.m 7 * m.m 14 + m.m 4 * m.m 2 * m.m 15
        - m.m 4 * m.m 3 * m.m 14 - m.m 12 * m.m 2 * m.m 7 + m.m 12 * m.m 3 * m.m 6 ∧
    mat4_invert_inv m 7 =
      m.m 0 * m.m 6 * m.m 11 - m.m 0 * m.m 7 * m.m 10 - m.m 4 * m.m 2 * m.m 11
        + m.m 4 * m.m 3 * m.m 10 + m.m 8 * m.m 2 * m.m 7 - m.m 8 * m.m 3 * m.m 6 ∧
    mat4_invert_inv m 8 =
      m.m 4 * m.m 9 * m.m 15 - m.m 4 * m.m 11 * m.m 13 - m.m 8 * m.m 5 * m.m 15
        + m.m 8 * m.m 7 * m.m 13 + m.m 12 * m.m 5 * m.m 11 - m.m 12 * m.m 7 * m.m 9 ∧
    mat4_invert_inv m 9 =
      -m.m 0 * m.m 9 * m.m 15 + m.m 0 * m.m 11 * m.m 13 + m.m 8 * m.m 1 * m.m 15
        - m.m 8 * m.m 3 * m.m 13 - m.m 12 * m.m 1 * m.m 11 + m.m 12 * m.m 3 * m.m 9 ∧
    mat4_invert_inv m 10 =
      m.m 0 * m.m 5 * m.m 15 - m.m 0 * m.m 7 * m.m 13 - m.m 4 * m.m 1 * m.m 15
        + m.m 4 * m.m 3 * m.m 13 + m.m 12 * m.m 1 * m.m 7 - m.m 12 * m.m 3 * m.m 5 ∧
    mat4_invert_inv m 11 =
      -m.m 0 * m.m 5 * m.m 11 + m.m 0 * m.m 7 * m.m 9 + m.m 4 * m.m 1 * m.m 11
        - m.m 4 * m.m 3 * m.m 9 - m.m 8 * m.m 1 * m.m 7 + m.m 8 * m.m 3 * m.m 5 ∧
    mat4_invert_inv m 12 =
      -m.m 4 * m.m 9 * m.m 14 + m.m 4 * m.m 10 * m.m 13 + m.m 8 * m.m 5 * m.m 14
        - m.m 8 * m.m 6 * m.m 13 - m.m 12 * m.m 5 * m.m 10 + m.m 12 * m.m 6 * m.m 9 ∧
    mat4_invert_inv m 13 =
      m.m 0 * m.m 9 * m.m 14 - m.m 0 * m.m 10 * m.m 13 - m.m 8 * m.m 1 * m.m 14
        + m.m 8 * m.m 2 * m.m 13 + m.m 12 * m.m 1 * m.m 10 - m.m 12 * m.m 2 * m.m 9 ∧
    mat4_invert_inv m 14 =
      -m.m 0 * m.m 5 * m.m 14 + m.m 0 * m.m 6 * m.m 13 + m.m 4 * m.m 1 * m.m 14
        - m.m 4 * m.m 2 * m.m 13 - m.m 12 * m.m 1 * m.m 6 + m.m 12 * m.m 2 * m.m 5 ∧
    mat4_invert_inv m 15 =
      m.m 0 * m.m 5 * m.m 10 - m.m 0 * m.m 6 * m.m 9 - m.m 4 * m.m 1 * m.m 10
        + m.m 4 * m.m 2 * m.m 9 + m.m 8 * m.m 1 * m.m 6 - m.m 8 * m.m 2 * m.m 5 := by
  refine ⟨rfl, rfl, rfl, rfl, rfl, rfl, rfl, rfl, rfl, rfl, rfl, rfl, rfl, rfl, rfl, rfl⟩

/-- The sixteen entries of `mat4_identity`. -/
theorem mat4_identity_m {α : Type} [Field α] :
    (mat4_identity : mat4 α).m 0 = 1 ∧ (mat4_identity : mat4 α).m 1 = 0 ∧
    (mat4_identity : mat4 α).m 2 = 0 ∧ (mat4_identity : mat4 α).m 3 = 0 ∧
    (mat4_identity : mat4 α).m 4 = 0 ∧ (mat4_identity : mat4 α).m 5 = 1 ∧
    (mat4_identity : mat4 α).m 6 = 0 ∧ (mat4_identity : mat4 α).m 7 = 0 ∧
    (mat4_identity : mat4 α).m 8 = 0 ∧ (mat4_identity : mat4 α).m 9 = 0 ∧
    (mat4_identity : mat4 α).m 10 = 1 ∧ (mat4_identity : mat4 α).m 11 = 0 ∧
    (mat4_identity : mat4 α).m 12 = 0 ∧ (mat4_identity : mat4 α).m 13 = 0 ∧
    (mat4_identity : mat4 α).m 14 = 0 ∧ (mat4_identity : mat4 α).m 15 = 1 := by
  refine ⟨rfl, rfl, rfl, rfl, rfl, rfl, rfl, rfl, rfl, rfl, rfl, rfl, rfl, rfl, rfl, rfl⟩

/-! ## Matrices: product, determinant, inverse -/

theorem fin4_val_three : ((3 : Fin 4) : ℕ) = 3 := rfl

theorem fin3_succ_two : Fin.succ (2 : Fin 3) = 3 := rfl

/-- `mat4_multiply` is the product of the matrices of rows `m[4i..4i+3]`. -/
theorem toMatrix_multiply {α : Type} [Field α] (a b : mat4 α) :
    (mat4_multiply a b).toMatrix = a.toMatrix * b.toMatrix := by
  ext i j
  simp only [mat4.toMatrix, Matrix.of_apply, Matrix.mul_apply, Fin.sum_univ_four]
  fin_cases i <;> fin_cases j <;> rfl

theorem toMatrix_identity {α : Type} [Field α] :
    (mat4_identity : mat4 α).toMatrix = 1 := by
  ext i j
  fin_cases i <;> fin_cases j <;>
    simp [mat4.toMatrix, mat4_identity, mat4.set, Function.update, idx, fin4_val_three]

theorem toMatrix_injective {α : Type} {a b : mat4 α} (h : a.toMatrix = b.toMatrix) : a = b := by
  have e : ∀ i j, a.m (idx i j) = b.m (idx i j) := fun i j => by
    have := congrFun (congrFun h i) j
    simpa [mat4.toMatrix] using this
  apply mat4.ext16
  exact ⟨e 0 0, e 0 1, e 0 2, e 0 3, e 1 0, e 1 1, e 1 2, e 1 3,
    e 2 0, e 2 1, e 2 2, e 2 3, e 3 0, e 3 1, e 3 2, e 3 3⟩

/-- The `det` of `mat4_invert` is the determinant. -/
theorem mat4_invert_det_eq {α : Type} [Field α] (m : mat4 α) :
    mat4_invert_det m = m.toMatrix.det := by
  rw [Matrix.det_succ_row_zero]
  simp [Fin.sum_univ_succ, Matrix.det_fin_three, mat4.toMatrix, mat4_invert_det,
    mat4_invert_inv_m, Fin.succAbove, idx, fin3_succ_two, fin4_val_three]
  ring

/-- The cofactor array times the matrix, on either side, is `det` times the identity. -/
theorem mat4_multiply_invert_inv {α : Type} [Field α] (m : mat4 α) :
    mat4_multiply m ⟨mat4_invert_inv m⟩ = ⟨fun k => mat4_invert_det m * mat4_identity.m k⟩ ∧
    mat4_multiply ⟨mat4_invert_inv m⟩ m = ⟨fun k => mat4_invert_det m * mat4_identity.m k⟩ := by
  constructor <;> apply mat4.ext16 <;>
    simp only [mat4_multiply_m, mat4_invert_det, mat4_invert_inv_m, mat4_identity_m] <;>
    refine ⟨?_, ?_, ?_, ?_, ?_, ?_, ?_, ?_, ?_, ?_, ?_, ?_, ?_, ?_, ?_, ?_⟩ <;> ring

theorem mat4_invert_of_ne {α : Type} [Field α] [DecidableEq α] (m : mat4 α)
    (h : mat4_invert_det m ≠ 0) :
    mat4_invert m = ⟨fun i => mat4_invert_inv m i * (1 / mat4_invert_det m)⟩ := by
  simp [mat4_invert, h]

theorem mat4_multiply_scale_right {α : Type} [Field α] (a : mat4 α) (f : Fin 16 → α) (c : α) :
    mat4_multiply a ⟨fun i => f i * c⟩ = ⟨fun i => (mat4_multiply a ⟨f⟩).m i * c⟩ := by
  apply mat4.ext16
  simp only [mat4_multiply_m]
  refine ⟨?_, ?_, ?_, ?_, ?_, ?_, ?_, ?_, ?_, ?_, ?_, ?_, ?_, ?_, ?_, ?_⟩ <;> ring

theorem mat4_multiply_scale_left {α : Type} [Field α] (a : mat4 α) (f : Fin 16 → α) (c : α) :
    mat4_multiply ⟨fun i => f i * c⟩ a = ⟨fun i => (mat4_multiply ⟨f⟩ a).m i * c⟩ := by
  apply mat4.ext16
  simp only [mat4_multiply_m]
  refine ⟨?_, ?_, ?_, ?_, ?_, ?_, ?_, ?_, ?_, ?_, ?_, ?_, ?_, ?_, ?_, ?_⟩ <;> ring

/-- When `det` is not zero, `mat4_invert m` is a two-sided inverse of `m` for
`mat4_multiply`. -/
theorem mat4_multiply_invert {α : Type} [Field α] [DecidableEq α] (m : mat4 α)
    (h : mat4_invert_det m ≠ 0) :
    mat4_multiply m (mat4_invert m) = mat4_identity ∧
    mat4_multiply (mat4_invert m) m = mat4_identity := by
  obtain ⟨h1, h2⟩ := mat4_multiply_invert_inv m
  rw [mat4_invert_of_ne m h, mat4_multiply_scale_right, mat4_multiply_scale_left, h1, h2]
  constructor <;> ext k <;> field_simp

/-- When `det` is not zero, the `det` of the inverse is not zero either. -/
theorem mat4_invert_det_invert_ne {α : Type} [Field α] [DecidableEq α] (m : mat4 α)
    (h : mat4_invert_det m ≠ 0) : mat4_invert_det (mat4_invert m) ≠ 0 := by
  have e := congrArg (fun a => a.toMatrix.det) (mat4_multiply_invert m h).1
  simp only [toMatrix_multiply, Matrix.det_mul, toMatrix_identity, Matrix.det_one,
    ← mat4_invert_det_eq] at e
  intro h0
  rw [h0, mul_zero] at e
  exact zero_ne_one e

theorem mat4_invert_invert_field {α : Type} [Field α] [DecidableEq α] (m : mat4 α)
    (h : mat4_invert_det m ≠ 0) : mat4_invert (mat4_invert m) = m := by
  have hn := mat4_invert_det_invert_ne m h
  have e1 := congrArg mat4.toMatrix (mat4_multiply_invert m h).1
  have e2 := congrArg mat4.toMatrix (mat4_multiply_invert (mat4_invert m) hn).1
  rw [toMatrix_multiply, toMatrix_identity] at e1 e2
  apply toMatrix_injective
  calc (mat4_invert (mat4_invert m)).toMatrix
      = (m.toMatrix * (mat4_invert m).toMatrix) * (mat4_invert (mat4_invert m)).toMatrix := by
        rw [e1, one_mul]
    _ = m.toMatrix := by rw [mul_assoc, e2, mul_one]

/-! ## Vectors over the reals -/

theorem sum_sq_eq_zero2 (x y : ℝ) : x ^ 2 + y ^ 2 = 0 ↔ x = 0 ∧ y = 0 := by
  constructor
  · intro h
    constructor <;> nlinarith [sq_nonneg x, sq_nonneg y]
  · rintro ⟨rfl, rfl⟩; norm_num

theorem sum_sq_eq_zero3 (x y z : ℝ) : x ^ 2 + y ^ 2 + z ^ 2 = 0 ↔ x = 0 ∧ y = 0 ∧ z = 0 := by
  constructor
  · intro h
    refine ⟨?_, ?_, ?_⟩ <;> nlinarith [sq_nonneg x, sq_nonneg y, sq_nonneg z]
  · rintro ⟨rfl, rfl, rfl⟩; norm_num

theorem sum_sq_eq_zero4 (x y z w : ℝ) :
    x ^ 2 + y ^ 2 + z ^ 2 + w ^ 2 = 0 ↔ x = 0 ∧ y = 0 ∧ z = 0 ∧ w = 0 := by
  constructor
  · intro h
    refine ⟨?_, ?_, ?_, ?_⟩ <;> nlinarith [sq_nonneg x, sq_nonneg y, sq_nonneg z, sq_nonneg w]
  · rintro ⟨rfl, rfl, rfl, rfl⟩; norm_num

/-- Over the reals the length of a vector is zero only for the zero vector. -/
theorem length_vec2_eq_zero (a : vec2 ℝ) : length_vec2 Real.sqrt a = 0 ↔ a = ⟨0, 0⟩ := by
  rw [length_vec2, Real.sqrt_eq_zero (by positivity), sum_sq_eq_zero2, vec2.ext_iff]

theorem length_vec3_eq_zero (a : vec3 ℝ) : length_vec3 Real.sqrt a = 0 ↔ a = ⟨0, 0, 0⟩ := by
  rw [length_vec3, Real.sqrt_eq_zero (by positivity), sum_sq_eq_zero3, vec3.ext_iff]

theorem length_vec4_eq_zero (a : vec4 ℝ) :
    length_vec4 Real.sqrt a = 0 ↔ a = ⟨0, 0, 0, 0⟩ := by
  rw [length_vec4, Real.sqrt_eq_zero (by positivity), sum_sq_eq_zero4, vec4.ext_iff]

theorem length_vec3_sq (a : vec3 ℝ) :
    length_vec3 Real.sqrt a ^ 2 = a.x ^ 2 + a.y ^ 2 + a.z ^ 2 := by
  rw [length_vec3, Real.sq_sqrt (by positivity)]

/-- A normalised non-zero vector has dot product 1 with itself. -/
theorem dot_normalize_vec3 (a : vec3 ℝ) (h : a ≠ ⟨0, 0, 0⟩) :
    dot_vec3 (normalize_vec3 Real.sqrt a) (normalize_vec3 Real.sqrt a) = 1 := by
  have hl : length_vec3 Real.sqrt a ≠ 0 := fun e => h ((length_vec3_eq_zero a).1 e)
  have hs := length_vec3_sq a
  simp only [normalize_vec3, hl, ne_eq, not_false_eq_true, if_true, dot_vec3]
  field_simp
  linear_combination -hs

theorem length_vec3_of_dot (a : vec3 ℝ) (h : dot_vec3 a a = 1) : length_vec3 Real.sqrt a = 1 := by
  have e : a.x ^ 2 + a.y ^ 2 + a.z ^ 2 = 1 := by rw [← h, dot_vec3]; ring
  rw [length_vec3, e, Real.sqrt_one]

/-- The view matrix sends `p` to its coordinates in the basis `s, u, -f` about `eye`. -/
theorem mat4_transform_look_at (eye center up p f s u : vec3 ℝ)
    (hf : f = normalize_vec3 Real.sqrt (subtract_vec3 center eye))
    (hs : s = normalize_vec3 Real.sqrt (cross_vec3 f up)) (hu : u = cross_vec3 s f) :
    mat4_transform_vec3 (mat4_look_at Real.sqrt eye center up) p =
      ⟨dot_vec3 s p - dot_vec3 s eye, dot_vec3 u p - dot_vec3 u eye,
        dot_vec3 f eye - dot_vec3 f p⟩ := by
  subst hu hs hf
  simp [mat4_transform_vec3, mat4_look_at, mat4.set, Function.update, mat4_identity, dot_vec3]
  refine ⟨?_, ?_, ?_⟩ <;> ring


theorem cross_vec3_ne_zero_of_normalize (d up : vec3 ℝ)
    (h : cross_vec3 d up ≠ ⟨0, 0, 0⟩) :
    cross_vec3 (normalize_vec3 Real.sqrt d) up ≠ ⟨0, 0, 0⟩ := by
  by_cases hl : length_vec3 Real.sqrt d = 0
  · simpa [normalize_vec3, hl] using h
  · intro e
    apply h
    simp only [normalize_vec3, hl, ne_eq, not_false_eq_true, if_true, cross_vec3,
      vec3.mk.injEq] at e ⊢
    obtain ⟨e1, e2, e3⟩ := e
    field_simp at e1 e2 e3
    exact ⟨e1, e2, e3⟩

/-! ## The pitch clamp -/

/-- The pitch left by the camera update is the clamped value. -/
theorem camera_update_pitch_mem {α : Type} [LinearOrderedField α] (sqrt sin cos : α → α)
    (key_state : KeyState) (delta : α) (st : LoopState α) :
    (-PI / 2 + EPSILON : α) ≤ (camera_update sqrt sin cos key_state delta st).camera_rotation.x ∧
    (camera_update sqrt sin cos key_state delta st).camera_rotation.x ≤ PI / 2 - EPSILON := by
  have hle : (-PI / 2 + EPSILON : α) ≤ PI / 2 - EPSILON := by
    simp only [PI, EPSILON]; norm_num
  simp only [camera_update]
  exact ⟨le_max_left _ _, max_le hle (min_le_left _ _)⟩

theorem tick_pitch_mem {α : Type} [LinearOrderedField α] (sqrt sin cos : α → α)
    (key_state : KeyState) (delta : α) (st : LoopState α)
    (h : (-PI / 2 + EPSILON : α) ≤ st.camera_rotation.x ∧
      st.camera_rotation.x ≤ PI / 2 - EPSILON) :
    (-PI / 2 + EPSILON : α) ≤ (tick sqrt sin cos key_state delta st).camera_rotation.x ∧
    (tick sqrt sin cos key_state delta st).camera_rotation.x ≤ PI / 2 - EPSILON := by
  unfold tick
  by_cases hq : key_state.q ≠ 0
  · simpa [hq] using h
  · simp only [hq, if_false]
    exact camera_update_pitch_mem sqrt sin cos key_state delta _

theorem frame_loop_pitch_mem {α : Type} [LinearOrderedField α] (sqrt sin cos : α → α)
    (inputs : List (KeyState × α)) (st : LoopState α)
    (h : (-PI / 2 + EPSILON : α) ≤ st.camera_rotation.x ∧
      st.camera_rotation.x ≤ PI / 2 - EPSILON) :
    (-PI / 2 + EPSILON : α) ≤ (frame_loop sqrt sin cos inputs st).camera_rotation.x ∧
    (frame_loop sqrt sin cos inputs st).camera_rotation.x ≤ PI / 2 - EPSILON := by
  induction inputs generalizing st with
  | nil => exact h
  | cons i rest ih =>
    obtain ⟨key_state, delta⟩ := i
    unfold frame_loop
    by_cases hd : st.done ≠ 0
    · simpa [hd] using h
    · simp only [hd, if_false]
      exact ih _ (tick_pitch_mem sqrt sin cos key_state delta st h)

theorem PI_lt_pi : (PI : ℝ) < Real.pi := by
  have := Real.pi_gt_d20
  simp only [PI]
  linarith

/-- The product applied to a point applies the LEFT factor first:
`mat4_transform_vec4 (mat4_multiply a b) p` is
`mat4_transform_vec4 b (mat4_transform_vec4 a p)`, in any field. -/
theorem mat4_transform_multiply {α : Type} [Field α] (a b : mat4 α) (p : vec4 α) :
    mat4_transform_vec4 (mat4_multiply a b) p
      = mat4_transform_vec4 b (mat4_transform_vec4 a p) := by
  ext <;> simp only [mat4_transform_vec4, mat4_multiply_m] <;> ring

/-- The sibling `mat4_translate` composes the other way round: `mat4_translate m v` applied
to a point is the translation by `v` first and then `m`. -/
theorem mat4_transform_translate {α : Type} [Field α] (m : mat4 α) (v : vec3 α) (p : vec4 α) :
    mat4_transform_vec4 (mat4_translate m v) p
      = mat4_transform_vec4 m (mat4_transform_vec4 (mat4_translate mat4_identity v) p) := by
  ext <;>
    simp [mat4_transform_vec4, mat4_translate, mat4.set, Function.update, mat4_identity_m] <;>
    ring

/-! ## The claims -/

/-- C1, evaluated where it fails. With `a` the translation by `(1, 0, 0)` (the identity with
`m[12] = 1`), `b` the scaling by 2 (the identity with `m[0] = m[5] = m[10] = 2`) and
`p = (0, 0, 0, 1)`, applying `mat4_multiply a b` to `p` gives `(2, 0, 0, 1)`, which is `a`
first and then `b`; applying `b` first and then `a`, as the claim has it, gives
`(1, 0, 0, 1)`. -/
theorem mat4_multiply_applies_left_factor_first :
    mat4_transform_vec4
        (mat4_multiply ((mat4_identity : mat4 ℝ).set 12 1)
          ((((mat4_identity : mat4 ℝ).set 0 2).set 5 2).set 10 2)) ⟨0, 0, 0, 1⟩
      = ⟨2, 0, 0, 1⟩ ∧
    mat4_transform_vec4 ((mat4_identity : mat4 ℝ).set 12 1)
        (mat4_transform_vec4 ((((mat4_identity : mat4 ℝ).set 0 2).set 5 2).set 10 2)
          ⟨0, 0, 0, 1⟩)
      = ⟨1, 0, 0, 1⟩ ∧
    mat4_transform_vec4 ((((mat4_identity : mat4 ℝ).set 0 2).set 5 2).set 10 2)
        (mat4_transform_vec4 ((mat4_identity : mat4 ℝ).set 12 1) ⟨0, 0, 0, 1⟩)
      = ⟨2, 0, 0, 1⟩ := by
  refine ⟨?_, ?_, ?_⟩ <;>
    simp [mat4_transform_vec4, mat4_multiply_m, mat4.set, Function.update, mat4_identity_m]

/-- C2. For every matrix `M` over the reals, `mat4_multiply mat4_identity M = M` and
`mat4_multiply M mat4_identity = M`, entry for entry. -/
theorem mat4_identity_multiply (M : mat4 ℝ) :
    mat4_multiply mat4_identity M = M ∧ mat4_multiply M mat4_identity = M := by
  constructor <;> apply mat4.ext16 <;> simp [mat4_multiply_m, mat4_identity_m]

/-- C3. For every matrix `M` over the reals whose determinant, as `mat4_invert` computes
it, is not zero, `mat4_invert (mat4_invert M) = M`. -/
theorem mat4_invert_invert (M : mat4 ℝ) (h : mat4_invert_det M ≠ 0) :
    mat4_invert (mat4_invert M) = M :=
  mat4_invert_invert_field M h

/-- C3 at the matrix with `m[0] = 2`, `m[12] = 3` and the other entries of the identity,
whose determinant is 2. -/
theorem mat4_invert_invert_witness :
    mat4_invert_det (((mat4_identity : mat4 ℝ).set 0 2).set 12 3) ≠ 0 ∧
    mat4_invert (mat4_invert (((mat4_identity : mat4 ℝ).set 0 2).set 12 3))
      = ((mat4_identity : mat4 ℝ).set 0 2).set 12 3 :=
  have h : mat4_invert_det (((mat4_identity : mat4 ℝ).set 0 2).set 12 3) ≠ 0 := by
    simp [mat4_invert_det, mat4_invert_inv_m, mat4.set, Function.update, mat4_identity_m]
  ⟨h, mat4_invert_invert _ h⟩

/-- C4. The value `det` that `mat4_invert` tests is the determinant of `M`; when the
determinant is zero `mat4_invert M` is `M`, all sixteen entries; when it is not zero the
other branch is taken and the result is the array of `inv[i] * (1 / det)`. -/
theorem mat4_invert_singular (M : mat4 ℝ) :
    mat4_invert_det M = M.toMatrix.det ∧
    (M.toMatrix.det = 0 → mat4_invert M = M) ∧
    (M.toMatrix.det ≠ 0 →
      mat4_invert M = ⟨fun i => mat4_invert_inv M i * (1 / mat4_invert_det M)⟩) := by
  refine ⟨mat4_invert_det_eq M, fun h => ?_, fun h => ?_⟩
  · rw [← mat4_invert_det_eq] at h
    simp [mat4_invert, h]
  · rw [← mat4_invert_det_eq] at h
    exact mat4_invert_of_ne M h

/-- C4 at the identity with `m[15] = 0`, a matrix of determinant zero: `mat4_invert`
returns it unchanged. -/
theorem mat4_invert_singular_witness :
    ((mat4_identity : mat4 ℝ).set 15 0).toMatrix.det = 0 ∧
    mat4_invert ((mat4_identity : mat4 ℝ).set 15 0) = (mat4_identity : mat4 ℝ).set 15 0 :=
  have h : ((mat4_identity : mat4 ℝ).set 15 0).toMatrix.det = 0 := by
    rw [← mat4_invert_det_eq]
    simp [mat4_invert_det, mat4_invert_inv_m, mat4.set, Function.update, mat4_identity_m]
  ⟨h, (mat4_invert_singular _).2.1 h⟩

/-- C5. Over the reals, for non-zero vectors `a`, `b`, `c` of 2, 3 and 4 components, the
length of the normalised vector is 1. -/
theorem normalize_unit_length (a : vec2 ℝ) (b : vec3 ℝ) (c : vec4 ℝ)
    (ha : a ≠ ⟨0, 0⟩) (hb : b ≠ ⟨0, 0, 0⟩) (hc : c ≠ ⟨0, 0, 0, 0⟩) :
    length_vec2 Real.sqrt (normalize_vec2 Real.sqrt a) = 1 ∧
    length_vec3 Real.sqrt (normalize_vec3 Real.sqrt b) = 1 ∧
    length_vec4 Real.sqrt (normalize_vec4 Real.sqrt c) = 1 := by
  refine ⟨?_, length_vec3_of_dot _ (dot_normalize_vec3 b hb), ?_⟩
  · have hl : length_vec2 Real.sqrt a ≠ 0 := fun e => ha ((length_vec2_eq_zero a).1 e)
    have hs : length_vec2 Real.sqrt a ^ 2 = a.x ^ 2 + a.y ^ 2 := by
      rw [length_vec2, Real.sq_sqrt (by positivity)]
    have e : (a.x / length_vec2 Real.sqrt a) ^ 2 + (a.y / length_vec2 Real.sqrt a) ^ 2 = 1 := by
      field_simp
      linear_combination -hs
    simp only [normalize_vec2, hl, ne_eq, not_false_eq_true, if_true]
    rw [length_vec2, e, Real.sqrt_one]
  · have hl : length_vec4 Real.sqrt c ≠ 0 := fun e => hc ((length_vec4_eq_zero c).1 e)
    have hs : length_vec4 Real.sqrt c ^ 2 = c.x ^ 2 + c.y ^ 2 + c.z ^ 2 + c.w ^ 2 := by
      rw [length_vec4, Real.sq_sqrt (by positivity)]
    have e : (c.x / length_vec4 Real.sqrt c) ^ 2 + (c.y / length_vec4 Real.sqrt c) ^ 2 +
        (c.z / length_vec4 Real.sqrt c) ^ 2 + (c.w / length_vec4 Real.sqrt c) ^ 2 = 1 := by
      field_simp
      linear_combination -hs
    simp only [normalize_vec4, hl, ne_eq, not_false_eq_true, if_true]
    rw [length_vec4, e, Real.sqrt_one]

/-- C5 at the vectors `(3, 4)`, `(1, 2, 2)` and `(1, 1, 1, 1)`. -/
theorem normalize_unit_length_witness :
    length_vec2 Real.sqrt (normalize_vec2 Real.sqrt ⟨3, 4⟩) = 1 ∧
    length_vec3 Real.sqrt (normalize_vec3 Real.sqrt ⟨1, 2, 2⟩) = 1 ∧
    length_vec4 Real.sqrt (normalize_vec4 Real.sqrt ⟨1, 1, 1, 1⟩) = 1 :=
  normalize_unit_length ⟨3, 4⟩ ⟨1, 2, 2⟩ ⟨1, 1, 1, 1⟩ (by simp) (by simp) (by simp)

/-- C6. Over the reals, for each of the three normalise functions: the length is zero
exactly for the zero vector, so the guard `length != 0` fails on that input only, and on a
vector of length zero the function returns its argument unchanged. -/
theorem normalize_zero_length (a : vec2 ℝ) (b : vec3 ℝ) (c : vec4 ℝ) :
    ((length_vec2 Real.sqrt a = 0 ↔ a = ⟨0, 0⟩) ∧
      (length_vec2 Real.sqrt a = 0 → normalize_vec2 Real.sqrt a = a)) ∧
    ((length_vec3 Real.sqrt b = 0 ↔ b = ⟨0, 0, 0⟩) ∧
      (length_vec3 Real.sqrt b = 0 → normalize_vec3 Real.sqrt b = b)) ∧
    ((length_vec4 Real.sqrt c = 0 ↔ c = ⟨0, 0, 0, 0⟩) ∧
      (length_vec4 Real.sqrt c = 0 → normalize_vec4 Real.sqrt c = c)) := by
  refine ⟨⟨length_vec2_eq_zero a, fun h => ?_⟩, ⟨length_vec3_eq_zero b, fun h => ?_⟩,
    ⟨length_vec4_eq_zero c, fun h => ?_⟩⟩
  · simp [normalize_vec2, h]
  · simp [normalize_vec3, h]
  · simp [normalize_vec4, h]

/-- C6 at the three zero vectors: each has length zero and is returned unchanged. -/
theorem normalize_zero_length_witness :
    normalize_vec2 Real.sqrt (⟨0, 0⟩ : vec2 ℝ) = ⟨0, 0⟩ ∧
    normalize_vec3 Real.sqrt (⟨0, 0, 0⟩ : vec3 ℝ) = ⟨0, 0, 0⟩ ∧
    normalize_vec4 Real.sqrt (⟨0, 0, 0, 0⟩ : vec4 ℝ) = ⟨0, 0, 0, 0⟩ :=
  ⟨(normalize_zero_length ⟨0, 0⟩ ⟨0, 0, 0⟩ ⟨0, 0, 0, 0⟩).1.2 (by simp [length_vec2]),
    (normalize_zero_length ⟨0, 0⟩ ⟨0, 0, 0⟩ ⟨0, 0, 0, 0⟩).2.1.2 (by simp [length_vec3]),
    (normalize_zero_length ⟨0, 0⟩ ⟨0, 0, 0⟩ ⟨0, 0, 0, 0⟩).2.2.2 (by simp [length_vec4])⟩

/-- C7. For every `eye`, `forward` and `up` over the reals, degenerate ones included, the
view matrix `mat4_look_at eye (eye + forward) up` sends `eye` to `(0, 0, 0)` under
`mat4_transform_vec3`. -/
theorem look_at_eye (eye forward up : vec3 ℝ) :
    mat4_transform_vec3 (mat4_look_at Real.sqrt eye (add_vec3 eye forward) up) eye
      = ⟨0, 0, 0⟩ := by
  rw [mat4_transform_look_at eye (add_vec3 eye forward) up eye _ _ _ rfl rfl rfl]
  simp

/-- C8. For `eye ≠ center` and `up` not parallel to `center - eye` (their cross product is
not zero), with `f = normalize (center - eye)`, `s = normalize (cross f up)` and
`u = cross s f`: the three are pairwise orthogonal, each has length 1, `cross s u = -f`,
and the matrix of `mat4_look_at` sends `eye + s` to `(1, 0, 0)`, `eye + u` to `(0, 1, 0)`
and `eye + f` to `(0, 0, -1)` under `mat4_transform_vec3`. -/
theorem look_at_basis (eye center up f s u : vec3 ℝ)
    (hne : eye ≠ center) (hup : cross_vec3 (subtract_vec3 center eye) up ≠ ⟨0, 0, 0⟩)
    (hf : f = normalize_vec3 Real.sqrt (subtract_vec3 center eye))
    (hs : s = normalize_vec3 Real.sqrt (cross_vec3 f up)) (hu : u = cross_vec3 s f) :
    (dot_vec3 s u = 0 ∧ dot_vec3 s f = 0 ∧ dot_vec3 u f = 0) ∧
    (length_vec3 Real.sqrt s = 1 ∧ length_vec3 Real.sqrt u = 1 ∧ length_vec3 Real.sqrt f = 1) ∧
    cross_vec3 s u = ⟨-f.x, -f.y, -f.z⟩ ∧
    mat4_transform_vec3 (mat4_look_at Real.sqrt eye center up) (add_vec3 eye s) = ⟨1, 0, 0⟩ ∧
    mat4_transform_vec3 (mat4_look_at Real.sqrt eye center up) (add_vec3 eye u) = ⟨0, 1, 0⟩ ∧
    mat4_transform_vec3 (mat4_look_at Real.sqrt eye center up) (add_vec3 eye f) = ⟨0, 0, -1⟩ := by
  have hd : subtract_vec3 center eye ≠ ⟨0, 0, 0⟩ := by
    intro e
    apply hne
    simp only [subtract_vec3, add_vec3, scale_vec3, vec3.mk.injEq] at e
    obtain ⟨e1, e2, e3⟩ := e
    ext <;> linarith
  have hff : dot_vec3 f f = 1 := by rw [hf]; exact dot_normalize_vec3 _ hd
  have hss : dot_vec3 s s = 1 := by
    rw [hs]
    exact dot_normalize_vec3 _ (by rw [hf]; exact cross_vec3_ne_zero_of_normalize _ _ hup)
  have hsf : dot_vec3 s f = 0 := by
    have hc : dot_vec3 (cross_vec3 f up) f = 0 := by simp only [dot_vec3, cross_vec3]; ring
    rw [hs]
    by_cases hl : length_vec3 Real.sqrt (cross_vec3 f up) = 0
    · simpa [normalize_vec3, hl] using hc
    · simp only [dot_vec3] at hc
      simp only [normalize_vec3, hl, ne_eq, not_false_eq_true, if_true, dot_vec3]
      field_simp
      linear_combination hc
  have hsu : dot_vec3 s u = 0 := by rw [hu]; simp only [dot_vec3, cross_vec3]; ring
  have huf : dot_vec3 u f = 0 := by rw [hu]; simp only [dot_vec3, cross_vec3]; ring
  have huu : dot_vec3 u u = 1 := by
    rw [hu]
    simp only [dot_vec3, cross_vec3] at hff hss hsf ⊢
    linear_combination (f.x * f.x + f.y * f.y + f.z * f.z) * hss + hff
      - (s.x * f.x + s.y * f.y + s.z * f.z) * hsf
  refine ⟨⟨hsu, hsf, huf⟩,
    ⟨length_vec3_of_dot s hss, length_vec3_of_dot u huu, length_vec3_of_dot f hff⟩, ?_, ?_, ?_, ?_⟩
  · rw [hu]
    simp only [dot_vec3, cross_vec3, vec3.mk.injEq] at hss hsf ⊢
    refine ⟨?_, ?_, ?_⟩
    · linear_combination s.x * hsf - f.x * hss
    · linear_combination s.y * hsf - f.y * hss
    · linear_combination s.z * hsf - f.z * hss
  · rw [mat4_transform_look_at eye center up _ f s u hf hs hu]
    simp only [dot_vec3, add_vec3, vec3.mk.injEq] at hss hsu hsf ⊢
    refine ⟨?_, ?_, ?_⟩
    · linear_combination hss
    · rw [hu]; simp only [cross_vec3]; ring
    · linear_combination -hsf
  · rw [mat4_transform_look_at eye center up _ f s u hf hs hu]
    simp only [dot_vec3, add_vec3, vec3.mk.injEq] at huu hsu huf ⊢
    refine ⟨?_, ?_, ?_⟩
    · linear_combination hsu
    · linear_combination huu
    · linear_combination -huf
  · rw [mat4_transform_look_at eye center up _ f s u hf hs hu]
    simp only [dot_vec3, add_vec3, vec3.mk.injEq] at hff hsf huf ⊢
    refine ⟨?_, ?_, ?_⟩
    · linear_combination hsf
    · linear_combination huf
    · linear_combination -hff

/-- C8 at `eye = (0, 0, 0)`, `center = (0, 0, -1)`, `up = (0, 1, 0)`. -/
theorem look_at_basis_witness :
    ((⟨0, 0, 0⟩ : vec3 ℝ) ≠ ⟨0, 0, -1⟩ ∧
      cross_vec3 (subtract_vec3 (⟨0, 0, -1⟩ : vec3 ℝ) ⟨0, 0, 0⟩) ⟨0, 1, 0⟩ ≠ ⟨0, 0, 0⟩) ∧
    mat4_transform_vec3 (mat4_look_at Real.sqrt ⟨0, 0, 0⟩ ⟨0, 0, -1⟩ ⟨0, 1, 0⟩)
        (add_vec3 ⟨0, 0, 0⟩ (normalize_vec3 Real.sqrt (subtract_vec3 ⟨0, 0, -1⟩ ⟨0, 0, 0⟩)))
      = ⟨0, 0, -1⟩ :=
  have h1 : (⟨0, 0, 0⟩ : vec3 ℝ) ≠ ⟨0, 0, -1⟩ := by simp
  have h2 : cross_vec3 (subtract_vec3 (⟨0, 0, -1⟩ : vec3 ℝ) ⟨0, 0, 0⟩) ⟨0, 1, 0⟩
      ≠ ⟨0, 0, 0⟩ := by
    simp [cross_vec3, subtract_vec3, add_vec3, scale_vec3]
  ⟨⟨h1, h2⟩, (look_at_basis ⟨0, 0, 0⟩ ⟨0, 0, -1⟩ ⟨0, 1, 0⟩ _ _ _ h1 h2 rfl rfl rfl).2.2.2.2.2⟩

/-- C9. From the initial state (pitch 0), after any finite sequence of iterations of the
frame loop, with any key states and any frame times, the pitch `camera_rotation.x` lies in
the closed interval from `-PI/2 + EPSILON` to `PI/2 - EPSILON` of the constants of the
code, `PI = 3.14159265` and `EPSILON = 1e-6`. As `PI < π`, it lies strictly between
`-π/2 + 1e-6` and `π/2 - 1e-6`, hence strictly between `-π/2` and `π/2`. -/
theorem pitch_invariant (inputs : List (KeyState × ℝ)) :
    (frame_loop Real.sqrt Real.sin Real.cos inputs initial_state).camera_rotation.x
      ∈ Set.Icc (-PI / 2 + EPSILON : ℝ) (PI / 2 - EPSILON) ∧
    (frame_loop Real.sqrt Real.sin Real.cos inputs initial_state).camera_rotation.x
      ∈ Set.Ioo (-Real.pi / 2 + 1 / 1000000) (Real.pi / 2 - 1 / 1000000) ∧
    (frame_loop Real.sqrt Real.sin Real.cos inputs initial_state).camera_rotation.x
      ∈ Set.Ioo (-Real.pi / 2) (Real.pi / 2) := by
  have h0 : (-PI / 2 + EPSILON : ℝ) ≤ (initial_state : LoopState ℝ).camera_rotation.x ∧
      (initial_state : LoopState ℝ).camera_rotation.x ≤ PI / 2 - EPSILON := by
    simp only [initial_state, PI, EPSILON]; norm_num
  obtain ⟨h1, h2⟩ := frame_loop_pitch_mem Real.sqrt Real.sin Real.cos inputs initial_state h0
  have hp := PI_lt_pi
  have he : (EPSILON : ℝ) = 1 / 1000000 := rfl
  refine ⟨⟨h1, h2⟩, ⟨?_, ?_⟩, ⟨?_, ?_⟩⟩ <;> rw [he] at h1 h2 <;> linarith

/-- C10. One iteration from the initial state (camera at `(0, 0, 3)`, yaw 0, pitch 0) with
only the `w` flag set and `delta = 0.1` leaves the camera at `(0, 0, 2.8)`: `z < 3`, and
`x = 0`, `y = 0` as before. -/
theorem forward_tick :
    (tick Real.sqrt Real.sin Real.cos ⟨1, 0, 0, 0, 0, 0, 0, 0, 0, 0, 0⟩ (1 / 10)
      initial_state).camera_position = ⟨0, 0, 14 / 5⟩ ∧
    (tick Real.sqrt Real.sin Real.cos ⟨1, 0, 0, 0, 0, 0, 0, 0, 0, 0, 0⟩ (1 / 10)
      initial_state).camera_position.z < 3 ∧
    (tick Real.sqrt Real.sin Real.cos ⟨1, 0, 0, 0, 0, 0, 0, 0, 0, 0, 0⟩ (1 / 10)
      initial_state).camera_position.x = 0 ∧
    (tick Real.sqrt Real.sin Real.cos ⟨1, 0, 0, 0, 0, 0, 0, 0, 0, 0, 0⟩ (1 / 10)
      initial_state).camera_position.y = 0 := by
  have e : (tick Real.sqrt Real.sin Real.cos ⟨1, 0, 0, 0, 0, 0, 0, 0, 0, 0, 0⟩ (1 / 10)
      initial_state).camera_position = ⟨0, 0, 14 / 5⟩ := by
    simp [tick, camera_update, initial_state, normalize_vec3, length_vec3, add_vec3,
      scale_vec3, move_speed]
    norm_num
  rw [e]
  norm_num

/-! ## Stores and the mapped memory -/

/-- A sequence of stores leaves a byte that none of them covers as it was. -/
theorem foldl_apply_of_not_mem (t : List Store) (A : Nat) (fbp : Nat → Nat)
    (h : ∀ s ∈ t, A ∉ s.bytes) : t.foldl Store.apply fbp A = fbp A := by
  induction t generalizing fbp with
  | nil => rfl
  | cons s t ih =>
    rw [List.foldl_cons, ih _ (fun s' hs' => h s' (List.mem_cons_of_mem _ hs'))]
    have hs := h s (List.mem_cons_self _ _)
    cases s with
    | u8 addr value =>
      simp only [Store.bytes, List.mem_singleton] at hs
      simp [Store.apply, Function.update_apply, hs]
    | u16 addr value =>
      simp only [Store.bytes, List.mem_cons, List.mem_singleton, not_or, List.mem_nil_iff,
        or_false] at hs
      simp [Store.apply, Function.update_apply, hs.1, hs.2]

theorem foldl_apply_flatMap {ι : Type} (l : List ι) (f : ι → List Store) (fbp : Nat → Nat) :
    (l.flatMap f).foldl Store.apply fbp
      = l.foldl (fun m i => (f i).foldl Store.apply m) fbp := by
  induction l generalizing fbp with
  | nil => rfl
  | cons i l ih => simp [List.flatMap_cons, List.foldl_append, ih]

/-- Blocks of stores run one after the other: when each block either leaves the byte `A`
as it was or leaves the value `v` in it, and one block does the latter, the byte holds `v`
at the end. -/
theorem foldl_apply_flatMap_eq {ι : Type} (l : List ι) (f : ι → List Store) (A v : Nat)
    (fbp : Nat → Nat)
    (hall : ∀ i ∈ l, (∀ m, (f i).foldl Store.apply m A = m A) ∨
      (∀ m, (f i).foldl Store.apply m A = v))
    (hex : ∃ i ∈ l, ∀ m, (f i).foldl Store.apply m A = v) :
    (l.flatMap f).foldl Store.apply fbp A = v := by
  rw [foldl_apply_flatMap]
  induction l using List.reverseRecOn with
  | nil => obtain ⟨i, hi, _⟩ := hex; simp at hi
  | append_singleton l i ih =>
    rw [List.foldl_append, List.foldl_cons, List.foldl_nil]
    rcases hall i (by simp) with hk | hs
    · obtain ⟨j, hj, hjv⟩ := hex
      rcases List.mem_append.1 hj with hj | hj
      · rw [hk]
        exact ih (fun j hj => hall j (by simp [hj])) ⟨j, hj, hjv⟩
      · simp only [List.mem_singleton] at hj
        subst hj
        exact hjv _
    · exact hs _

/-! ## Geometry of the destination -/

theorem draw_width_eq (width : Int) (vinfo : fb_var_screeninfo) :
    draw_width width vinfo = min width vinfo.xres := by
  unfold draw_width
  split <;> omega

theorem draw_height_eq (height : Int) (vinfo : fb_var_screeninfo) :
    draw_height height vinfo = min height vinfo.yres := by
  unfold draw_height
  split <;> omega

/-- The stores of the loops are those of the bodies at the `(x, y)` of the drawn area. -/
theorem mem_copy_loops (width height : Int) (vinfo : fb_var_screeninfo)
    (body : Nat → Nat → List Store) (s : Store) :
    s ∈ copy_loops width height vinfo body ↔
      ∃ x y : Nat, (x : Int) < min width vinfo.xres ∧ (y : Int) < min height vinfo.yres ∧
        s ∈ body x y := by
  simp only [copy_loops, List.mem_flatMap, List.mem_range, Int.lt_toNat, draw_width_eq,
    draw_height_eq]
  constructor
  · rintro ⟨y, hy, x, hx, hs⟩; exact ⟨x, y, hx, hy, hs⟩
  · rintro ⟨x, y, hx, hy, hs⟩; exact ⟨y, hy, x, hx, hs⟩

/-- Pixel regions of `k` bytes on rows of `ll >= k * w` bytes: a byte lies in the region of
one pixel `(x, y)` with `x < w` only. -/
theorem pixel_region_unique (ll k w x y x' y' a : Nat) (hll : k * w ≤ ll) (hx : x < w)
    (hx' : x' < w) (h1 : y * ll + x * k ≤ a) (h2 : a < y * ll + x * k + k)
    (h1' : y' * ll + x' * k ≤ a) (h2' : a < y' * ll + x' * k + k) : x = x' ∧ y = y' := by
  have hxk : x * k + k ≤ k * w := by
    have := Nat.mul_le_mul_left k (Nat.succ_le_of_lt hx)
    rw [Nat.mul_succ] at this
    rw [Nat.mul_comm x k]; exact this
  have hxk' : x' * k + k ≤ k * w := by
    have := Nat.mul_le_mul_left k (Nat.succ_le_of_lt hx')
    rw [Nat.mul_succ] at this
    rw [Nat.mul_comm x' k]; exact this
  have hy : y = y' := by
    rcases Nat.lt_trichotomy y y' with h | h | h
    · have := Nat.mul_le_mul_right ll (Nat.succ_le_of_lt h)
      rw [Nat.succ_mul] at this
      omega
    · exact h
    · have := Nat.mul_le_mul_right ll (Nat.succ_le_of_lt h)
      rw [Nat.succ_mul] at this
      omega
  subst hy
  refine ⟨?_, rfl⟩
  rcases Nat.lt_trichotomy x x' with h | h | h
  · have := Nat.mul_le_mul_right k (Nat.succ_le_of_lt h)
    rw [Nat.succ_mul] at this
    omega
  · exact h
  · have := Nat.mul_le_mul_right k (Nat.succ_le_of_lt h)
    rw [Nat.succ_mul] at this
    omega

/-- The loops leave the value `v` in the byte `A` when the body at one drawn `(x, y)` does
and the bodies at the other drawn pixels do not cover `A`. -/
theorem foldl_copy_loops_eq (width height : Int) (vinfo : fb_var_screeninfo)
    (body : Nat → Nat → List Store) (A v x y : Nat) (fbp : Nat → Nat)
    (hx : (x : Int) < min width vinfo.xres) (hy : (y : Int) < min height vinfo.yres)
    (hset : ∀ m, (body x y).foldl Store.apply m A = v)
    (hkeep : ∀ x' y' : Nat, (x' : Int) < min width vinfo.xres →
      (y' : Int) < min height vinfo.yres → ¬(x' = x ∧ y' = y) → ∀ s ∈ body x' y', A ∉ s.bytes) :
    (copy_loops width height vinfo body).foldl Store.apply fbp A = v := by
  have hrow : ∀ m, ((List.range (draw_width width vinfo).toNat).flatMap
      fun x' => body x' y).foldl Store.apply m A = v := by
    intro m
    apply foldl_apply_flatMap_eq
    · intro x' hx'
      rw [List.mem_range, Int.lt_toNat, draw_width_eq] at hx'
      by_cases hxx : x' = x
      · right; rw [hxx]; exact hset
      · left
        intro m'
        exact foldl_apply_of_not_mem _ _ _ (hkeep x' y hx' hy (fun h => hxx h.1))
    · exact ⟨x, by rw [List.mem_range, Int.lt_toNat, draw_width_eq]; exact hx, hset⟩
  unfold copy_loops
  apply foldl_apply_flatMap_eq
  · intro y' hy'
    rw [List.mem_range, Int.lt_toNat, draw_height_eq] at hy'
    by_cases hyy : y' = y
    · right; rw [hyy]; exact hrow
    · left
      intro m
      apply foldl_apply_of_not_mem
      intro s hs
      rw [List.mem_flatMap] at hs
      obtain ⟨x', hx', hs⟩ := hs
      rw [List.mem_range, Int.lt_toNat, draw_width_eq] at hx'
      exact hkeep x' y' hx' hy' (fun h => hyy h.2) s hs
  · exact ⟨y, by rw [List.mem_range, Int.lt_toNat, draw_height_eq]; exact hy, hrow⟩

/-- For `bpp == 32` and channel bytes inside the pixel, the stores of the body at `(x, y)`
cover bytes of the pixel at `y * line_length + x * 4` only. -/
theorem copy_pixel_32_bytes (pixels : Int → Nat) (width height : Int)
    (vinfo : fb_var_screeninfo) (finfo : fb_fix_screeninfo) (x y : Nat)
    (h32 : vinfo.bits_per_pixel = 32)
    (hr : vinfo.red.offset / 8 < 4) (hg : vinfo.green.offset / 8 < 4)
    (hb : vinfo.blue.offset / 8 < 4)
    (ht : vinfo.transp.length > 0 → vinfo.transp.offset / 8 < 4)
    (s : Store) (hs : s ∈ copy_pixel_32 pixels width height vinfo finfo x y)
    (a : Nat) (ha : a ∈ s.bytes) :
    y * finfo.line_length + x * 4 ≤ a ∧ a < y * finfo.line_length + x * 4 + 4 := by
  simp only [copy_pixel_32, fb_offset, h32, List.mem_append, List.mem_cons,
    List.mem_singleton, List.mem_nil_iff, or_false] at hs
  rcases hs with (rfl | rfl | rfl) | hs
  · simp only [Store.bytes, List.mem_singleton] at ha; omega
  · simp only [Store.bytes, List.mem_singleton] at ha; omega
  · simp only [Store.bytes, List.mem_singleton] at ha; omega
  · by_cases hl : vinfo.transp.length > 0
    · simp only [hl, if_true, List.mem_singleton] at hs
      subst hs
      simp only [Store.bytes, List.mem_singleton] at ha
      have := ht hl
      omega
    · simp [hl] at hs

/-- The general 32-bit blit: on a destination whose channel bytes are inside the pixel and
whose rows do not overlap, a byte of a drawn pixel that the body at that pixel leaves at
`v` holds `v` after `copy_to_framebuffer`. -/
theorem copy_to_framebuffer_32_eq (pixels : Int → Nat) (width height : Int)
    (vinfo : fb_var_screeninfo) (finfo : fb_fix_screeninfo) (fbp : Nat → Nat) (x y k v : Nat)
    (h32 : vinfo.bits_per_pixel = 32)
    (hr : vinfo.red.offset / 8 < 4) (hg : vinfo.green.offset / 8 < 4)
    (hb : vinfo.blue.offset / 8 < 4)
    (ht : vinfo.transp.length > 0 → vinfo.transp.offset / 8 < 4)
    (hstride : 4 * min width (vinfo.xres : Int) ≤ finfo.line_length)
    (hx : (x : Int) < min width vinfo.xres) (hy : (y : Int) < min height vinfo.yres)
    (hk : k < 4)
    (hset : ∀ m, (copy_pixel_32 pixels width height vinfo finfo x y).foldl Store.apply m
      (y * finfo.line_length + x * 4 + k) = v) :
    copy_to_framebuffer pixels width height vinfo finfo fbp
      (y * finfo.line_length + x * 4 + k) = v := by
  unfold copy_to_framebuffer copy_to_framebuffer_stores
  simp only [h32, if_true]
  apply foldl_copy_loops_eq width height vinfo _ _ v x y fbp hx hy hset
  intro x' y' hx' hy' hne s hs ha
  obtain ⟨h1, h2⟩ := copy_pixel_32_bytes pixels width height vinfo finfo x' y' h32 hr hg hb ht
    s hs _ ha
  have hw : ∃ w : Nat, min width (vinfo.xres : Int) = w := ⟨(min width vinfo.xres).toNat, by
    have : (0 : Int) ≤ min width vinfo.xres := by omega
    omega⟩
  obtain ⟨w, hw⟩ := hw
  rw [hw] at hstride hx hx'
  have := pixel_region_unique finfo.line_length 4 w x' y' x y _ (by omega) (by omega) (by omega)
    h1 h2 (by omega) (by omega)
  exact hne this

/-- The source index of a drawn pixel is the index of a pixel of the source image. -/
theorem pixels_offset_range (width height : Int) (xres yres : Int) (x y : Nat)
    (hx : (x : Int) < min width xres) (hy : (y : Int) < min height yres) :
    pixels_offset width height x y = ((height - 1 - y) * width + x) * 4 ∧
    0 ≤ (height - 1 - y) * width + x ∧ (height - 1 - y) * width + x < width * height := by
  have hxw : (x : Int) < width := lt_of_lt_of_le hx (min_le_left _ _)
  have hyh : (y : Int) < height := lt_of_lt_of_le hy (min_le_left _ _)
  have hx0 : (0 : Int) ≤ x := Int.ofNat_nonneg x
  have hy0 : (0 : Int) ≤ y := Int.ofNat_nonneg y
  refine ⟨rfl, ?_, ?_⟩
  · have : 0 ≤ (height - 1 - y) * width := mul_nonneg (by omega) (by omega)
    omega
  · have h1 : (height - 1 - y) * width ≤ (height - 1) * width :=
      mul_le_mul_of_nonneg_right (by omega) (by omega)
    have h2 : (height - 1) * width = width * height - width := by ring
    omega

/-- A byte shifted right by `8 - l` fits in `l` bits. -/
theorem shiftRight_byte_lt (r l : Nat) (hr : r < 256) (hl : l ≤ 8) :
    r >>> (8 - l) < 2 ^ l := by
  rw [Nat.shiftRight_eq_div_pow, Nat.div_lt_iff_lt_mul (by positivity)]
  have : 2 ^ l * 2 ^ (8 - l) = 256 := by
    rw [← pow_add]
    have : l + (8 - l) = 8 := by omega
    rw [this]; norm_num
  omega

/-- A field of `l` bits at `o` is not seen at the bits of a disjoint field. -/
theorem testBit_shiftLeft_of_disjoint (v o l o' l' i : Nat) (hv : v < 2 ^ l) (hi : i < l')
    (hd : o' + l' ≤ o ∨ o + l ≤ o') : (v <<< o).testBit (o' + i) = false := by
  rw [Nat.testBit_shiftLeft]
  rcases hd with hd | hd
  · have : ¬ (o' + i ≥ o) := by omega
    simp [this]
  · have : v.testBit (o' + i - o) = false :=
      Nat.testBit_lt_two_pow (lt_of_lt_of_le hv (Nat.pow_le_pow_right (by norm_num) (by omega)))
    simp [this]

/-- Reading back a field of a word made of three disjoint fields inside 16 bits. -/
theorem extract_field (W v o l : Nat) (hv : v < 2 ^ l) (ho : o + l ≤ 16)
    (hW : ∀ i, i < l → W.testBit (o + i) = v.testBit i) :
    ((W % 65536) >>> o) &&& (2 ^ l - 1) = v := by
  apply Nat.eq_of_testBit_eq
  intro i
  rw [Nat.testBit_and, Nat.testBit_shiftRight, Nat.testBit_two_pow_sub_one,
    show (65536 : Nat) = 2 ^ 16 by norm_num, Nat.testBit_mod_two_pow]
  by_cases hi : i < l
  · have : o + i < 16 := by omega
    simp [hi, this, hW i hi]
  · have : v.testBit i = false :=
      Nat.testBit_lt_two_pow (lt_of_lt_of_le hv (Nat.pow_le_pow_right (by norm_num) (by omega)))
    simp [hi, this]

theorem testBit_shiftLeft_self (v o i : Nat) : (v <<< o).testBit (o + i) = v.testBit i := by
  rw [Nat.testBit_shiftLeft]
  simp

/-- Dropping the low `k` bits loses less than `2 ^ k`. -/
theorem shift_round_trip (r k : Nat) :
    (r >>> k) <<< k ≤ r ∧ r - (r >>> k) <<< k < 2 ^ k := by
  rw [Nat.shiftLeft_eq, Nat.shiftRight_eq_div_pow]
  have h1 := Nat.div_add_mod r (2 ^ k)
  have h2 := Nat.mod_lt r (show 2 ^ k > 0 by positivity)
  have h3 : r / 2 ^ k * 2 ^ k = 2 ^ k * (r / 2 ^ k) := Nat.mul_comm _ _
  omega

/-- The three fields of the 16-bit colour word read back as the shifted source bytes. -/
theorem color16_fields (vinfo : fb_var_screeninfo) (r g b : Nat)
    (hr : r < 256) (hg : g < 256) (hb : b < 256)
    (hrl : vinfo.red.length ≤ 8) (hgl : vinfo.green.length ≤ 8) (hbl : vinfo.blue.length ≤ 8)
    (hr16 : vinfo.red.offset + vinfo.red.length ≤ 16)
    (hg16 : vinfo.green.offset + vinfo.green.length ≤ 16)
    (hb16 : vinfo.blue.offset + vinfo.blue.length ≤ 16)
    (hrg : vinfo.red.offset + vinfo.red.length ≤ vinfo.green.offset ∨
      vinfo.green.offset + vinfo.green.length ≤ vinfo.red.offset)
    (hrb : vinfo.red.offset + vinfo.red.length ≤ vinfo.blue.offset ∨
      vinfo.blue.offset + vinfo.blue.length ≤ vinfo.red.offset)
    (hgb : vinfo.green.offset + vinfo.green.length ≤ vinfo.blue.offset ∨
      vinfo.blue.offset + vinfo.blue.length ≤ vinfo.green.offset) :
    (color16 vinfo r g b >>> vinfo.red.offset) &&& (2 ^ vinfo.red.length - 1)
      = r >>> (8 - vinfo.red.length) ∧
    (color16 vinfo r g b >>> vinfo.green.offset) &&& (2 ^ vinfo.green.length - 1)
      = g >>> (8 - vinfo.green.length) ∧
    (color16 vinfo r g b >>> vinfo.blue.offset) &&& (2 ^ vinfo.blue.length - 1)
      = b >>> (8 - vinfo.blue.length) := by
  have vr := shiftRight_byte_lt r _ hr hrl
  have vg := shiftRight_byte_lt g _ hg hgl
  have vb := shiftRight_byte_lt b _ hb hbl
  unfold color16
  refine ⟨extract_field _ _ _ _ vr hr16 (fun i hi => ?_),
    extract_field _ _ _ _ vg hg16 (fun i hi => ?_),
    extract_field _ _ _ _ vb hb16 (fun i hi => ?_)⟩
  · rw [Nat.testBit_or, Nat.testBit_or, testBit_shiftLeft_self,
      testBit_shiftLeft_of_disjoint _ _ _ _ _ i vg hi hrg,
      testBit_shiftLeft_of_disjoint _ _ _ _ _ i vb hi hrb]
    simp
  · rw [Nat.testBit_or, Nat.testBit_or, testBit_shiftLeft_self,
      testBit_shiftLeft_of_disjoint _ _ _ _ _ i vr hi hrg.symm,
      testBit_shiftLeft_of_disjoint _ _ _ _ _ i vb hi hgb]
    simp
  · rw [Nat.testBit_or, Nat.testBit_or, testBit_shiftLeft_self,
      testBit_shiftLeft_of_disjoint _ _ _ _ _ i vr hi hrb.symm,
      testBit_shiftLeft_of_disjoint _ _ _ _ _ i vg hi hgb.symm]
    simp

/-! ## The claims on the blitter, the input tracker, the quit transition and the meshes -/

/-- C11 as stated fails. A solid source of colour `(1, 2, 3, 4)`, 2 by 2, on a 2 by 2
32-bit destination with red, green, blue at bytes 0, 1, 2 of the pixel.
With `line_length = 5` the rows overlap: the green byte of pixel `(1, 0)`, at
`0 * 5 + 1 * 4 + 1`, holds 1, the red of pixel `(0, 1)`, and not 2.
With `line_length = 8` and an alpha channel of length 8 at bit offset 0, the red byte of
pixel `(0, 0)` holds the alpha 4 and not 1. -/
theorem blit_solid_32_fails :
    copy_to_framebuffer (fun i => (i % 4).toNat + 1) 2 2
      ⟨2, 2, 32, ⟨0, 8⟩, ⟨8, 8⟩, ⟨16, 8⟩, ⟨24, 0⟩⟩ ⟨5⟩ (fun _ => 0) (0 * 5 + 1 * 4 + 8 / 8) = 1 ∧
    copy_to_framebuffer (fun i => (i % 4).toNat + 1) 2 2
      ⟨2, 2, 32, ⟨0, 8⟩, ⟨8, 8⟩, ⟨16, 8⟩, ⟨0, 8⟩⟩ ⟨8⟩ (fun _ => 0) (0 * 8 + 0 * 4 + 0 / 8) = 4 := by
  constructor <;> decide

/-- C11, amended. On a 32-bit destination whose red, green and blue bytes (`offset / 8`)
are pairwise distinct bytes of the 4-byte pixel, whose alpha channel is absent
(`transp.length = 0`) or sits at the fourth byte, and whose rows do not overlap
(`line_length >= 4 * min(width, xres)`): for a source image in which every pixel is
`(r, g, b, a)`, after the blit every pixel `(x, y)` with `x < min(width, xres)` and
`y < min(height, yres)` holds `r`, `g`, `b` at the red, green and blue bytes of the pixel at
`y * line_length + x * 4`. -/
theorem blit_solid_32 (pixels : Int → Nat) (width height : Int) (vinfo : fb_var_screeninfo)
    (finfo : fb_fix_screeninfo) (fbp : Nat → Nat) (r g b a x y : Nat)
    (h32 : vinfo.bits_per_pixel = 32)
    (hr : vinfo.red.offset / 8 < 4) (hg : vinfo.green.offset / 8 < 4)
    (hb : vinfo.blue.offset / 8 < 4)
    (hrg : vinfo.red.offset / 8 ≠ vinfo.green.offset / 8)
    (hrb : vinfo.red.offset / 8 ≠ vinfo.blue.offset / 8)
    (hgb : vinfo.green.offset / 8 ≠ vinfo.blue.offset / 8)
    (ht : vinfo.transp.length = 0 ∨
      (vinfo.transp.offset / 8 < 4 ∧ vinfo.transp.offset / 8 ≠ vinfo.red.offset / 8 ∧
        vinfo.transp.offset / 8 ≠ vinfo.green.offset / 8 ∧
        vinfo.transp.offset / 8 ≠ vinfo.blue.offset / 8))
    (hstride : 4 * min width (vinfo.xres : Int) ≤ finfo.line_length)
    (hsolid : ∀ i : Int, 0 ≤ i → i < width * height →
      pixels (i * 4) = r ∧ pixels (i * 4 + 1) = g ∧ pixels (i * 4 + 2) = b ∧
        pixels (i * 4 + 3) = a)
    (hx : (x : Int) < min width vinfo.xres) (hy : (y : Int) < min height vinfo.yres) :
    copy_to_framebuffer pixels width height vinfo finfo fbp
      (y * finfo.line_length + x * 4 + vinfo.red.offset / 8) = r ∧
    copy_to_framebuffer pixels width height vinfo finfo fbp
      (y * finfo.line_length + x * 4 + vinfo.green.offset / 8) = g ∧
    copy_to_framebuffer pixels width height vinfo finfo fbp
      (y * finfo.line_length + x * 4 + vinfo.blue.offset / 8) = b := by
  obtain ⟨hpo, h0, h1⟩ := pixels_offset_range width height vinfo.xres vinfo.yres x y hx hy
  obtain ⟨sr, sg, sb, -⟩ := hsolid _ h0 h1
  have ht4 : vinfo.transp.length > 0 → vinfo.transp.offset / 8 < 4 := by
    intro hl
    rcases ht with ht | ht
    · omega
    · exact ht.1
  refine ⟨?_, ?_, ?_⟩
  · apply copy_to_framebuffer_32_eq pixels width height vinfo finfo fbp x y _ r h32 hr hg hb ht4
      hstride hx hy hr
    intro m
    rcases ht with ht | ⟨-, t1, t2, t3⟩
    · simp [copy_pixel_32, fb_offset, h32, ht, Store.apply, Function.update_apply, hpo, sr,
        hrg.symm, hrb.symm, hrg, hrb]
    · by_cases hl : vinfo.transp.length > 0
      · simp [copy_pixel_32, fb_offset, h32, hl, Store.apply, Function.update_apply, hpo, sr,
          hrg.symm, hrb.symm, hrg, hrb, t1, t1.symm]
      · simp [copy_pixel_32, fb_offset, h32, hl, Store.apply, Function.update_apply, hpo, sr,
          hrg.symm, hrb.symm, hrg, hrb]
  · apply copy_to_framebuffer_32_eq pixels width height vinfo finfo fbp x y _ g h32 hr hg hb ht4
      hstride hx hy hg
    intro m
    rcases ht with ht | ⟨-, t1, t2, t3⟩
    · simp [copy_pixel_32, fb_offset, h32, ht, Store.apply, Function.update_apply, hpo, sg,
        hgb.symm, hgb]
    · by_cases hl : vinfo.transp.length > 0
      · simp [copy_pixel_32, fb_offset, h32, hl, Store.apply, Function.update_apply, hpo, sg,
          hgb.symm, hgb, t2, t2.symm]
      · simp [copy_pixel_32, fb_offset, h32, hl, Store.apply, Function.update_apply, hpo, sg,
          hgb.symm, hgb]
  · apply copy_to_framebuffer_32_eq pixels width height vinfo finfo fbp x y _ b h32 hr hg hb ht4
      hstride hx hy hb
    intro m
    rcases ht with ht | ⟨-, t1, t2, t3⟩
    · simp [copy_pixel_32, fb_offset, h32, ht, Store.apply, Function.update_apply, hpo, sb]
    · by_cases hl : vinfo.transp.length > 0
      · simp [copy_pixel_32, fb_offset, h32, hl, Store.apply, Function.update_apply, hpo, sb,
          t3, t3.symm]
      · simp [copy_pixel_32, fb_offset, h32, hl, Store.apply, Function.update_apply, hpo, sb]

/-- C11, amended, at a 2 by 2 source of colour `(1, 2, 3, 4)` on a 2 by 2 destination with
blue, green, red, alpha at bytes 0, 1, 2, 3 and `line_length = 8`, at pixel `(1, 1)`. -/
theorem blit_solid_32_witness :
    copy_to_framebuffer (fun i => (i % 4).toNat + 1) 2 2
      ⟨2, 2, 32, ⟨16, 8⟩, ⟨8, 8⟩, ⟨0, 8⟩, ⟨24, 8⟩⟩ ⟨8⟩ (fun _ => 0) (1 * 8 + 1 * 4 + 16 / 8) = 1 ∧
    copy_to_framebuffer (fun i => (i % 4).toNat + 1) 2 2
      ⟨2, 2, 32, ⟨16, 8⟩, ⟨8, 8⟩, ⟨0, 8⟩, ⟨24, 8⟩⟩ ⟨8⟩ (fun _ => 0) (1 * 8 + 1 * 4 + 8 / 8) = 2 ∧
    copy_to_framebuffer (fun i => (i % 4).toNat + 1) 2 2
      ⟨2, 2, 32, ⟨16, 8⟩, ⟨8, 8⟩, ⟨0, 8⟩, ⟨24, 8⟩⟩ ⟨8⟩ (fun _ => 0) (1 * 8 + 1 * 4 + 0 / 8) = 3 :=
  blit_solid_32 (fun i => (i % 4).toNat + 1) 2 2 ⟨2, 2, 32, ⟨16, 8⟩, ⟨8, 8⟩, ⟨0, 8⟩, ⟨24, 8⟩⟩
    ⟨8⟩ (fun _ => 0) 1 2 3 4 1 1 (by decide) (by decide) (by decide) (by decide) (by decide)
    (by decide) (by decide) (by decide) (by decide)
    (fun i _ _ => ⟨by simp, by simp [Int.add_emod], by simp [Int.add_emod],
      by simp [Int.add_emod]⟩)
    (by decide) (by decide)

/-- C12. On a 16-bit destination whose channel lengths are between 1 and 8 and whose bit
fields are pairwise disjoint and inside 16 bits, with a source of bytes: every store of
`copy_to_framebuffer` is the 16-bit store, at the base of a drawn pixel `(x, y)`, of a
word whose red, green and blue fields, `(word >> offset) & (2 ^ length - 1)`, are the bytes
of the source pixel at `((height - 1 - y) * width + x) * 4` shifted right by `8 - length`;
shifting a field back left by `8 - length` gives a value below the source byte by less
than `2 ^ (8 - length)`. For the 5-6-5 layout (offsets 11, 5, 0) the word of the bytes
`r`, `g`, `b` is `((r >> 3) << 11) | ((g >> 2) << 5) | (b >> 3)`. -/
theorem blit_16_fields (pixels : Int → Nat) (width height : Int) (vinfo : fb_var_screeninfo)
    (finfo : fb_fix_screeninfo) (s : Store)
    (h16 : vinfo.bits_per_pixel = 16)
    (hbytes : ∀ i, pixels i < 256)
    (hrl : 1 ≤ vinfo.red.length ∧ vinfo.red.length ≤ 8)
    (hgl : 1 ≤ vinfo.green.length ∧ vinfo.green.length ≤ 8)
    (hbl : 1 ≤ vinfo.blue.length ∧ vinfo.blue.length ≤ 8)
    (hr16 : vinfo.red.offset + vinfo.red.length ≤ 16)
    (hg16 : vinfo.green.offset + vinfo.green.length ≤ 16)
    (hb16 : vinfo.blue.offset + vinfo.blue.length ≤ 16)
    (hrg : vinfo.red.offset + vinfo.red.length ≤ vinfo.green.offset ∨
      vinfo.green.offset + vinfo.green.length ≤ vinfo.red.offset)
    (hrb : vinfo.red.offset + vinfo.red.length ≤ vinfo.blue.offset ∨
      vinfo.blue.offset + vinfo.blue.length ≤ vinfo.red.offset)
    (hgb : vinfo.green.offset + vinfo.green.length ≤ vinfo.blue.offset ∨
      vinfo.blue.offset + vinfo.blue.length ≤ vinfo.green.offset)
    (hs : s ∈ copy_to_framebuffer_stores pixels width height vinfo finfo) :
    (∃ x y : Nat, ∃ word r g b : Nat,
      (x : Int) < min width vinfo.xres ∧ (y : Int) < min height vinfo.yres ∧
      r = pixels (((height - 1 - y) * width + x) * 4) ∧
      g = pixels (((height - 1 - y) * width + x) * 4 + 1) ∧
      b = pixels (((height - 1 - y) * width + x) * 4 + 2) ∧
      s = Store.u16 (y * finfo.line_length + x * 2) word ∧
      word = color16 vinfo r g b ∧
      (word >>> vinfo.red.offset) &&& (2 ^ vinfo.red.length - 1)
        = r >>> (8 - vinfo.red.length) ∧
      (word >>> vinfo.green.offset) &&& (2 ^ vinfo.green.length - 1)
        = g >>> (8 - vinfo.green.length) ∧
      (word >>> vinfo.blue.offset) &&& (2 ^ vinfo.blue.length - 1)
        = b >>> (8 - vinfo.blue.length) ∧
      ((r >>> (8 - vinfo.red.length)) <<< (8 - vinfo.red.length) ≤ r ∧
        r - (r >>> (8 - vinfo.red.length)) <<< (8 - vinfo.red.length)
          < 2 ^ (8 - vinfo.red.length)) ∧
      ((g >>> (8 - vinfo.green.length)) <<< (8 - vinfo.green.length) ≤ g ∧
        g - (g >>> (8 - vinfo.green.length)) <<< (8 - vinfo.green.length)
          < 2 ^ (8 - vinfo.green.length)) ∧
      ((b >>> (8 - vinfo.blue.length)) <<< (8 - vinfo.blue.length) ≤ b ∧
        b - (b >>> (8 - vinfo.blue.length)) <<< (8 - vinfo.blue.length)
          < 2 ^ (8 - vinfo.blue.length))) ∧
    (∀ r g b : Nat, r < 256 → g < 256 → b < 256 →
      vinfo.red = ⟨11, 5⟩ → vinfo.green = ⟨5, 6⟩ → vinfo.blue = ⟨0, 5⟩ →
      color16 vinfo r g b = ((r >>> 3) <<< 11) ||| ((g >>> 2) <<< 5) ||| (b >>> 3)) := by
  constructor
  · unfold copy_to_framebuffer_stores at hs
    simp only [h16, if_true, show ¬ (16 = 32) by decide, show ¬ (16 = 24) by decide,
      if_false] at hs
    rw [mem_copy_loops] at hs
    obtain ⟨x, y, hx, hy, hs⟩ := hs
    simp only [copy_pixel_16, fb_offset, pixels_offset, h16, List.mem_singleton] at hs
    obtain ⟨f1, f2, f3⟩ := color16_fields vinfo _ _ _
      (hbytes (((height - 1 - y) * width + x) * 4))
      (hbytes (((height - 1 - y) * width + x) * 4 + 1))
      (hbytes (((height - 1 - y) * width + x) * 4 + 2))
      hrl.2 hgl.2 hbl.2 hr16 hg16 hb16 hrg hrb hgb
    exact ⟨x, y, _, _, _, _, hx, hy, rfl, rfl, rfl, hs, rfl, f1, f2, f3,
      shift_round_trip _ _, shift_round_trip _ _, shift_round_trip _ _⟩
  · intro r g b hr hg hb e1 e2 e3
    have hlt : ((r >>> 3) <<< 11) ||| ((g >>> 2) <<< 5) ||| (b >>> 3) < 2 ^ 16 := by
      have vr := shiftRight_byte_lt r 5 hr (by norm_num)
      have vg := shiftRight_byte_lt g 6 hg (by norm_num)
      have vb := shiftRight_byte_lt b 5 hb (by norm_num)
      apply Nat.or_lt_two_pow
      · apply Nat.or_lt_two_pow
        · rw [Nat.shiftLeft_eq]; norm_num at vr ⊢; omega
        · rw [Nat.shiftLeft_eq]; norm_num at vg ⊢; omega
      · norm_num at vb ⊢; omega
    simp only [color16, e1, e2, e3, Nat.shiftLeft_zero]
    exact Nat.mod_eq_of_lt hlt

/-- C12 at a 1 by 1 white source on a 1 by 1 destination of layout 5-6-5, and the 5-6-5
word of the bytes 255, 128, 7. -/
theorem blit_16_fields_witness :
    color16 ⟨1, 1, 16, ⟨11, 5⟩, ⟨5, 6⟩, ⟨0, 5⟩, ⟨0, 0⟩⟩ 255 128 7
      = ((255 >>> 3) <<< 11) ||| ((128 >>> 2) <<< 5) ||| (7 >>> 3) :=
  (blit_16_fields (fun _ => 255) 1 1 ⟨1, 1, 16, ⟨11, 5⟩, ⟨5, 6⟩, ⟨0, 5⟩, ⟨0, 0⟩⟩ ⟨2⟩
    (Store.u16 0 65535) rfl (fun _ => Nat.lt_succ_self 255) (by decide) (by decide) (by decide)
    (by decide) (by decide) (by decide) (by decide) (by decide) (by decide) (by decide)).2
    255 128 7 (by decide) (by decide) (by decide) rfl rfl rfl

/-- C13. For each supported depth and every drawn pixel `(x, y)`, the stores of the loop
body at `(x, y)` are stores of `copy_to_framebuffer`, and they are the same for two source
images that agree on the four bytes at `((height - 1 - y) * width + x) * 4`, the pixel of
column `x` in source row `height - 1 - y`; for `y = 0` that is row `height - 1`. -/
theorem blit_vertical_flip (pixels pixels' : Int → Nat) (width height : Int)
    (vinfo : fb_var_screeninfo) (finfo : fb_fix_screeninfo) (x y : Nat)
    (hx : (x : Int) < min width vinfo.xres) (hy : (y : Int) < min height vinfo.yres)
    (hsame : ∀ c : Int, 0 ≤ c → c < 4 →
      pixels (((height - 1 - y) * width + x) * 4 + c)
        = pixels' (((height - 1 - y) * width + x) * 4 + c)) :
    (vinfo.bits_per_pixel = 32 →
      (∀ s ∈ copy_pixel_32 pixels width height vinfo finfo x y,
        s ∈ copy_to_framebuffer_stores pixels width height vinfo finfo) ∧
      copy_pixel_32 pixels width height vinfo finfo x y
        = copy_pixel_32 pixels' width height vinfo finfo x y) ∧
    (vinfo.bits_per_pixel = 24 →
      (∀ s ∈ copy_pixel_24 pixels width height vinfo finfo x y,
        s ∈ copy_to_framebuffer_stores pixels width height vinfo finfo) ∧
      copy_pixel_24 pixels width height vinfo finfo x y
        = copy_pixel_24 pixels' width height vinfo finfo x y) ∧
    (vinfo.bits_per_pixel = 16 →
      (∀ s ∈ copy_pixel_16 pixels width height vinfo finfo x y,
        s ∈ copy_to_framebuffer_stores pixels width height vinfo finfo) ∧
      copy_pixel_16 pixels width height vinfo finfo x y
        = copy_pixel_16 pixels' width height vinfo finfo x y) ∧
    pixels_offset width height x 0 = ((height - 1) * width + x) * 4 := by
  have e0 := hsame 0 (by norm_num) (by norm_num)
  have e1 := hsame 1 (by norm_num) (by norm_num)
  have e2 := hsame 2 (by norm_num) (by norm_num)
  have e3 := hsame 3 (by norm_num) (by norm_num)
  rw [add_zero] at e0
  refine ⟨fun h => ⟨fun s hs => ?_, ?_⟩, fun h => ⟨fun s hs => ?_, ?_⟩,
    fun h => ⟨fun s hs => ?_, ?_⟩, ?_⟩
  · unfold copy_to_framebuffer_stores
    simp only [h, if_true]
    exact (mem_copy_loops _ _ _ _ _).2 ⟨x, y, hx, hy, hs⟩
  · simp only [copy_pixel_32, pixels_offset, e0, e1, e2, e3]
  · unfold copy_to_framebuffer_stores
    simp only [h, if_true, show ¬ (24 = 32) by decide, if_false]
    exact (mem_copy_loops _ _ _ _ _).2 ⟨x, y, hx, hy, hs⟩
  · simp only [copy_pixel_24, pixels_offset, e0, e1, e2]
  · unfold copy_to_framebuffer_stores
    simp only [h, if_true, show ¬ (16 = 32) by decide, show ¬ (16 = 24) by decide, if_false]
    exact (mem_copy_loops _ _ _ _ _).2 ⟨x, y, hx, hy, hs⟩
  · simp only [copy_pixel_16, pixels_offset, e0, e1, e2]
  · simp [pixels_offset]

/-- C13 at pixel `(0, 0)` of a 1 by 2 source on a 1 by 2 destination of 32 bits: the body
reads source row 1, the bytes at 4 to 7, so two images that differ in row 0 only give the
same stores. -/
theorem blit_vertical_flip_witness :
    copy_pixel_32 (fun i => if i < 4 then 0 else 9) 1 2
        ⟨1, 2, 32, ⟨0, 8⟩, ⟨8, 8⟩, ⟨16, 8⟩, ⟨24, 8⟩⟩ ⟨4⟩ 0 0
      = copy_pixel_32 (fun i => if i < 4 then 5 else 9) 1 2
        ⟨1, 2, 32, ⟨0, 8⟩, ⟨8, 8⟩, ⟨16, 8⟩, ⟨24, 8⟩⟩ ⟨4⟩ 0 0 :=
  ((blit_vertical_flip (fun i => if i < 4 then 0 else 9) (fun i => if i < 4 then 5 else 9) 1 2
    ⟨1, 2, 32, ⟨0, 8⟩, ⟨8, 8⟩, ⟨16, 8⟩, ⟨24, 8⟩⟩ ⟨4⟩ 0 0 (by decide) (by decide)
    (fun c h0 _ => by
      have h : ¬ ((2 - 1 - ((0 : Nat) : Int)) * 1 + ((0 : Nat) : Int)) * 4 + c < 4 := by
        simp only [Nat.cast_zero]; omega
      simp only [h, if_false])).1 rfl).2

/-- C14 as stated fails. On a destination of 8 bits per pixel nothing is stored, although
pixel `(0, 0)` is in the drawn area of a 1 by 1 source. On a 32-bit destination 2 pixels
wide whose red channel is at bit offset 32, a 1 by 1 source draws pixel `(0, 0)` only, the
bytes 0 to 3, and byte 4 is changed from 0 to 255. -/
theorem blit_crop_fails :
    copy_to_framebuffer_stores (fun _ => 255) 1 1
      ⟨1, 1, 8, ⟨0, 8⟩, ⟨0, 8⟩, ⟨0, 8⟩, ⟨0, 0⟩⟩ ⟨1⟩ = [] ∧
    copy_to_framebuffer (fun _ => 255) 1 1
      ⟨2, 1, 32, ⟨32, 8⟩, ⟨8, 8⟩, ⟨16, 8⟩, ⟨24, 0⟩⟩ ⟨8⟩ (fun _ => 0) 4 = 255 := by
  constructor <;> decide

/-- The bytes of the stores of the loop bodies, for the three depths, lie in the pixel. -/
theorem copy_pixel_bytes (pixels : Int → Nat) (width height : Int)
    (vinfo : fb_var_screeninfo) (finfo : fb_fix_screeninfo) (x y : Nat)
    (hsup : (vinfo.bits_per_pixel = 32 ∧ vinfo.red.offset / 8 < 4 ∧
        vinfo.green.offset / 8 < 4 ∧ vinfo.blue.offset / 8 < 4 ∧
        (vinfo.transp.length > 0 → vinfo.transp.offset / 8 < 4)) ∨
      (vinfo.bits_per_pixel = 24 ∧ vinfo.red.offset / 8 < 3 ∧
        vinfo.green.offset / 8 < 3 ∧ vinfo.blue.offset / 8 < 3) ∨
      vinfo.bits_per_pixel = 16)
    (s : Store)
    (hs : s ∈ copy_pixel_32 pixels width height vinfo finfo x y ∧ vinfo.bits_per_pixel = 32 ∨
      s ∈ copy_pixel_24 pixels width height vinfo finfo x y ∧ vinfo.bits_per_pixel = 24 ∨
      s ∈ copy_pixel_16 pixels width height vinfo finfo x y ∧ vinfo.bits_per_pixel = 16)
    (a : Nat) (ha : a ∈ s.bytes) :
    fb_offset vinfo finfo x y ≤ a ∧
      a < fb_offset vinfo finfo x y + vinfo.bits_per_pixel / 8 := by
  rcases hs with ⟨hs, h⟩ | ⟨hs, h⟩ | ⟨hs, h⟩
  · rcases hsup with ⟨-, hr, hg, hb, ht⟩ | ⟨h', -⟩ | h'
    · have := copy_pixel_32_bytes pixels width height vinfo finfo x y h hr hg hb ht s hs a ha
      simp only [fb_offset, h]
      omega
    · omega
    · omega
  · rcases hsup with ⟨h', -⟩ | ⟨-, hr, hg, hb⟩ | h'
    · omega
    · simp only [copy_pixel_24, List.mem_cons, List.mem_singleton, List.mem_nil_iff,
        or_false] at hs
      rcases hs with rfl | rfl | rfl <;>
        simp only [Store.bytes, List.mem_singleton] at ha <;> omega
    · omega
  · simp only [copy_pixel_16, List.mem_singleton] at hs
    subst hs
    simp only [Store.bytes, List.mem_cons, List.mem_singleton, List.mem_nil_iff,
      or_false] at ha
    omega

/-- The stores of `copy_to_framebuffer` are those of the body of the depth at the drawn
pixels. -/
theorem mem_copy_to_framebuffer_stores (pixels : Int → Nat) (width height : Int)
    (vinfo : fb_var_screeninfo) (finfo : fb_fix_screeninfo) (s : Store) :
    s ∈ copy_to_framebuffer_stores pixels width height vinfo finfo ↔
      ∃ x y : Nat, (x : Int) < min width vinfo.xres ∧ (y : Int) < min height vinfo.yres ∧
        (s ∈ copy_pixel_32 pixels width height vinfo finfo x y ∧ vinfo.bits_per_pixel = 32 ∨
        s ∈ copy_pixel_24 pixels width height vinfo finfo x y ∧ vinfo.bits_per_pixel = 24 ∨
        s ∈ copy_pixel_16 pixels width height vinfo finfo x y ∧
          vinfo.bits_per_pixel = 16) := by
  unfold copy_to_framebuffer_stores
  by_cases h32 : vinfo.bits_per_pixel = 32
  · simp [h32, mem_copy_loops]
  · by_cases h24 : vinfo.bits_per_pixel = 24
    · simp [h24, mem_copy_loops]
    · by_cases h16 : vinfo.bits_per_pixel = 16
      · simp [h16, mem_copy_loops]
      · simp [h32, h24, h16]

/-- C14, amended. For any source size, on a destination of 32, 24 or 16 bits per pixel
whose written channel bytes (`offset / 8`) are inside the pixel: every byte that
`copy_to_framebuffer` stores to lies in a pixel `(x, y)` with `x < min(width, xres)` and
`y < min(height, yres)`, every such pixel is stored to, and every byte in no such pixel
keeps its value. On a destination of any other depth nothing is stored. -/
theorem blit_crop (pixels : Int → Nat) (width height : Int) (vinfo : fb_var_screeninfo)
    (finfo : fb_fix_screeninfo) (fbp : Nat → Nat) :
    ((vinfo.bits_per_pixel = 32 ∧ vinfo.red.offset / 8 < 4 ∧
        vinfo.green.offset / 8 < 4 ∧ vinfo.blue.offset / 8 < 4 ∧
        (vinfo.transp.length > 0 → vinfo.transp.offset / 8 < 4)) ∨
      (vinfo.bits_per_pixel = 24 ∧ vinfo.red.offset / 8 < 3 ∧
        vinfo.green.offset / 8 < 3 ∧ vinfo.blue.offset / 8 < 3) ∨
      vinfo.bits_per_pixel = 16 →
      (∀ s ∈ copy_to_framebuffer_stores pixels width height vinfo finfo, ∀ a ∈ s.bytes,
        ∃ x y : Nat, (x : Int) < min width vinfo.xres ∧ (y : Int) < min height vinfo.yres ∧
          fb_offset vinfo finfo x y ≤ a ∧
          a < fb_offset vinfo finfo x y + vinfo.bits_per_pixel / 8) ∧
      (∀ x y : Nat, (x : Int) < min width vinfo.xres → (y : Int) < min height vinfo.yres →
        ∃ s ∈ copy_to_framebuffer_stores pixels width height vinfo finfo, ∀ a ∈ s.bytes,
          fb_offset vinfo finfo x y ≤ a ∧
          a < fb_offset vinfo finfo x y + vinfo.bits_per_pixel / 8) ∧
      (∀ a : Nat,
        (∀ x y : Nat, (x : Int) < min width vinfo.xres → (y : Int) < min height vinfo.yres →
          ¬(fb_offset vinfo finfo x y ≤ a ∧
            a < fb_offset vinfo finfo x y + vinfo.bits_per_pixel / 8)) →
        copy_to_framebuffer pixels width height vinfo finfo fbp a = fbp a)) ∧
    (vinfo.bits_per_pixel ≠ 32 → vinfo.bits_per_pixel ≠ 24 → vinfo.bits_per_pixel ≠ 16 →
      copy_to_framebuffer_stores pixels width height vinfo finfo = [] ∧
      copy_to_framebuffer pixels width height vinfo finfo fbp = fbp) := by
  constructor
  · intro hsup
    have hin : ∀ s ∈ copy_to_framebuffer_stores pixels width height vinfo finfo,
        ∀ a ∈ s.bytes, ∃ x y : Nat, (x : Int) < min width vinfo.xres ∧
          (y : Int) < min height vinfo.yres ∧ fb_offset vinfo finfo x y ≤ a ∧
          a < fb_offset vinfo finfo x y + vinfo.bits_per_pixel / 8 := by
      intro s hs a ha
      obtain ⟨x, y, hx, hy, hs⟩ := (mem_copy_to_framebuffer_stores _ _ _ _ _ _).1 hs
      exact ⟨x, y, hx, hy, copy_pixel_bytes pixels width height vinfo finfo x y hsup s hs a ha⟩
    refine ⟨hin, ?_, ?_⟩
    · intro x y hx hy
      rcases hsup with h | h | h
      · refine ⟨Store.u8 (fb_offset vinfo finfo x y + vinfo.red.offset / 8)
          (pixels (pixels_offset width height x y)), ?_, ?_⟩
        · exact (mem_copy_to_framebuffer_stores _ _ _ _ _ _).2
            ⟨x, y, hx, hy, Or.inl ⟨by simp [copy_pixel_32], h.1⟩⟩
        · intro a ha
          simp only [Store.bytes, List.mem_singleton] at ha
          omega
      · refine ⟨Store.u8 (fb_offset vinfo finfo x y + vinfo.red.offset / 8)
          (pixels (pixels_offset width height x y)), ?_, ?_⟩
        · exact (mem_copy_to_framebuffer_stores _ _ _ _ _ _).2
            ⟨x, y, hx, hy, Or.inr (Or.inl ⟨by simp [copy_pixel_24], h.1⟩)⟩
        · intro a ha
          simp only [Store.bytes, List.mem_singleton] at ha
          omega
      · refine ⟨Store.u16 (fb_offset vinfo finfo x y)
          (color16 vinfo (pixels (pixels_offset width height x y))
            (pixels (pixels_offset width height x y + 1))
            (pixels (pixels_offset width height x y + 2))), ?_, ?_⟩
        · exact (mem_copy_to_framebuffer_stores _ _ _ _ _ _).2
            ⟨x, y, hx, hy, Or.inr (Or.inr ⟨by simp only [copy_pixel_16, List.mem_singleton], h⟩)⟩
        · intro a ha
          simp only [Store.bytes, List.mem_cons, List.mem_singleton, List.mem_nil_iff,
            or_false] at ha
          omega
    · intro a ha
      apply foldl_apply_of_not_mem
      intro s hs hmem
      obtain ⟨x, y, hx, hy, h⟩ := hin s hs a hmem
      exact ha x y hx hy h
  · intro h32 h24 h16
    have e : copy_to_framebuffer_stores pixels width height vinfo finfo = [] := by
      simp [copy_to_framebuffer_stores, h32, h24, h16]
    refine ⟨e, ?_⟩
    simp [copy_to_framebuffer, e]

/-- C14, amended, at a 3 by 3 source on a 2 by 1 destination of 16 bits per pixel: byte 4,
past the two drawn pixels, keeps its value 7. -/
theorem blit_crop_witness :
    copy_to_framebuffer (fun _ => 255) 3 3 ⟨2, 1, 16, ⟨11, 5⟩, ⟨5, 6⟩, ⟨0, 5⟩, ⟨0, 0⟩⟩ ⟨4⟩
      (fun _ => 7) 4 = 7 :=
  ((blit_crop (fun _ => 255) 3 3 ⟨2, 1, 16, ⟨11, 5⟩, ⟨5, 6⟩, ⟨0, 5⟩, ⟨0, 0⟩⟩ ⟨4⟩
    (fun _ => 7)).1 (Or.inr (Or.inr rfl))).2.2 4 (fun x y hx hy h => by
      simp only [fb_offset] at h
      have hx' : (x : Int) < 2 := lt_of_lt_of_le hx (min_le_right _ _)
      have hy' : (y : Int) < 1 := lt_of_lt_of_le hy (min_le_right _ _)
      have hy0 : y = 0 := by omega
      subst hy0
      omega)

/-- C15 as stated fails. A 2 by 2 source with bytes `100 + i` on a 2 by 2 destination with
blue, green, red, alpha at bytes 0, 1, 2, 3 and `line_length = 5`, so that rows overlap.
With `transp.length = 8`, byte 3 of pixel `(1, 0)`, at offset 7, holds 100, the red of pixel
`(0, 1)`, and not the source alpha 115. With `transp.length = 0` and a memory of sevens, the
same byte, which is none of the three colour bytes of pixel `(1, 0)`, holds 100 and not 7. -/
theorem blit_alpha_fails :
    copy_to_framebuffer (fun i => i.toNat + 100) 2 2
      ⟨2, 2, 32, ⟨16, 8⟩, ⟨8, 8⟩, ⟨0, 8⟩, ⟨24, 8⟩⟩ ⟨5⟩ (fun _ => 0) (0 * 5 + 1 * 4 + 24 / 8)
        = 100 ∧
    (fun i : Int => i.toNat + 100) (((2 - 1 - 0) * 2 + 1) * 4 + 3) = 115 ∧
    copy_to_framebuffer (fun i => i.toNat + 100) 2 2
      ⟨2, 2, 32, ⟨16, 8⟩, ⟨8, 8⟩, ⟨0, 8⟩, ⟨24, 0⟩⟩ ⟨5⟩ (fun _ => 7) (0 * 5 + 1 * 4 + 3)
        = 100 := by
  refine ⟨?_, ?_, ?_⟩ <;> decide

/-- C15, amended. On a 32-bit destination whose written channel bytes (`offset / 8`) are
inside the 4-byte pixel and whose rows do not overlap
(`line_length >= 4 * min(width, xres)`), for every drawn pixel `(x, y)`: when
`transp.length > 0` the byte `transp.offset / 8` of the pixel holds the alpha byte of the
source pixel; when `transp.length == 0` every byte of the pixel that is not at the red,
green or blue byte offset keeps its value. -/
theorem blit_alpha (pixels : Int → Nat) (width height : Int) (vinfo : fb_var_screeninfo)
    (finfo : fb_fix_screeninfo) (fbp : Nat → Nat) (x y : Nat)
    (h32 : vinfo.bits_per_pixel = 32)
    (hr : vinfo.red.offset / 8 < 4) (hg : vinfo.green.offset / 8 < 4)
    (hb : vinfo.blue.offset / 8 < 4)
    (ht : vinfo.transp.length > 0 → vinfo.transp.offset / 8 < 4)
    (hstride : 4 * min width (vinfo.xres : Int) ≤ finfo.line_length)
    (hx : (x : Int) < min width vinfo.xres) (hy : (y : Int) < min height vinfo.yres) :
    (vinfo.transp.length > 0 →
      copy_to_framebuffer pixels width height vinfo finfo fbp
        (y * finfo.line_length + x * 4 + vinfo.transp.offset / 8)
          = pixels (((height - 1 - y) * width + x) * 4 + 3)) ∧
    (vinfo.transp.length = 0 → ∀ k : Nat, k < 4 → k ≠ vinfo.red.offset / 8 →
      k ≠ vinfo.green.offset / 8 → k ≠ vinfo.blue.offset / 8 →
      copy_to_framebuffer pixels width height vinfo finfo fbp
        (y * finfo.line_length + x * 4 + k) = fbp (y * finfo.line_length + x * 4 + k)) := by
  constructor
  · intro hl
    apply copy_to_framebuffer_32_eq pixels width height vinfo finfo fbp x y _ _ h32 hr hg hb ht
      hstride hx hy (ht hl)
    intro m
    simp [copy_pixel_32, fb_offset, pixels_offset, h32, hl, Store.apply]
  · intro hl k hk kr kg kb
    apply foldl_apply_of_not_mem
    intro s hs ha
    obtain ⟨x', y', hx', hy', hs⟩ := (mem_copy_to_framebuffer_stores _ _ _ _ _ _).1 hs
    rcases hs with ⟨hs, -⟩ | ⟨-, h⟩ | ⟨-, h⟩
    · obtain ⟨h1, h2⟩ := copy_pixel_32_bytes pixels width height vinfo finfo x' y' h32 hr hg hb
        ht s hs _ ha
      obtain ⟨w, hw⟩ : ∃ w : Nat, min width (vinfo.xres : Int) = w :=
        ⟨(min width vinfo.xres).toNat, by
          have : (0 : Int) ≤ min width vinfo.xres := by omega
          omega⟩
      rw [hw] at hstride hx hx'
      obtain ⟨rfl, rfl⟩ := pixel_region_unique finfo.line_length 4 w x' y' x y _ (by omega)
        (by omega) (by omega) h1 h2 (by omega) (by omega)
      simp only [copy_pixel_32, fb_offset, h32, hl, gt_iff_lt, lt_self_iff_false, if_false,
        List.append_nil, List.mem_cons, List.mem_singleton, List.mem_nil_iff, or_false] at hs
      rcases hs with rfl | rfl | rfl <;>
        simp only [Store.bytes, List.mem_singleton] at ha <;> omega
    · omega
    · omega

/-- C15, amended, at a 1 by 1 source with bytes 1, 2, 3, 4 on a 1 by 1 destination with
blue, green, red, alpha at bytes 0, 1, 2, 3: byte 3 holds the alpha 4. -/
theorem blit_alpha_witness :
    copy_to_framebuffer (fun i => i.toNat + 1) 1 1
      ⟨1, 1, 32, ⟨16, 8⟩, ⟨8, 8⟩, ⟨0, 8⟩, ⟨24, 8⟩⟩ ⟨4⟩ (fun _ => 0) (0 * 4 + 0 * 4 + 24 / 8)
        = (fun i : Int => i.toNat + 1)
            (((1 - 1 - ((0 : Nat) : Int)) * 1 + ((0 : Nat) : Int)) * 4 + 3) :=
  (blit_alpha (fun i => i.toNat + 1) 1 1 ⟨1, 1, 32, ⟨16, 8⟩, ⟨8, 8⟩, ⟨0, 8⟩, ⟨24, 8⟩⟩ ⟨4⟩
    (fun _ => 0) 0 0 rfl (by decide) (by decide) (by decide) (fun _ => by decide) (by decide)
    (by decide) (by decide)).1 (by decide)

/-! ## Input events -/

/-- The step of `process_input_events` for a successful read. -/
theorem process_input_events_ok (queue : List input_event) (key_state : KeyState) :
    process_input_events (queue.map fun ev => ((0 : Int), ev)) key_state
      = queue.foldl (fun ks ev => if ev.type = EV_KEY then handle_key_event ks ev else ks)
          key_state := by
  induction queue generalizing key_state with
  | nil => rfl
  | cons ev queue ih =>
    simp only [List.map_cons, process_input_events, true_and, or_true, if_true,
      List.foldl_cons]
    exact ih _

/-- Following the claim: the value of a flag after the queue, as a function. -/
theorem last_key_event_append (codes : List Nat) (queue : List input_event)
    (ev : input_event) :
    last_key_event codes (queue ++ [ev]) =
      if ev.type = EV_KEY ∧ ev.code ∈ codes then some ev else last_key_event codes queue := by
  simp only [last_key_event, List.reverse_append, List.reverse_cons, List.reverse_nil,
    List.nil_append, List.singleton_append, List.find?_cons]
  by_cases h : ev.type = EV_KEY ∧ ev.code ∈ codes
  · simp [h]
  · simp only [h, if_false]
    have : decide (ev.type = EV_KEY ∧ ev.code ∈ codes) = false := by simpa using h
    simp [this]

theorem flag_follows_nil (codes : List Nat) (previous : Int) :
    flag_follows codes previous previous [] := by
  simp [flag_follows, last_key_event]

/-- One more event keeps a flag in line with the queue, when the event sets the flag to
`pressed` if it is a key event for the codes of the flag and leaves it otherwise. -/
theorem flag_follows_append (codes : List Nat) (previous after after' : Int)
    (queue : List input_event) (ev : input_event)
    (h : flag_follows codes previous after queue)
    (h' : after' = if ev.type = EV_KEY ∧ ev.code ∈ codes then
      (if ev.value ≠ 0 then 1 else 0) else after) :
    flag_follows codes previous after' (queue ++ [ev]) := by
  unfold flag_follows at h ⊢
  rw [last_key_event_append]
  by_cases hm : ev.type = EV_KEY ∧ ev.code ∈ codes
  · simp only [hm, and_self, if_true] at h' ⊢
    subst h'
    refine ⟨fun e he => ?_, fun hn => by simp at hn⟩
    simp only [Option.some.injEq] at he
    subst he
    constructor
    · rintro (h1 | h2)
      · simp [h1]
      · simp [h2]
    · intro h0
      simp [h0]
  · simp only [hm, if_false] at h' ⊢
    subst h'
    exact h

/-- The effect of one successful read on each flag. -/
theorem handle_key_event_flags (ks : KeyState) (ev : input_event) :
    ((if ev.type = EV_KEY then handle_key_event ks ev else ks).w =
      if ev.type = EV_KEY ∧ ev.code ∈ [KEY_W] then (if ev.value ≠ 0 then 1 else 0) else ks.w) ∧
    ((if ev.type = EV_KEY then handle_key_event ks ev else ks).a =
      if ev.type = EV_KEY ∧ ev.code ∈ [KEY_A] then (if ev.value ≠ 0 then 1 else 0) else ks.a) ∧
    ((if ev.type = EV_KEY then handle_key_event ks ev else ks).s =
      if ev.type = EV_KEY ∧ ev.code ∈ [KEY_S] then (if ev.value ≠ 0 then 1 else 0) else ks.s) ∧
    ((if ev.type = EV_KEY then handle_key_event ks ev else ks).d =
      if ev.type = EV_KEY ∧ ev.code ∈ [KEY_D] then (if ev.value ≠ 0 then 1 else 0) else ks.d) ∧
    ((if ev.type = EV_KEY then handle_key_event ks ev else ks).h =
      if ev.type = EV_KEY ∧ ev.code ∈ [KEY_H] then (if ev.value ≠ 0 then 1 else 0) else ks.h) ∧
    ((if ev.type = EV_KEY then handle_key_event ks ev else ks).j =
      if ev.type = EV_KEY ∧ ev.code ∈ [KEY_J] then (if ev.value ≠ 0 then 1 else 0) else ks.j) ∧
    ((if ev.type = EV_KEY then handle_key_event ks ev else ks).k =
      if ev.type = EV_KEY ∧ ev.code ∈ [KEY_K] then (if ev.value ≠ 0 then 1 else 0) else ks.k) ∧
    ((if ev.type = EV_KEY then handle_key_event ks ev else ks).l =
      if ev.type = EV_KEY ∧ ev.code ∈ [KEY_L] then (if ev.value ≠ 0 then 1 else 0) else ks.l) ∧
    ((if ev.type = EV_KEY then handle_key_event ks ev else ks).q =
      if ev.type = EV_KEY ∧ ev.code ∈ [KEY_Q] then (if ev.value ≠ 0 then 1 else 0) else ks.q) ∧
    ((if ev.type = EV_KEY then handle_key_event ks ev else ks).space =
      if ev.type = EV_KEY ∧ ev.code ∈ [KEY_SPACE] then (if ev.value ≠ 0 then 1 else 0)
      else ks.space) ∧
    ((if ev.type = EV_KEY then handle_key_event ks ev else ks).shift =
      if ev.type = EV_KEY ∧ ev.code ∈ [KEY_LEFTSHIFT, KEY_RIGHTSHIFT] then
        (if ev.value ≠ 0 then 1 else 0)
      else ks.shift) := by
  by_cases ht : ev.type = EV_KEY
  · have hc : ev.code = 17 ∨ ev.code = 30 ∨ ev.code = 31 ∨ ev.code = 32 ∨ ev.code = 35 ∨
        ev.code = 36 ∨ ev.code = 37 ∨ ev.code = 38 ∨ ev.code = 16 ∨ ev.code = 57 ∨
        ev.code = 42 ∨ ev.code = 54 ∨
        (ev.code ≠ 17 ∧ ev.code ≠ 30 ∧ ev.code ≠ 31 ∧ ev.code ≠ 32 ∧ ev.code ≠ 35 ∧
          ev.code ≠ 36 ∧ ev.code ≠ 37 ∧ ev.code ≠ 38 ∧ ev.code ≠ 16 ∧ ev.code ≠ 57 ∧
          ev.code ≠ 42 ∧ ev.code ≠ 54) := by omega
    rcases hc with h | h | h | h | h | h | h | h | h | h | h | h | h <;>
      simp [ht, h, handle_key_event, KEY_W, KEY_A, KEY_S, KEY_D, KEY_H, KEY_J, KEY_K, KEY_L,
        KEY_Q, KEY_SPACE, KEY_LEFTSHIFT, KEY_RIGHTSHIFT]
  · simp [ht]

/-- An event that is not a key event, or whose code has no case in the switch, changes no
flag. -/
theorem handle_key_event_unmapped (ks : KeyState) (ev : input_event)
    (h : ev.type ≠ EV_KEY ∨ ev.code ∉ [KEY_W, KEY_A, KEY_S, KEY_D, KEY_H, KEY_J, KEY_K, KEY_L,
      KEY_Q, KEY_SPACE, KEY_LEFTSHIFT, KEY_RIGHTSHIFT]) :
    process_input_events [((0 : Int), ev)] ks = ks := by
  simp only [process_input_events, true_and, or_true, if_true]
  rcases h with h | h
  · simp [h]
  · simp only [List.mem_cons, List.mem_singleton, List.mem_nil_iff, or_false, not_or] at h
    obtain ⟨h1, h2, h3, h4, h5, h6, h7, h8, h9, h10, h11, h12⟩ := h
    simp [handle_key_event, h1, h2, h3, h4, h5, h6, h7, h8, h9, h10, h11, h12]

/-- C16. With the pending events `queue` read one by one with `rc == 0`, after
`process_input_events` each flag follows the last `EV_KEY` event of the queue for its key
(for `shift`, either shift key): 1 after a value 1 or 2, 0 after a value 0, unchanged when
the queue has no event for the key. An event of another type or with an unmapped code
changes no flag, and an empty queue changes nothing. -/
theorem process_input_events_flags (queue : List input_event) (key_state : KeyState) :
    flag_follows [KEY_W] key_state.w
      (process_input_events (queue.map fun ev => ((0 : Int), ev)) key_state).w queue ∧
    flag_follows [KEY_A] key_state.a
      (process_input_events (queue.map fun ev => ((0 : Int), ev)) key_state).a queue ∧
    flag_follows [KEY_S] key_state.s
      (process_input_events (queue.map fun ev => ((0 : Int), ev)) key_state).s queue ∧
    flag_follows [KEY_D] key_state.d
      (process_input_events (queue.map fun ev => ((0 : Int), ev)) key_state).d queue ∧
    flag_follows [KEY_H] key_state.h
      (process_input_events (queue.map fun ev => ((0 : Int), ev)) key_state).h queue ∧
    flag_follows [KEY_J] key_state.j
      (process_input_events (queue.map fun ev => ((0 : Int), ev)) key_state).j queue ∧
    flag_follows [KEY_K] key_state.k
      (process_input_events (queue.map fun ev => ((0 : Int), ev)) key_state).k queue ∧
    flag_follows [KEY_L] key_state.l
      (process_input_events (queue.map fun ev => ((0 : Int), ev)) key_state).l queue ∧
    flag_follows [KEY_Q] key_state.q
      (process_input_events (queue.map fun ev => ((0 : Int), ev)) key_state).q queue ∧
    flag_follows [KEY_SPACE] key_state.space
      (process_input_events (queue.map fun ev => ((0 : Int), ev)) key_state).space queue ∧
    flag_follows [KEY_LEFTSHIFT, KEY_RIGHTSHIFT] key_state.shift
      (process_input_events (queue.map fun ev => ((0 : Int), ev)) key_state).shift queue ∧
    (∀ ev : input_event,
      ev.type ≠ EV_KEY ∨ ev.code ∉ [KEY_W, KEY_A, KEY_S, KEY_D, KEY_H, KEY_J, KEY_K, KEY_L,
        KEY_Q, KEY_SPACE, KEY_LEFTSHIFT, KEY_RIGHTSHIFT] →
      process_input_events [((0 : Int), ev)] key_state = key_state) ∧
    process_input_events [] key_state = key_state := by
  refine ⟨?_, ?_, ?_, ?_, ?_, ?_, ?_, ?_, ?_, ?_, ?_,
    fun ev h => handle_key_event_unmapped key_state ev h, rfl⟩ <;>
  · rw [process_input_events_ok]
    induction queue using List.reverseRecOn with
    | nil => exact flag_follows_nil _ _
    | append_singleton queue ev ih =>
      rw [List.foldl_append, List.foldl_cons, List.foldl_nil]
      obtain ⟨s1, s2, s3, s4, s5, s6, s7, s8, s9, s10, s11⟩ :=
        handle_key_event_flags
          (queue.foldl (fun ks ev => if ev.type = EV_KEY then handle_key_event ks ev else ks)
            key_state) ev
      first
        | exact flag_follows_append _ _ _ _ _ _ ih s1
        | exact flag_follows_append _ _ _ _ _ _ ih s2
        | exact flag_follows_append _ _ _ _ _ _ ih s3
        | exact flag_follows_append _ _ _ _ _ _ ih s4
        | exact flag_follows_append _ _ _ _ _ _ ih s5
        | exact flag_follows_append _ _ _ _ _ _ ih s6
        | exact flag_follows_append _ _ _ _ _ _ ih s7
        | exact flag_follows_append _ _ _ _ _ _ ih s8
        | exact flag_follows_append _ _ _ _ _ _ ih s9
        | exact flag_follows_append _ _ _ _ _ _ ih s10
        | exact flag_follows_append _ _ _ _ _ _ ih s11

/-- C16 at a queue with one event, a press of `w` (type `EV_KEY`, code 17, value 1), from
the state with no flag set: the flag `w` is 1 afterwards. -/
theorem process_input_events_flags_witness :
    (process_input_events ([(⟨1, 17, 1⟩ : input_event)].map fun ev => ((0 : Int), ev))
      ⟨0, 0, 0, 0, 0, 0, 0, 0, 0, 0, 0⟩).w = 1 :=
  ((process_input_events_flags [⟨1, 17, 1⟩] ⟨0, 0, 0, 0, 0, 0, 0, 0, 0, 0, 0⟩).1.1
    ⟨1, 17, 1⟩ (by decide)).1 (Or.inl rfl)

/-- C17. In an iteration in which the `q` flag is set after `process_input_events`, the
loop sets `done = 1`, the camera position and rotation stay as they were whatever other
flags are set, no frame is added (no matrices are built, nothing is drawn), the
framebuffer memory is as before, and the loop runs no further iteration: any later inputs
leave the state as it is. -/
theorem quit_iteration (env : RenderEnv ℝ) (it : Iteration) (st : MainState ℝ)
    (rest : List Iteration)
    (hq : (process_input_events it.reads st.key_state).q ≠ 0) :
    (main_iteration Real.sqrt Real.sin Real.cos Real.tan env it st).loop.done = 1 ∧
    (main_iteration Real.sqrt Real.sin Real.cos Real.tan env it st).loop.camera_position
      = st.loop.camera_position ∧
    (main_iteration Real.sqrt Real.sin Real.cos Real.tan env it st).loop.camera_rotation
      = st.loop.camera_rotation ∧
    (main_iteration Real.sqrt Real.sin Real.cos Real.tan env it st).frames = st.frames ∧
    (main_iteration Real.sqrt Real.sin Real.cos Real.tan env it st).fbp = st.fbp ∧
    main_loop Real.sqrt Real.sin Real.cos Real.tan env rest
        (main_iteration Real.sqrt Real.sin Real.cos Real.tan env it st)
      = main_iteration Real.sqrt Real.sin Real.cos Real.tan env it st := by
  have e : main_iteration Real.sqrt Real.sin Real.cos Real.tan env it st
      = { st with
          key_state := process_input_events it.reads st.key_state
          loop := { st.loop with time := st.loop.time + st.delta, done := 1 } } := by
    simp [main_iteration, tick, hq]
  rw [e]
  refine ⟨rfl, rfl, rfl, rfl, rfl, ?_⟩
  cases rest with
  | nil => rfl
  | cons it' rest => simp [main_loop]

/-- C17 at an iteration that reads a press of `q` (code 16) while `w` is set, from the
initial camera with an empty framebuffer. -/
theorem quit_iteration_witness :
    (main_iteration Real.sqrt Real.sin Real.cos Real.tan
      (⟨1, 1, ⟨1, 1, 32, ⟨16, 8⟩, ⟨8, 8⟩, ⟨0, 8⟩, ⟨24, 8⟩⟩, ⟨4⟩,
        ⟨1, 2, 3, 0, 4, 36, ⟨0, 0, 0⟩, ⟨0, 0, 0⟩, ⟨3, 3, 3⟩⟩⟩ : RenderEnv ℝ)
      ⟨[(0, ⟨1, 16, 1⟩)], fun _ => 255, 1000⟩
      ⟨initial_state, ⟨1, 0, 0, 0, 0, 0, 0, 0, 0, 0, 0⟩, 1, fun _ => 0, []⟩).loop.done = 1 :=
  (quit_iteration _ ⟨[(0, ⟨1, 16, 1⟩)], fun _ => 255, 1000⟩
    ⟨initial_state, ⟨1, 0, 0, 0, 0, 0, 0, 0, 0, 0, 0⟩, 1, fun _ => 0, []⟩ [] (by decide)).1

/-- An iteration in which the `q` flag is not set adds one frame and copies the image read
back to the framebuffer. -/
theorem draw_iteration (env : RenderEnv ℝ) (it : Iteration) (st : MainState ℝ)
    (hq : (process_input_events it.reads st.key_state).q = 0) :
    (main_iteration Real.sqrt Real.sin Real.cos Real.tan env it st).frames.length
      = st.frames.length + 1 ∧
    (main_iteration Real.sqrt Real.sin Real.cos Real.tan env it st).fbp
      = copy_to_framebuffer it.pixels env.width env.height env.vinfo env.finfo st.fbp := by
  simp [main_iteration, hq]

/-- C18. For the null pointer `free_mesh` issues no call. For a mesh it issues exactly one
delete call for the vertex array, one for the position buffer and one for the index buffer;
for the normal buffer and for the texcoord buffer it issues one delete call when the handle
is not zero and none when it is zero, so none for a mesh with `vbo_texcoords = 0`. -/
theorem free_mesh_deletes (mesh : Mesh ℝ) :
    free_mesh (none : Option (Mesh ℝ)) = [] ∧
    delete_count .vao (free_mesh (some mesh)) = 1 ∧
    delete_count .vbo_positions (free_mesh (some mesh)) = 1 ∧
    delete_count .ebo (free_mesh (some mesh)) = 1 ∧
    delete_count .vbo_normals (free_mesh (some mesh))
      = (if mesh.vbo_normals ≠ 0 then 1 else 0) ∧
    delete_count .vbo_texcoords (free_mesh (some mesh))
      = (if mesh.vbo_texcoords ≠ 0 then 1 else 0) ∧
    (mesh.vbo_texcoords = 0 →
      ∀ c ∈ free_mesh (some mesh), ∀ buffer, c ≠ GlCall.glDeleteBuffers .vbo_texcoords buffer) ∧
    (GlCall.glDeleteVertexArraysOES .vao mesh.vao ∈ free_mesh (some mesh) ∧
      GlCall.glDeleteBuffers .vbo_positions mesh.vbo_positions ∈ free_mesh (some mesh) ∧
      GlCall.glDeleteBuffers .ebo mesh.ebo ∈ free_mesh (some mesh)) := by
  refine ⟨rfl, ?_, ?_, ?_, ?_, ?_, ?_, ?_⟩
  · by_cases hn : mesh.vbo_normals = 0 <;> by_cases ht : mesh.vbo_texcoords = 0 <;>
      simp [free_mesh, delete_count, hn, ht, List.countP_cons]
  · by_cases hn : mesh.vbo_normals = 0 <;> by_cases ht : mesh.vbo_texcoords = 0 <;>
      simp [free_mesh, delete_count, hn, ht, List.countP_cons]
  · by_cases hn : mesh.vbo_normals = 0 <;> by_cases ht : mesh.vbo_texcoords = 0 <;>
      simp [free_mesh, delete_count, hn, ht, List.countP_cons]
  · by_cases hn : mesh.vbo_normals = 0 <;> by_cases ht : mesh.vbo_texcoords = 0 <;>
      simp [free_mesh, delete_count, hn, ht, List.countP_cons]
  · by_cases hn : mesh.vbo_normals = 0 <;> by_cases ht : mesh.vbo_texcoords = 0 <;>
      simp [free_mesh, delete_count, hn, ht, List.countP_cons]
  · intro ht c hc buffer
    by_cases hn : mesh.vbo_normals = 0 <;>
      simp [free_mesh, hn, ht] at hc <;> rcases hc with rfl | rfl | rfl | rfl <;> simp
  · simp [free_mesh]

/-- C18 at a mesh without texcoord buffer, the handles being 1, 2, 3, 0, 4: four delete
calls, none for the texcoord field. -/
theorem free_mesh_deletes_witness :
    free_mesh (some (⟨1, 2, 3, 0, 4, 36, ⟨0, 0, 0⟩, ⟨0, 0, 0⟩, ⟨3, 3, 3⟩⟩ : Mesh ℝ))
      = [.glDeleteVertexArraysOES .vao 1, .glDeleteBuffers .vbo_positions 2,
         .glDeleteBuffers .vbo_normals 3, .glDeleteBuffers .ebo 4] ∧
    delete_count .vbo_texcoords
      (free_mesh (some (⟨1, 2, 3, 0, 4, 36, ⟨0, 0, 0⟩, ⟨0, 0, 0⟩, ⟨3, 3, 3⟩⟩ : Mesh ℝ))) = 0 :=
  ⟨by simp [free_mesh],
    (free_mesh_deletes ⟨1, 2, 3, 0, 4, 36, ⟨0, 0, 0⟩, ⟨0, 0, 0⟩, ⟨3, 3, 3⟩⟩).2.2.2.2.2.1.trans
      (by simp)⟩

/-- C19. When `tinyobj_parse_obj` succeeds and the parsed vertex count or the parsed face
count is zero, `load_obj_model` returns `NULL` and has issued no call of OpenGL ES at all,
so no vertex array and no buffer has been generated. -/
theorem load_obj_model_empty (env : LoadEnv ℝ) (hparse : env.parse_success = true)
    (hempty : env.attrib.num_vertices = 0 ∨ env.attrib.num_faces = 0) :
    (load_obj_model env).1 = none ∧ (load_obj_model env).2 = [] ∧
    ∀ c ∈ (load_obj_model env).2, ∀ field,
      c ≠ GlCall.glGenVertexArraysOES field ∧ c ≠ GlCall.glGenBuffers field := by
  have e : load_obj_model env = (none, []) := by
    unfold load_obj_model
    split_ifs <;> first | rfl | simp_all
  rw [e]
  simp

/-- When the file opens, the functions are set, the allocations and the parse succeed and
both counts are positive, `load_obj_model` returns a mesh after generating the vertex array
first. -/
theorem load_obj_model_loads (env : LoadEnv ℝ) (h1 : env.fopen_ok = true)
    (h2 : env.vao_functions_set = true) (h3 : env.mesh_malloc_ok = true)
    (h4 : env.parse_success = true) (h5 : env.indices_malloc_ok = true)
    (hv : env.attrib.num_vertices ≠ 0) (hf : env.attrib.num_faces ≠ 0) :
    (load_obj_model env).1.isSome = true ∧
    (load_obj_model env).2.head? = some (GlCall.glGenVertexArraysOES .vao) := by
  simp [load_obj_model, h1, h2, h3, h4, h5, hv, hf]

/-- C19 at a parse result with no vertex and no face. -/
theorem load_obj_model_empty_witness :
    (load_obj_model (⟨true, true, true, true, ⟨0, 0, 0, 0, [], [], [], []⟩, true,
      1, 2, 3, 4, 5⟩ : LoadEnv ℝ)).1 = none ∧
    (load_obj_model (⟨true, true, true, true, ⟨0, 0, 0, 0, [], [], [], []⟩, true,
      1, 2, 3, 4, 5⟩ : LoadEnv ℝ)).2 = [] :=
  have h := load_obj_model_empty (⟨true, true, true, true, ⟨0, 0, 0, 0, [], [], [], []⟩, true,
    1, 2, 3, 4, 5⟩ : LoadEnv ℝ) rfl (Or.inl rfl)
  ⟨h.1, h.2.1⟩

/-- C20 as stated fails. Triangle 2 of the index array, with indices 1, 5, 6, lies on the
face `x = 1/2`, whose outward unit normal is `(1, 0, 0)`, and the normal attribute of its
first vertex, vertex 1, is `(0, 0, 1)`. -/
theorem debug_cube_normals_fail :
    (triangle_index debug_cube_indices 2 0 = 1 ∧ triangle_index debug_cube_indices 2 1 = 5 ∧
      triangle_index debug_cube_indices 2 2 = 6) ∧
    ((vertex_attribute (debug_cube_vertices : List ℝ) 1).x = 1 / 2 ∧
      (vertex_attribute (debug_cube_vertices : List ℝ) 5).x = 1 / 2 ∧
      (vertex_attribute (debug_cube_vertices : List ℝ) 6).x = 1 / 2) ∧
    vertex_attribute (debug_cube_normals : List ℝ) 1 = ⟨0, 0, 1⟩ ∧
    vertex_attribute (debug_cube_normals : List ℝ) 1 ≠ cube_face_normal 1 := by
  refine ⟨⟨rfl, rfl, rfl⟩, ⟨rfl, rfl, rfl⟩, rfl, ?_⟩
  intro h
  have := congrArg vec3.x h
  simp [vertex_attribute, debug_cube_normals, cube_face_normal] at this

/-- C20, amended. The mesh of `create_debug_cube` has 8 vertices, exactly the corners
`(±1/2, ±1/2, ±1/2)`, and 36 indices forming 12 triangles, two on each of the 6 faces: the
vertices of triangles `2 f` and `2 f + 1` lie on face `f`. The normal attribute of a vertex
is `(0, 0, 1)` for the four vertices with `z = 1/2` and `(0, 0, -1)` for the four with
`z = -1/2`; it is the outward unit normal of the face for the triangles of the front and
back faces. -/
theorem debug_cube_mesh (env : LoadEnv ℝ) (hmalloc : env.mesh_malloc_ok = true) :
    ((create_debug_cube env).1.map (fun mesh => mesh.num_indices) = some 36 ∧
      GlCall.glBufferData_float .GL_ARRAY_BUFFER 24 debug_cube_vertices
        ∈ (create_debug_cube env).2 ∧
      GlCall.glBufferData_float .GL_ARRAY_BUFFER 24 debug_cube_normals
        ∈ (create_debug_cube env).2 ∧
      GlCall.glBufferData_uint .GL_ELEMENT_ARRAY_BUFFER 36 debug_cube_indices
        ∈ (create_debug_cube env).2) ∧
    ((debug_cube_vertices : List ℝ).length = 24 ∧ (debug_cube_normals : List ℝ).length = 24 ∧
      debug_cube_indices.length = 36) ∧
    (vertex_attribute (debug_cube_vertices : List ℝ) 0 = ⟨-1/2, -1/2, 1/2⟩ ∧
      vertex_attribute (debug_cube_vertices : List ℝ) 1 = ⟨1/2, -1/2, 1/2⟩ ∧
      vertex_attribute (debug_cube_vertices : List ℝ) 2 = ⟨1/2, 1/2, 1/2⟩ ∧
      vertex_attribute (debug_cube_vertices : List ℝ) 3 = ⟨-1/2, 1/2, 1/2⟩ ∧
      vertex_attribute (debug_cube_vertices : List ℝ) 4 = ⟨-1/2, -1/2, -1/2⟩ ∧
      vertex_attribute (debug_cube_vertices : List ℝ) 5 = ⟨1/2, -1/2, -1/2⟩ ∧
      vertex_attribute (debug_cube_vertices : List ℝ) 6 = ⟨1/2, 1/2, -1/2⟩ ∧
      vertex_attribute (debug_cube_vertices : List ℝ) 7 = ⟨-1/2, 1/2, -1/2⟩) ∧
    (∀ t k : Nat, t < 12 → k < 3 →
      triangle_index debug_cube_indices t k < 8 ∧
      dot_vec3 (vertex_attribute (debug_cube_vertices : List ℝ)
        (triangle_index debug_cube_indices t k)) (cube_face_normal (t / 2)) = 1 / 2) ∧
    (∀ i : Nat, i < 8 →
      vertex_attribute (debug_cube_normals : List ℝ) i
        = if i < 4 then ⟨0, 0, 1⟩ else ⟨0, 0, -1⟩) ∧
    (∀ t k : Nat, t < 12 → k < 3 → t / 2 = 0 ∨ t / 2 = 2 →
      vertex_attribute (debug_cube_normals : List ℝ) (triangle_index debug_cube_indices t k)
        = cube_face_normal (t / 2)) := by
  refine ⟨?_, ⟨rfl, rfl, rfl⟩, ⟨rfl, rfl, rfl, rfl, rfl, rfl, rfl, rfl⟩, ?_, ?_, ?_⟩
  · simp [create_debug_cube, hmalloc]
  · intro t k ht hk
    interval_cases t <;> interval_cases k <;>
      norm_num [triangle_index, debug_cube_indices, vertex_attribute, debug_cube_vertices,
        cube_face_normal, dot_vec3]
  · intro i hi
    interval_cases i <;> simp [vertex_attribute, debug_cube_normals]
  · intro t k ht hk hface
    interval_cases t <;> interval_cases k <;> simp at hface <;>
      simp [triangle_index, debug_cube_indices, vertex_attribute, debug_cube_normals,
        cube_face_normal]

/-- C20, amended, with the allocation succeeding: the first vertex of triangle 4, on the
back face, has the normal `(0, 0, -1)` of that face. -/
theorem debug_cube_mesh_witness :
    vertex_attribute (debug_cube_normals : List ℝ) (triangle_index debug_cube_indices 4 0)
      = cube_face_normal (4 / 2) :=
  (debug_cube_mesh ⟨true, true, true, true, ⟨0, 0, 0, 0, [], [], [], []⟩, true, 1, 2, 3, 4, 5⟩
    rfl).2.2.2.2.2 4 0 (by decide) (by decide) (Or.inr rfl)

/-! ## Surfaceless context -/

/-- C21 as stated fails. On a platform where `gbm_create_device` succeeds, the lookup of
`eglGetPlatformDisplayEXT` yields no function and every other call would succeed,
`init_egl_surfaceless` returns -1 after `gbm_create_device`, `eglGetProcAddress` and
`gbm_device_destroy`; it does not call `eglGetDisplay`. -/
theorem init_egl_surfaceless_no_extension :
    init_egl_surfaceless ⟨true, false, true, true, true, true, true, 1, true, 1, true, true⟩
      = (-1, [.gbm_create_device, .eglGetProcAddress, .gbm_device_destroy]) ∧
    (init_egl_surfaceless
      ⟨true, false, true, true, true, true, true, 1, true, 1, true, true⟩).1 ≠ 0 ∧
    EglCall.eglGetDisplay ∉ (init_egl_surfaceless
      ⟨true, false, true, true, true, true, true, 1, true, 1, true, true⟩).2 := by
  decide

/-- C21, amended. With a GBM device created: when the lookup of `eglGetPlatformDisplayEXT`
yields no function, `init_egl_surfaceless` destroys the GBM device and returns -1 without
calling `eglGetDisplay`, whatever the other calls would answer. When the function is found
but returns no display, `eglGetDisplay` is called, and if it and every later step succeed
(`eglInitialize`, `eglBindAPI`, one of the two `eglChooseConfig` with a config,
`eglCreateContext`, `eglMakeCurrent`) the function returns 0. -/
theorem init_egl_surfaceless_fallback (p : EglPlatform) (hg : p.gbm_create_device = true) :
    (p.get_platform_display_found = false →
      init_egl_surfaceless p
        = (-1, [.gbm_create_device, .eglGetProcAddress, .gbm_device_destroy])) ∧
    (p.get_platform_display_found = true → p.get_platform_display = false →
      p.eglGetDisplay = true → p.eglInitialize = true → p.eglBindAPI = true →
      (p.eglChooseConfig = true ∧ p.num_configs ≠ 0 ∨
        p.eglChooseConfig_minimal = true ∧ p.num_configs_minimal ≠ 0) →
      p.eglCreateContext = true → p.eglMakeCurrent = true →
      (init_egl_surfaceless p).1 = 0 ∧ EglCall.eglGetDisplay ∈ (init_egl_surfaceless p).2 ∧
      EglCall.gbm_device_destroy ∉ (init_egl_surfaceless p).2) := by
  constructor
  · intro hf
    simp [init_egl_surfaceless, hg, hf]
  · intro hf hd hl hi hb hc hx hm
    by_cases h1 : p.eglChooseConfig = true ∧ p.num_configs ≠ 0
    · simp [init_egl_surfaceless, hg, hf, hd, hl, hi, hb, hx, hm, h1.1, h1.2]
    · rcases hc with hc | hc
      · exact absurd hc h1
      · by_cases h2 : p.eglChooseConfig = true
        · have h3 : p.num_configs = 0 := by
            by_contra h; exact h1 ⟨h2, h⟩
          simp [init_egl_surfaceless, hg, hf, hd, hl, hi, hb, hx, hm, h2, h3, hc.1, hc.2]
        · simp [init_egl_surfaceless, hg, hf, hd, hl, hi, hb, hx, hm, h2, hc.1, hc.2]

/-- C21, amended, on a platform where the extension function is found but returns no
display and every other call succeeds: the result is 0. -/
theorem init_egl_surfaceless_fallback_witness :
    (init_egl_surfaceless
      ⟨true, true, false, true, true, true, true, 1, true, 1, true, true⟩).1 = 0 :=
  ((init_egl_surfaceless_fallback
    ⟨true, true, false, true, true, true, true, 1, true, 1, true, true⟩ rfl).2
    rfl rfl rfl rfl rfl (Or.inl ⟨rfl, by decide⟩) rfl rfl).1

/-! ## Order of the factors in the frame matrices -/

/-- The function `mat4_scale` applied to a point scales the point first and then applies
`m`. -/
theorem mat4_transform_scale {α : Type} [Field α] (m : mat4 α) (v : vec3 α) (p : vec4 α) :
    mat4_transform_vec4 (mat4_scale m v) p
      = mat4_transform_vec4 m (mat4_transform_vec4 (mat4_scale mat4_identity v) p) := by
  ext <;>
    simp [mat4_transform_vec4, mat4_scale, mat4.set, Function.update, mat4_identity_m] <;>
    ring

/-- The matrix `mvp` of the frame loop applied to a point: the projection first, then the
view, then the model matrix. -/
theorem mvp_transform {α : Type} [LinearOrderedField α] (sqrt sin cos tan : α → α)
    (env : RenderEnv α) (st : LoopState α) (p : vec4 α) :
    mat4_transform_vec4 (build_matrices sqrt sin cos tan env st).mvp p
      = mat4_transform_vec4 (build_matrices sqrt sin cos tan env st).model_matrix
          (mat4_transform_vec4 (build_matrices sqrt sin cos tan env st).view_matrix
            (mat4_transform_vec4 (build_matrices sqrt sin cos tan env st).projection_matrix
              p)) := by
  simp only [build_matrices, mat4_transform_multiply]

/-- The model matrix of the frame loop applied to a point: the scale first, then the
translation, then the rotations about y, x and z. -/
theorem model_matrix_transform {α : Type} [LinearOrderedField α] (sqrt sin cos tan : α → α)
    (env : RenderEnv α) (st : LoopState α) (p : vec4 α) :
    mat4_transform_vec4 (build_matrices sqrt sin cos tan env st).model_matrix p
      = mat4_transform_vec4 (mat4_rotate_z sin cos env.mesh.rotation.z)
          (mat4_transform_vec4 (mat4_rotate_x sin cos env.mesh.rotation.x)
            (mat4_transform_vec4
              (mat4_rotate_y sin cos (env.mesh.rotation.y + st.time * (1 / 2)))
              (mat4_transform_vec4 (mat4_translate mat4_identity env.mesh.position)
                (mat4_transform_vec4 (mat4_scale mat4_identity env.mesh.scale) p)))) := by
  simp only [build_matrices]
  rw [mat4_transform_scale, mat4_transform_multiply, mat4_transform_multiply,
    mat4_transform_multiply]

/-- C22, evaluated where it fails. With `projection` the translation by `(1, 0, 0)`, `view`
the scaling by 2, `model` the translation by `(0, 1, 0)` and `p = (0, 0, 0, 1)`, the
matrix `mat4_multiply (mat4_multiply projection view) model` sends `p` to `(2, 1, 0, 1)`,
which is `projection` first, then `view`, then `model`; the order of the claim, `model`
first and `projection` last, gives `(1, 2, 0, 1)`. -/
theorem mvp_applies_projection_first :
    mat4_transform_vec4
        (mat4_multiply
          (mat4_multiply (mat4_translate (mat4_identity : mat4 ℝ) ⟨1, 0, 0⟩)
            (mat4_scale (mat4_identity : mat4 ℝ) ⟨2, 2, 2⟩))
          (mat4_translate (mat4_identity : mat4 ℝ) ⟨0, 1, 0⟩)) ⟨0, 0, 0, 1⟩
      = ⟨2, 1, 0, 1⟩ ∧
    mat4_transform_vec4 (mat4_translate (mat4_identity : mat4 ℝ) ⟨1, 0, 0⟩)
        (mat4_transform_vec4 (mat4_scale (mat4_identity : mat4 ℝ) ⟨2, 2, 2⟩)
          (mat4_transform_vec4 (mat4_translate (mat4_identity : mat4 ℝ) ⟨0, 1, 0⟩)
            ⟨0, 0, 0, 1⟩))
      = ⟨1, 2, 0, 1⟩ ∧
    mat4_transform_vec4 (mat4_translate (mat4_identity : mat4 ℝ) ⟨0, 1, 0⟩)
        (mat4_transform_vec4 (mat4_scale (mat4_identity : mat4 ℝ) ⟨2, 2, 2⟩)
          (mat4_transform_vec4 (mat4_translate (mat4_identity : mat4 ℝ) ⟨1, 0, 0⟩)
            ⟨0, 0, 0, 1⟩))
      = ⟨2, 1, 0, 1⟩ := by
  refine ⟨?_, ?_, ?_⟩ <;> try simp only [mat4_transform_multiply]
  all_goals simp [mat4_transform_vec4, mat4_translate, mat4_scale, mat4.set, Function.update,
      mat4_identity_m]

/-- C23, evaluated where it fails. For a mesh at position `(1, 0, 0)` with rotation
`(0, π, 0)` and scale `(1, 1, 1)`, at `time = 0`, whatever the camera and the render
target, the model matrix of the frame loop sends `p = (0, 0, 0, 1)` to `(-1, 0, 0, 1)`:
it translates first and rotates afterwards. The order of the claim, the rotations first
and the translation last, gives `(1, 0, 0, 1)`. -/
theorem model_matrix_translates_first (width height : Nat) (vinfo : fb_var_screeninfo)
    (finfo : fb_fix_screeninfo) (camera_position camera_rotation : vec3 ℝ) :
    mat4_transform_vec4
        (build_matrices Real.sqrt Real.sin Real.cos Real.tan
          ⟨width, height, vinfo, finfo,
            ⟨0, 0, 0, 0, 0, 0, ⟨1, 0, 0⟩, ⟨0, Real.pi, 0⟩, ⟨1, 1, 1⟩⟩⟩
          ⟨0, 0, camera_position, camera_rotation⟩).model_matrix ⟨0, 0, 0, 1⟩
      = ⟨-1, 0, 0, 1⟩ ∧
    mat4_transform_vec4 (mat4_translate mat4_identity ⟨1, 0, 0⟩)
        (mat4_transform_vec4 (mat4_rotate_y Real.sin Real.cos (Real.pi + 0 * (1 / 2)))
          (mat4_transform_vec4 (mat4_rotate_x Real.sin Real.cos 0)
            (mat4_transform_vec4 (mat4_rotate_z Real.sin Real.cos 0)
              (mat4_transform_vec4 (mat4_scale mat4_identity ⟨1, 1, 1⟩) ⟨0, 0, 0, 1⟩))))
      = ⟨1, 0, 0, 1⟩ := by
  constructor
  · simp only [build_matrices]
    rw [mat4_transform_scale, mat4_transform_multiply, mat4_transform_multiply,
      mat4_transform_multiply]
    simp [mat4_transform_vec4, mat4_translate, mat4_scale, mat4_rotate_x, mat4_rotate_y,
      mat4_rotate_z, mat4.set, Function.update, mat4_identity_m]
  · simp [mat4_transform_vec4, mat4_translate, mat4_scale, mat4_rotate_x, mat4_rotate_y,
      mat4_rotate_z, mat4.set, Function.update, mat4_identity_m]

/-- C24. Over the reals, for every matrix `M` whose determinant is not zero, both
`mat4_multiply M (mat4_invert M)` and `mat4_multiply (mat4_invert M) M` are
`mat4_identity`. -/
theorem mat4_invert_two_sided (M : mat4 ℝ) (h : M.toMatrix.det ≠ 0) :
    mat4_multiply M (mat4_invert M) = mat4_identity ∧
    mat4_multiply (mat4_invert M) M = mat4_identity :=
  mat4_multiply_invert M (by rwa [mat4_invert_det_eq])

theorem mat4_invert_two_sided_witness :
    ((mat4_identity : mat4 ℝ).set 0 2).toMatrix.det ≠ 0 ∧
    mat4_multiply ((mat4_identity : mat4 ℝ).set 0 2)
        (mat4_invert ((mat4_identity : mat4 ℝ).set 0 2)) = mat4_identity ∧
    mat4_multiply (mat4_invert ((mat4_identity : mat4 ℝ).set 0 2))
        ((mat4_identity : mat4 ℝ).set 0 2) = mat4_identity :=
  have h : ((mat4_identity : mat4 ℝ).set 0 2).toMatrix.det ≠ 0 := by
    rw [← mat4_invert_det_eq]
    simp [mat4_invert_det, mat4_invert_inv_m, mat4.set, Function.update, mat4_identity_m]
  ⟨h, mat4_invert_two_sided _ h⟩

/-- C26. Over the reals, for every vector `v` and angle `θ`, transforming `v` as a point by
`mat4_rotate_x θ`, `mat4_rotate_y θ`, `mat4_rotate_z θ` gives `rotate_vec3_x v θ`,
`rotate_vec3_y v θ`, `rotate_vec3_z v θ`. -/
theorem rotate_matrix_vector_agree (v : vec3 ℝ) (θ : ℝ) :
    mat4_transform_vec3 (mat4_rotate_x Real.sin Real.cos θ) v
      = rotate_vec3_x Real.sin Real.cos v θ ∧
    mat4_transform_vec3 (mat4_rotate_y Real.sin Real.cos θ) v
      = rotate_vec3_y Real.sin Real.cos v θ ∧
    mat4_transform_vec3 (mat4_rotate_z Real.sin Real.cos θ) v
      = rotate_vec3_z Real.sin Real.cos v θ := by
  refine ⟨?_, ?_, ?_⟩ <;> ext <;>
    simp [mat4_transform_vec3, mat4_transform_vec4, mat4_rotate_x, mat4_rotate_y,
      mat4_rotate_z, rotate_vec3_x, rotate_vec3_y, rotate_vec3_z, mat4.set, Function.update,
      mat4_identity_m] <;> ring

/-! ## Movement and view direction -/

/-- The vector `(-sin yaw, 0, -cos yaw)` has length 1, so `normalize_vec3` returns it. -/
theorem normalize_forward (yaw : ℝ) :
    normalize_vec3 Real.sqrt ⟨-Real.sin yaw, 0, -Real.cos yaw⟩
      = ⟨-Real.sin yaw, 0, -Real.cos yaw⟩ := by
  have h : (-Real.sin yaw) ^ 2 + (0 : ℝ) ^ 2 + (-Real.cos yaw) ^ 2 = 1 := by
    have := Real.sin_sq_add_cos_sq yaw
    nlinarith
  simp [normalize_vec3, length_vec3, h]

/-- The horizontal part of the view direction, for a positive `cos pitch`, normalises to
`(sin yaw, 0, cos yaw)`. -/
theorem normalize_horizontal (yaw pitch : ℝ) (h : 0 < Real.cos pitch) :
    normalize_vec3 Real.sqrt
        ⟨Real.sin yaw * Real.cos pitch, 0, Real.cos yaw * Real.cos pitch⟩
      = ⟨Real.sin yaw, 0, Real.cos yaw⟩ := by
  have e : (Real.sin yaw * Real.cos pitch) ^ 2 + (0 : ℝ) ^ 2
      + (Real.cos yaw * Real.cos pitch) ^ 2 = Real.cos pitch ^ 2 := by
    have := Real.sin_sq_add_cos_sq yaw
    nlinarith
  have hne : Real.cos pitch ≠ 0 := ne_of_gt h
  simp only [normalize_vec3, length_vec3, e, Real.sqrt_sq h.le]
  simp [hne]

/-- The cosine of a pitch in the clamped range is positive. -/
theorem cos_pitch_pos (pitch : ℝ)
    (hp : pitch ∈ Set.Icc (-PI / 2 + EPSILON : ℝ) (PI / 2 - EPSILON)) :
    0 < Real.cos pitch := by
  have hpi := PI_lt_pi
  have he : (EPSILON : ℝ) = 1 / 1000000 := rfl
  obtain ⟨h1, h2⟩ := hp
  rw [he] at h1 h2
  apply Real.cos_pos_of_mem_Ioo
  constructor <;> linarith

/-- C25. For every yaw and every pitch in the clamped range, over the reals: with only `w`
held, the camera update adds `(-sin yaw, 0, -cos yaw)` times `move_speed * delta` to the
position; the view matrix is `mat4_look_at` from the position to the position plus
`(sin yaw cos pitch, sin pitch, cos yaw cos pitch)`; the movement vector is `-1` times the
normalised horizontal part of that view direction; their dot product is `-cos pitch`,
which is negative; and for a positive frame time the step of the camera has a negative
dot product with the view direction. -/
theorem forward_opposes_view (env : RenderEnv ℝ) (st : LoopState ℝ) (delta : ℝ)
    (hp : st.camera_rotation.x ∈ Set.Icc (-PI / 2 + EPSILON : ℝ) (PI / 2 - EPSILON))
    (hd : 0 < delta) :
    (camera_update Real.sqrt Real.sin Real.cos ⟨1, 0, 0, 0, 0, 0, 0, 0, 0, 0, 0⟩ delta
        st).camera_position
      = add_vec3 st.camera_position
          (scale_vec3 ⟨-Real.sin st.camera_rotation.y, 0, -Real.cos st.camera_rotation.y⟩
            (move_speed * delta)) ∧
    (build_matrices Real.sqrt Real.sin Real.cos Real.tan env st).view_matrix
      = mat4_look_at Real.sqrt st.camera_position
          (add_vec3 st.camera_position
            ⟨Real.sin st.camera_rotation.y * Real.cos st.camera_rotation.x,
              Real.sin st.camera_rotation.x,
              Real.cos st.camera_rotation.y * Real.cos st.camera_rotation.x⟩) ⟨0, 1, 0⟩ ∧
    (⟨-Real.sin st.camera_rotation.y, 0, -Real.cos st.camera_rotation.y⟩ : vec3 ℝ)
      = scale_vec3
          (normalize_vec3 Real.sqrt
            ⟨Real.sin st.camera_rotation.y * Real.cos st.camera_rotation.x, 0,
              Real.cos st.camera_rotation.y * Real.cos st.camera_rotation.x⟩) (-1) ∧
    dot_vec3 ⟨-Real.sin st.camera_rotation.y, 0, -Real.cos st.camera_rotation.y⟩
        ⟨Real.sin st.camera_rotation.y * Real.cos st.camera_rotation.x,
          Real.sin st.camera_rotation.x,
          Real.cos st.camera_rotation.y * Real.cos st.camera_rotation.x⟩
      = -Real.cos st.camera_rotation.x ∧
    -Real.cos st.camera_rotation.x < 0 ∧
    dot_vec3
        (subtract_vec3
          (camera_update Real.sqrt Real.sin Real.cos ⟨1, 0, 0, 0, 0, 0, 0, 0, 0, 0, 0⟩ delta
            st).camera_position st.camera_position)
        ⟨Real.sin st.camera_rotation.y * Real.cos st.camera_rotation.x,
          Real.sin st.camera_rotation.x,
          Real.cos st.camera_rotation.y * Real.cos st.camera_rotation.x⟩ < 0 := by
  have hc := cos_pitch_pos _ hp
  have hs := Real.sin_sq_add_cos_sq st.camera_rotation.y
  have hpos : (camera_update Real.sqrt Real.sin Real.cos ⟨1, 0, 0, 0, 0, 0, 0, 0, 0, 0, 0⟩
      delta st).camera_position
      = add_vec3 st.camera_position
          (scale_vec3 ⟨-Real.sin st.camera_rotation.y, 0, -Real.cos st.camera_rotation.y⟩
            (move_speed * delta)) := by
    simp [camera_update, normalize_forward]
  have hdot : dot_vec3 ⟨-Real.sin st.camera_rotation.y, 0, -Real.cos st.camera_rotation.y⟩
        ⟨Real.sin st.camera_rotation.y * Real.cos st.camera_rotation.x,
          Real.sin st.camera_rotation.x,
          Real.cos st.camera_rotation.y * Real.cos st.camera_rotation.x⟩
      = -Real.cos st.camera_rotation.x := by
    simp only [dot_vec3]
    linear_combination (-Real.cos st.camera_rotation.x) * hs
  refine ⟨hpos, rfl, ?_, hdot, by linarith, ?_⟩
  · rw [normalize_horizontal _ _ hc]
    simp [scale_vec3]
  · rw [hpos]
    have e : dot_vec3
        (subtract_vec3
          (add_vec3 st.camera_position
            (scale_vec3 ⟨-Real.sin st.camera_rotation.y, 0, -Real.cos st.camera_rotation.y⟩
              (move_speed * delta))) st.camera_position)
        ⟨Real.sin st.camera_rotation.y * Real.cos st.camera_rotation.x,
          Real.sin st.camera_rotation.x,
          Real.cos st.camera_rotation.y * Real.cos st.camera_rotation.x⟩
        = -(2 * delta * Real.cos st.camera_rotation.x) := by
      simp only [dot_vec3, subtract_vec3, add_vec3, scale_vec3, move_speed]
      linear_combination (-(2 * delta * Real.cos st.camera_rotation.x)) * hs
    rw [e]
    have : 0 < 2 * delta * Real.cos st.camera_rotation.x := by positivity
    linarith

/-- C25 at the initial state of the loop (yaw 0, pitch 0) with a frame time of 1: the
step of the camera has a negative dot product with the view direction `(0, 0, 1)`. -/
theorem forward_opposes_view_witness :
    dot_vec3
        (subtract_vec3
          (camera_update Real.sqrt Real.sin Real.cos ⟨1, 0, 0, 0, 0, 0, 0, 0, 0, 0, 0⟩ 1
            initial_state).camera_position (initial_state : LoopState ℝ).camera_position)
        ⟨Real.sin (initial_state : LoopState ℝ).camera_rotation.y
            * Real.cos (initial_state : LoopState ℝ).camera_rotation.x,
          Real.sin (initial_state : LoopState ℝ).camera_rotation.x,
          Real.cos (initial_state : LoopState ℝ).camera_rotation.y
            * Real.cos (initial_state : LoopState ℝ).camera_rotation.x⟩ < 0 :=
  (forward_opposes_view
    ⟨1, 1, ⟨1, 1, 32, ⟨16, 8⟩, ⟨8, 8⟩, ⟨0, 8⟩, ⟨24, 0⟩⟩, ⟨4⟩,
      ⟨0, 0, 0, 0, 0, 0, ⟨0, 0, 0⟩, ⟨0, 0, 0⟩, ⟨3, 3, 3⟩⟩⟩
    initial_state 1
    (by simp only [initial_state, PI, EPSILON, Set.mem_Icc]; norm_num)
    (by norm_num)).2.2.2.2.2

/-- C27. Over the reals, for `0 < near < far`, every `fovy` and `aspect` and every `x`, `y`:
`mat4_transform_vec3` of `mat4_perspective fovy aspect near far` sends `(x, y, -near)` to a
point with `z = -1` and `(x, y, -far)` to a point with `z = 1`. -/
theorem perspective_depth (fovy aspect near far x y : ℝ) (hn : 0 < near) (hf : near < far) :
    (mat4_transform_vec3 (mat4_perspective Real.tan fovy aspect near far) ⟨x, y, -near⟩).z
      = -1 ∧
    (mat4_transform_vec3 (mat4_perspective Real.tan fovy aspect near far) ⟨x, y, -far⟩).z
      = 1 := by
  have hnf : near - far ≠ 0 := by linarith
  have hn0 : near ≠ 0 := ne_of_gt hn
  have hf0 : far ≠ 0 := by linarith
  constructor
  · simp [mat4_transform_vec3, mat4_perspective, mat4.set, Function.update, hn0]
    field_simp
    ring
  · simp [mat4_transform_vec3, mat4_perspective, mat4.set, Function.update, hf0]
    field_simp
    ring

/-- C27 at `fovy = 1`, `aspect = 1`, `near = 1`, `far = 2`, `x = y = 0`. -/
theorem perspective_depth_witness :
    (0 : ℝ) < 1 ∧ (1 : ℝ) < 2 ∧
    (mat4_transform_vec3 (mat4_perspective Real.tan 1 1 1 2) ⟨0, 0, -1⟩).z = -1 ∧
    (mat4_transform_vec3 (mat4_perspective Real.tan 1 1 1 2) ⟨0, 0, -2⟩).z = 1 :=
  ⟨by norm_num, by norm_num, perspective_depth 1 1 1 2 0 0 (by norm_num) (by norm_num)⟩

/-- C28. From any key state, the events left-shift press, right-shift press, left-shift
release (type `EV_KEY`, codes 42, 54, 42, values 1, 1, 0), each read with `rc == 0`, leave
`shift = 0`, although the last event for the right shift key is its press; after the first
two events alone `shift` is 1. -/
theorem shift_released_while_held (key_state : KeyState) :
    (process_input_events
      [(0, ⟨EV_KEY, KEY_LEFTSHIFT, 1⟩), (0, ⟨EV_KEY, KEY_RIGHTSHIFT, 1⟩),
        (0, ⟨EV_KEY, KEY_LEFTSHIFT, 0⟩)] key_state).shift = 0 ∧
    (process_input_events
      [(0, ⟨EV_KEY, KEY_LEFTSHIFT, 1⟩), (0, ⟨EV_KEY, KEY_RIGHTSHIFT, 1⟩)] key_state).shift
      = 1 ∧
    last_key_event [KEY_RIGHTSHIFT]
      [⟨EV_KEY, KEY_LEFTSHIFT, 1⟩, ⟨EV_KEY, KEY_RIGHTSHIFT, 1⟩, ⟨EV_KEY, KEY_LEFTSHIFT, 0⟩]
      = some ⟨EV_KEY, KEY_RIGHTSHIFT, 1⟩ := by
  refine ⟨?_, ?_, by decide⟩ <;>
    simp [process_input_events, handle_key_event, EV_KEY, KEY_LEFTSHIFT, KEY_RIGHTSHIFT,
      KEY_W, KEY_A, KEY_S, KEY_D, KEY_H, KEY_J, KEY_K, KEY_L, KEY_Q, KEY_SPACE]

/-! ## Frame time -/

/-- The truncating division by 1000 of the code, through the flooring division. -/
theorem tdiv_thousand (n : Int) :
    Int.tdiv n 1000 = if 0 ≤ n then n / 1000 else -((-n) / 1000) := by
  split
  · next h => exact Int.tdiv_eq_ediv h (by decide)
  · next h =>
    have h' : 0 ≤ -n := by omega
    have : Int.tdiv n 1000 = -(Int.tdiv (-n) 1000) := by
      rw [Int.neg_tdiv, neg_neg]
    rw [this, Int.tdiv_eq_ediv h' (by decide)]

/-- C29 as stated fails at the upper end of its range. With `start = (0 s, 32704500 ns)`
and `end = (4295 s, 0 ns)` the elapsed time is `4294967295500 ns`, below `2^32`
microseconds, and its floor in microseconds is `4294967295`; the expression has the value
`4294967296 = 2^32` and the value stored in `delta_us` is 0. -/
theorem delta_us_wraps_in_range :
    (0 : Int) ≤ (4295 - 0) * 1000000000 + (0 - 32704500) ∧
    ((4295 - 0) * 1000000000 + (0 - 32704500) : Int) < 4294967296 * 1000 ∧
    ((4295 - 0) * 1000000000 + (0 - 32704500) : Int) / 1000 = 4294967295 ∧
    delta_us_value ⟨0, 32704500⟩ ⟨4295, 0⟩ = 4294967296 ∧
    delta_us ⟨0, 32704500⟩ ⟨4295, 0⟩ = 0 ∧
    ¬ ((4295 - 0) * 1000000000 + (0 - 32704500) : Int) / 1000
        ≤ (delta_us ⟨0, 32704500⟩ ⟨4295, 0⟩ : Int) := by
  decide

/-- C29, amended. For timestamps `start <= end` with nanosecond fields in `[0, 10^9)` and
`E` the elapsed time in nanoseconds: the value `v` of the expression satisfies
`floor(E/1000) <= v <= floor(E/1000) + 1`, with `v = floor(E/1000)` whenever
`end.tv_nsec >= start.tv_nsec`; the value stored in `delta_us` is `v` modulo `2^32`; it is
`v` itself when `v < 2^32`, which holds when `E` is below `2^32 - 1` microseconds. -/
theorem delta_us_bounds (start finish : timespec)
    (hs : 0 ≤ start.tv_nsec ∧ start.tv_nsec < 1000000000)
    (hf : 0 ≤ finish.tv_nsec ∧ finish.tv_nsec < 1000000000)
    (hle : 0 ≤ (finish.tv_sec - start.tv_sec) * 1000000000
      + (finish.tv_nsec - start.tv_nsec)) :
    ((finish.tv_sec - start.tv_sec) * 1000000000 + (finish.tv_nsec - start.tv_nsec)) / 1000
      ≤ delta_us_value start finish ∧
    delta_us_value start finish
      ≤ ((finish.tv_sec - start.tv_sec) * 1000000000
          + (finish.tv_nsec - start.tv_nsec)) / 1000 + 1 ∧
    (start.tv_nsec ≤ finish.tv_nsec →
      delta_us_value start finish
        = ((finish.tv_sec - start.tv_sec) * 1000000000
            + (finish.tv_nsec - start.tv_nsec)) / 1000) ∧
    (delta_us start finish : Int) = delta_us_value start finish % 4294967296 ∧
    (delta_us_value start finish < 4294967296 →
      (delta_us start finish : Int) = delta_us_value start finish) ∧
    ((finish.tv_sec - start.tv_sec) * 1000000000 + (finish.tv_nsec - start.tv_nsec)
        < 4294967295 * 1000 →
      (delta_us start finish : Int) = delta_us_value start finish) := by
  obtain ⟨hs0, hs1⟩ := hs
  obtain ⟨hf0, hf1⟩ := hf
  have hv : delta_us_value start finish
      = (finish.tv_sec - start.tv_sec) * 1000000
        + (if 0 ≤ finish.tv_nsec - start.tv_nsec then (finish.tv_nsec - start.tv_nsec) / 1000
          else -((-(finish.tv_nsec - start.tv_nsec)) / 1000)) := by
    rw [delta_us_value, tdiv_thousand]
  have hst : (delta_us start finish : Int) = delta_us_value start finish % 4294967296 := by
    rw [delta_us]
    exact Int.toNat_of_nonneg (Int.emod_nonneg _ (by decide))
  rw [hst, hv]
  split <;> refine ⟨?_, ?_, ?_, rfl, ?_, ?_⟩ <;> omega

/-- C29, amended, at `start = (1 s, 999999500 ns)` and `end = (2 s, 1001 ns)`: the elapsed
time is `1501 ns`, the expression and the stored value are `1000000 - 999998 = 2`, one
above the floor `1`. -/
theorem delta_us_bounds_witness :
    (delta_us ⟨1, 999999500⟩ ⟨2, 1001⟩ : Int) = delta_us_value ⟨1, 999999500⟩ ⟨2, 1001⟩ ∧
    delta_us_value ⟨1, 999999500⟩ ⟨2, 1001⟩
      = ((2 - 1) * 1000000000 + (1001 - 999999500)) / 1000 + 1 :=
  ⟨(delta_us_bounds ⟨1, 999999500⟩ ⟨2, 1001⟩ (by decide) (by decide) (by decide)).2.2.2.2.2
    (by decide), by decide⟩

/-! ## Index safety of the blitter -/

/-- C30. For every pixel `(x, y)` of the loops, `x < min(width, xres)` and
`y < min(height, yres)` (so `width, height >= 1`), the source indices
`((height - 1 - y) * width + x) * 4 + c` for `c` from 0 to 3 lie in
`[0, width * height * 4)`. When `line_length >= xres * (bpp / 8)` and the byte offsets
`offset / 8` of the red, green and blue channels, and of the alpha channel when it is
written, are below `bpp / 8`, every byte that `copy_to_framebuffer` stores to lies in
`[0, yres * line_length)`. -/
theorem copy_to_framebuffer_index_safety (pixels : Int → Nat) (width height : Int)
    (vinfo : fb_var_screeninfo) (finfo : fb_fix_screeninfo) :
    (∀ x y : Nat, (x : Int) < min width vinfo.xres → (y : Int) < min height vinfo.yres →
      ∀ c : Int, 0 ≤ c → c ≤ 3 →
        pixels_offset width height x y + c = ((height - 1 - y) * width + x) * 4 + c ∧
        0 ≤ pixels_offset width height x y + c ∧
        pixels_offset width height x y + c < width * height * 4) ∧
    (vinfo.xres * (vinfo.bits_per_pixel / 8) ≤ finfo.line_length →
      vinfo.red.offset / 8 < vinfo.bits_per_pixel / 8 →
      vinfo.green.offset / 8 < vinfo.bits_per_pixel / 8 →
      vinfo.blue.offset / 8 < vinfo.bits_per_pixel / 8 →
      (vinfo.transp.length > 0 → vinfo.transp.offset / 8 < vinfo.bits_per_pixel / 8) →
      ∀ s ∈ copy_to_framebuffer_stores pixels width height vinfo finfo,
        ∀ a ∈ s.bytes, a < vinfo.yres * finfo.line_length) := by
  constructor
  · intro x y hx hy c hc0 hc3
    obtain ⟨e, h0, h1⟩ := pixels_offset_range width height vinfo.xres vinfo.yres x y hx hy
    rw [e]
    refine ⟨rfl, by omega, by omega⟩
  · intro hll hr hg hb ht s hs a ha
    obtain ⟨x, y, hx, hy, hbody⟩ :=
      (mem_copy_to_framebuffer_stores pixels width height vinfo finfo s).1 hs
    have hsup : (vinfo.bits_per_pixel = 32 ∧ vinfo.red.offset / 8 < 4 ∧
        vinfo.green.offset / 8 < 4 ∧ vinfo.blue.offset / 8 < 4 ∧
        (vinfo.transp.length > 0 → vinfo.transp.offset / 8 < 4)) ∨
      (vinfo.bits_per_pixel = 24 ∧ vinfo.red.offset / 8 < 3 ∧
        vinfo.green.offset / 8 < 3 ∧ vinfo.blue.offset / 8 < 3) ∨
      vinfo.bits_per_pixel = 16 := by
      rcases hbody with ⟨-, h⟩ | ⟨-, h⟩ | ⟨-, h⟩
      · rw [h] at hr hg hb ht; exact Or.inl ⟨h, hr, hg, hb, ht⟩
      · rw [h] at hr hg hb; exact Or.inr (Or.inl ⟨h, hr, hg, hb⟩)
      · exact Or.inr (Or.inr h)
    obtain ⟨-, hlt⟩ := copy_pixel_bytes pixels width height vinfo finfo x y hsup s hbody a ha
    have hx' : x + 1 ≤ vinfo.xres := by
      have := lt_of_lt_of_le hx (min_le_right _ _)
      omega
    have hy' : y + 1 ≤ vinfo.yres := by
      have := lt_of_lt_of_le hy (min_le_right _ _)
      omega
    have h1 : (x + 1) * (vinfo.bits_per_pixel / 8) ≤ vinfo.xres * (vinfo.bits_per_pixel / 8) :=
      Nat.mul_le_mul_right _ hx'
    have h2 : (y + 1) * finfo.line_length ≤ vinfo.yres * finfo.line_length :=
      Nat.mul_le_mul_right _ hy'
    simp only [fb_offset] at hlt
    have e1 : (x + 1) * (vinfo.bits_per_pixel / 8)
        = x * (vinfo.bits_per_pixel / 8) + vinfo.bits_per_pixel / 8 := by ring
    have e2 : (y + 1) * finfo.line_length = y * finfo.line_length + finfo.line_length := by
      ring
    omega

/-- C30 on a framebuffer of 2 by 2 pixels of 32 bits with rows of 8 bytes and a source of
2 by 2 pixels: the store of the red byte of the pixel `(1, 1)` goes to byte 14, below 16. -/
theorem copy_to_framebuffer_index_safety_witness :
    Store.u8 14 0 ∈ copy_to_framebuffer_stores (fun _ => 0) 2 2
        ⟨2, 2, 32, ⟨16, 8⟩, ⟨8, 8⟩, ⟨0, 8⟩, ⟨24, 0⟩⟩ ⟨8⟩ ∧
    ∀ a ∈ (Store.u8 14 0).bytes, a < 2 * 8 :=
  ⟨by decide,
    (copy_to_framebuffer_index_safety (fun _ => 0) 2 2
        ⟨2, 2, 32, ⟨16, 8⟩, ⟨8, 8⟩, ⟨0, 8⟩, ⟨24, 0⟩⟩ ⟨8⟩).2
      (by decide) (by decide) (by decide) (by decide) (by decide)
      (Store.u8 14 0) (by decide)⟩

end TTYRenderer
